import Mathlib

/-!
# CSDIDAC middleware (cy_csdidac.c / cy_csdidac.h): shallow embedding

The context structure is passed explicitly (an absent context is `none`), the
hardware accesses a function performs (register writes, pin multiplexer
switches, calls of the CSD driver that touch the block) are returned as a list
in program order, and `uint32_t` arithmetic is arithmetic on `Nat` reduced
modulo `2 ^ 32` wherever a carry could occur. What the CSD driver answers (lock
key, conversion status, result of `Cy_CSD_Init`) is an argument of the
function that asks.
-/

namespace CSDIDAC

/-! ## Enumerated types (cy_csdidac.h) -/

/-- Return status of the middleware functions. -/
inductive cy_en_csdidac_status_t
  | CY_CSDIDAC_SUCCESS
  | CY_CSDIDAC_BAD_PARAM
  | CY_CSDIDAC_HW_BUSY
  | CY_CSDIDAC_HW_LOCKED
deriving DecidableEq, Repr

/-- Polarity of an output current. -/
inductive cy_en_csdidac_polarity_t
  | CY_CSDIDAC_SOURCE
  | CY_CSDIDAC_SINK
deriving DecidableEq, Repr

/-- Enabled / disabled flag (also used for the bus-only options). -/
inductive cy_en_csdidac_state_t
  | CY_CSDIDAC_DISABLE
  | CY_CSDIDAC_ENABLE
deriving DecidableEq, Repr

/-- Selector of the output channel. -/
inductive cy_en_csdidac_choice_t
  | CY_CSDIDAC_A
  | CY_CSDIDAC_B
deriving DecidableEq, Repr

open cy_en_csdidac_status_t cy_en_csdidac_polarity_t cy_en_csdidac_state_t
  cy_en_csdidac_choice_t

/-- Numeric value of a polarity enumerator (SOURCE = 0, SINK = 1). -/
def cy_en_csdidac_polarity_t.toNat : cy_en_csdidac_polarity_t → Nat
  | CY_CSDIDAC_SOURCE => 0
  | CY_CSDIDAC_SINK => 1

/-! The LSB enumeration `cy_en_csdidac_lsb_t` is kept as its numeric value. -/

def CY_CSDIDAC_LSB_37_IDX : Nat := 0
def CY_CSDIDAC_LSB_75_IDX : Nat := 1
def CY_CSDIDAC_LSB_300_IDX : Nat := 2
def CY_CSDIDAC_LSB_600_IDX : Nat := 3
def CY_CSDIDAC_LSB_2400_IDX : Nat := 4
def CY_CSDIDAC_LSB_4800_IDX : Nat := 5

/-! ## Macros -/

def CY_CSDIDAC_MAX_CODE : Nat := 127
def CY_CSDIDAC_MAX_CURRENT_NA : Nat := 609600

def CY_CSDIDAC_POLARITY_POS : Nat := 8
def CY_CSDIDAC_LSB_POS : Nat := 22
def CY_CSDIDAC_LEG1_EN_POS : Nat := 24
def CY_CSDIDAC_LEG1_EN_MASK : Nat := 1 <<< CY_CSDIDAC_LEG1_EN_POS
def CY_CSDIDAC_LEG2_EN_POS : Nat := 25
def CY_CSDIDAC_LEG2_EN_MASK : Nat := 1 <<< CY_CSDIDAC_LEG2_EN_POS

/-- LSB of 37.5 nA, held multiplied by ten. -/
def CY_CSDIDAC_LSB_37 : Nat := 375
def CY_CSDIDAC_LSB_75 : Nat := 75
def CY_CSDIDAC_LSB_300 : Nat := 300
def CY_CSDIDAC_LSB_600 : Nat := 600
def CY_CSDIDAC_LSB_2400 : Nat := 2400
def CY_CSDIDAC_LSB_4800 : Nat := 4800

def CY_CSDIDAC_CONST_2 : Nat := 2
def CY_CSDIDAC_CONST_10 : Nat := 10

/-- Modulus of `uint32_t` arithmetic. -/
def U32 : Nat := 4294967296

/-! ## Data structures -/

/-- Output pin: port register block (as an address) and pin number. -/
structure cy_stc_csdidac_pin_t where
  ioPcPtr : Nat
  pin : Nat
deriving DecidableEq, Repr

/-- Configuration structure; a NULL pin pointer is `none`. -/
structure cy_stc_csdidac_config_t where
  base : Nat
  csdCxtPtr : Nat
  periClk : Nat
  busOnlyA : cy_en_csdidac_state_t
  ptrPinA : Option cy_stc_csdidac_pin_t
  busOnlyB : cy_en_csdidac_state_t
  ptrPinB : Option cy_stc_csdidac_pin_t
  csdInitTime : Nat
deriving DecidableEq, Repr

/-- Context structure: configuration copy and the state of both channels. -/
structure cy_stc_csdidac_context_t where
  cfgCopy : cy_stc_csdidac_config_t
  polarityA : cy_en_csdidac_polarity_t
  lsbA : Nat
  codeA : Nat
  channelStateA : cy_en_csdidac_state_t
  polarityB : cy_en_csdidac_polarity_t
  lsbB : Nat
  codeB : Nat
  channelStateB : cy_en_csdidac_state_t
deriving DecidableEq, Repr

/-! ## Types of the CSD driver used by the middleware (cy_csd.h) -/

/-- Modelled from the spec: the key type `cy_en_csd_key_t` of the CSD driver,
declared outside this repository. The middleware names `CY_CSD_NONE_KEY` (the
block is not held) and `CY_CSD_IDAC_KEY` (its own key); every key of another
owner is `CY_CSD_OTHER_KEY n`. -/
inductive cy_en_csd_key_t
  | CY_CSD_NONE_KEY
  | CY_CSD_IDAC_KEY
  | CY_CSD_OTHER_KEY (n : Nat)
deriving DecidableEq, Repr

/-- Modelled from the spec: the status type `cy_en_csd_status_t` of the CSD
driver, declared outside this repository. The middleware names
`CY_CSD_SUCCESS`, `CY_CSD_BUSY` and `CY_CSD_LOCKED`; `CY_CSD_BAD_PARAM` stands
for any further answer of the driver. -/
inductive cy_en_csd_status_t
  | CY_CSD_SUCCESS
  | CY_CSD_BAD_PARAM
  | CY_CSD_BUSY
  | CY_CSD_LOCKED
deriving DecidableEq, Repr

/-- The register image `cy_stc_csd_config_t` handed to `Cy_CSD_Init`, with the
fields initialised by `CY_CSDIDAC_CSD_CONFIG_DEFAULT`. -/
structure cy_stc_csd_config_t where
  config : Nat
  spare : Nat
  status : Nat
  statSeq : Nat
  statCnts : Nat
  statHcnt : Nat
  resultVal1 : Nat
  resultVal2 : Nat
  adcRes : Nat
  intr : Nat
  intrSet : Nat
  intrMask : Nat
  intrMasked : Nat
  hscmp : Nat
  ambuf : Nat
  refgen : Nat
  csdCmp : Nat
  swRes : Nat
  sensePeriod : Nat
  senseDuty : Nat
  swHsPosSel : Nat
  swHsNegSel : Nat
  swShieldSel : Nat
  swAmuxbufSel : Nat
  swBypSel : Nat
  swCmpPosSel : Nat
  swCmpNegSel : Nat
  swRefgenSel : Nat
  swFwModSel : Nat
  swFwTankSel : Nat
  swDsiSel : Nat
  ioSel : Nat
  seqTime : Nat
  seqInitCnt : Nat
  seqNormCnt : Nat
  adcCtl : Nat
  seqStart : Nat
  idacA : Nat
  idacB : Nat
deriving DecidableEq, Repr

open cy_en_csd_key_t cy_en_csd_status_t

def CY_CSDIDAC_FSM_ABORT : Nat := 0x08
def CY_CSDIDAC_CSD_INTR_MASK_CLEAR_MSK : Nat := 0x00000000
def CY_CSDIDAC_SW_BYPA_ENABLE : Nat := 0x00001000
def CY_CSDIDAC_SW_BYPB_ENABLE : Nat := 0x00010000
def CY_CSDIDAC_SW_REFGEN_SEL_IBCB_ON : Nat := 0x00000010

/-- The initialiser `CY_CSDIDAC_CSD_CONFIG_DEFAULT`. -/
def CY_CSDIDAC_CSD_CONFIG_DEFAULT : cy_stc_csd_config_t :=
  { config := 0x80001000, spare := 0, status := 0, statSeq := 0, statCnts := 0,
    statHcnt := 0, resultVal1 := 0, resultVal2 := 0, adcRes := 0, intr := 0, intrSet := 0,
    intrMask := 0, intrMasked := 0, hscmp := 0, ambuf := 0, refgen := 0, csdCmp := 0,
    swRes := 0, sensePeriod := 0, senseDuty := 0, swHsPosSel := 0, swHsNegSel := 0,
    swShieldSel := 0, swAmuxbufSel := 0, swBypSel := 0, swCmpPosSel := 0, swCmpNegSel := 0,
    swRefgenSel := CY_CSDIDAC_SW_REFGEN_SEL_IBCB_ON, swFwModSel := 0, swFwTankSel := 0,
    swDsiSel := 0, ioSel := 0, seqTime := 0, seqInitCnt := 0, seqNormCnt := 0, adcCtl := 0,
    seqStart := 0, idacA := 0, idacB := 0 }

/-! ## Hardware accesses -/

/-- Registers of the CSD block written by the middleware. -/
inductive RegOffset
  | CY_CSD_REG_OFFSET_IDACA
  | CY_CSD_REG_OFFSET_IDACB
  | CY_CSD_REG_OFFSET_SW_BYP_SEL
  | CY_CSD_REG_OFFSET_INTR_MASK
  | CY_CSD_REG_OFFSET_SEQ_START
deriving DecidableEq, Repr

/-- Pin multiplexer selections used by the middleware
(`HSIOM_SEL_GPIO`, `HSIOM_SEL_AMUXA`, `HSIOM_SEL_AMUXB`). -/
inductive HsiomSel
  | HSIOM_SEL_GPIO_PIN
  | HSIOM_SEL_AMUXA
  | HSIOM_SEL_AMUXB
deriving DecidableEq, Repr

/-- One access to the hardware made through the drivers. `NullPinDeref` marks a
read of the pin structure through a NULL pin pointer. The query
`Cy_CSD_GetLockStatus` reads the lock key kept by the driver, not the hardware,
and is not listed. -/
inductive HwOp
  | Cy_CSD_WriteReg (base : Nat) (offset : RegOffset) (value : Nat)
  | Cy_GPIO_SetHSIOM (ioPcPtr : Nat) (pin : Nat) (sel : HsiomSel)
  | NullPinDeref
  | Cy_CSD_GetConversionStatus (base : Nat)
  | Cy_CSD_Init (base : Nat) (csdCfg : cy_stc_csd_config_t) (key : cy_en_csd_key_t)
  | Cy_CSD_DeInit (base : Nat) (key : cy_en_csd_key_t)
  | Cy_SysLib_DelayUs (us : Nat)
deriving DecidableEq, Repr

open RegOffset HsiomSel

/-- What a call leaves behind: returned status, the context afterwards and the
hardware accesses made, in order. -/
structure Outcome where
  status : cy_en_csdidac_status_t
  context : Option cy_stc_csdidac_context_t
  ops : List HwOp
deriving DecidableEq, Repr

/-- The call `Cy_GPIO_SetHSIOM(ptrPin->ioPcPtr, ptrPin->pin, sel)`. -/
def setPinHSIOM (ptrPin : Option cy_stc_csdidac_pin_t) (sel : HsiomSel) : List HwOp :=
  match ptrPin with
  | some p => [HwOp.Cy_GPIO_SetHSIOM p.ioPcPtr p.pin sel]
  | none => [HwOp.NullPinDeref]

/-! ## Cy_CSDIDAC_OutputEnableExt -/

/-- Value written to the IDAC register by `Cy_CSDIDAC_OutputEnableExt`. -/
def idacRegValue (polarity : cy_en_csdidac_polarity_t) (lsbIndex idacCode : Nat) : Nat :=
  let v0 := idacCode ||| ((polarity.toNat <<< CY_CSDIDAC_POLARITY_POS) % U32)
  let v1 := v0 ||| (((lsbIndex >>> 1) <<< CY_CSDIDAC_LSB_POS) % U32)
  let v2 := v1 ||| CY_CSDIDAC_LEG1_EN_MASK
  if 0 ≠ lsbIndex % CY_CSDIDAC_CONST_2 then v2 ||| CY_CSDIDAC_LEG2_EN_MASK else v2

/-- Embedding of `Cy_CSDIDAC_OutputEnableExt`. (The source reads
`context->cfgCopy.base` in an initializer before its NULL test; the embedding
starts at the test.) -/
def Cy_CSDIDAC_OutputEnableExt (outputCh : cy_en_csdidac_choice_t)
    (polarity : cy_en_csdidac_polarity_t) (lsbIndex : Nat) (idacCode : Nat)
    (context : Option cy_stc_csdidac_context_t) : Outcome :=
  match context with
  | none => ⟨CY_CSDIDAC_BAD_PARAM, none, []⟩
  | some ctx =>
    if CY_CSDIDAC_MAX_CODE ≥ idacCode then
      let retVal0 := CY_CSDIDAC_SUCCESS
      let retVal1 :=
        if outputCh = CY_CSDIDAC_A ∧ ctx.cfgCopy.ptrPinA = none ∧
            ctx.cfgCopy.busOnlyA ≠ CY_CSDIDAC_ENABLE then CY_CSDIDAC_BAD_PARAM else retVal0
      let retVal2 :=
        if outputCh = CY_CSDIDAC_B ∧ ctx.cfgCopy.ptrPinB = none ∧
            ctx.cfgCopy.busOnlyB ≠ CY_CSDIDAC_ENABLE then CY_CSDIDAC_BAD_PARAM else retVal1
      if retVal2 ≠ CY_CSDIDAC_BAD_PARAM then
        let ctx1 : cy_stc_csdidac_context_t :=
          if outputCh = CY_CSDIDAC_A then
            { ctx with polarityA := polarity, lsbA := lsbIndex, codeA := idacCode % 256,
                       channelStateA := CY_CSDIDAC_ENABLE }
          else
            { ctx with polarityB := polarity, lsbB := lsbIndex, codeB := idacCode % 256,
                       channelStateB := CY_CSDIDAC_ENABLE }
        let idacRegOffset :=
          if outputCh = CY_CSDIDAC_A then CY_CSD_REG_OFFSET_IDACA else CY_CSD_REG_OFFSET_IDACB
        let write := [HwOp.Cy_CSD_WriteReg ctx.cfgCopy.base idacRegOffset
          (idacRegValue polarity lsbIndex idacCode)]
        let connectA :=
          if outputCh = CY_CSDIDAC_A ∧ ctx1.cfgCopy.busOnlyA ≠ CY_CSDIDAC_ENABLE then
            setPinHSIOM ctx1.cfgCopy.ptrPinA HSIOM_SEL_AMUXA else []
        let connectB :=
          if outputCh = CY_CSDIDAC_B ∧ ctx1.cfgCopy.busOnlyB ≠ CY_CSDIDAC_ENABLE then
            setPinHSIOM ctx1.cfgCopy.ptrPinB HSIOM_SEL_AMUXB else []
        ⟨retVal2, some ctx1, write ++ connectA ++ connectB⟩
      else
        ⟨retVal2, some ctx, []⟩
    else
      ⟨CY_CSDIDAC_BAD_PARAM, some ctx, []⟩

/-! ## Cy_CSDIDAC_OutputEnable -/

/-- The value `absCurrent` of `Cy_CSDIDAC_OutputEnable`:
`(0 > current) ? (uint32_t)(-current) : (uint32_t)current`, the conversion to
`uint32_t` being reduction modulo `2 ^ 32` (so the most negative `int32_t`
gives `2 ^ 31`). -/
def absCurrent (current : Int) : Nat :=
  if 0 > current then ((-current) % (U32 : Int)).toNat else (current % (U32 : Int)).toNat

/-- The LSB index and the IDAC code (before the clamp) chosen by the
`if` / `else if` chain of `Cy_CSDIDAC_OutputEnable`. -/
def lsbAndCode (absCur : Nat) : Nat × Nat :=
  let tmpLsb := absCur / CY_CSDIDAC_MAX_CODE
  if tmpLsb > CY_CSDIDAC_LSB_2400 then
    (CY_CSDIDAC_LSB_4800_IDX,
      ((absCur + (CY_CSDIDAC_LSB_4800 >>> 1)) % U32) / CY_CSDIDAC_LSB_4800)
  else if tmpLsb > CY_CSDIDAC_LSB_600 then
    (CY_CSDIDAC_LSB_2400_IDX,
      ((absCur + (CY_CSDIDAC_LSB_2400 >>> 1)) % U32) / CY_CSDIDAC_LSB_2400)
  else if tmpLsb > CY_CSDIDAC_LSB_300 then
    (CY_CSDIDAC_LSB_600_IDX,
      ((absCur + (CY_CSDIDAC_LSB_600 >>> 1)) % U32) / CY_CSDIDAC_LSB_600)
  else if tmpLsb > CY_CSDIDAC_LSB_75 then
    (CY_CSDIDAC_LSB_300_IDX,
      ((absCur + (CY_CSDIDAC_LSB_300 >>> 1)) % U32) / CY_CSDIDAC_LSB_300)
  else if (tmpLsb * CY_CSDIDAC_CONST_10) % U32 > CY_CSDIDAC_LSB_37 then
    (CY_CSDIDAC_LSB_75_IDX,
      ((absCur + (CY_CSDIDAC_LSB_75 >>> 1)) % U32) / CY_CSDIDAC_LSB_75)
  else
    (CY_CSDIDAC_LSB_37_IDX,
      (((absCur * CY_CSDIDAC_CONST_10) % U32 + (CY_CSDIDAC_LSB_37 >>> 1)) % U32)
        / CY_CSDIDAC_LSB_37)

/-- The clamp `if (code > CY_CSDIDAC_MAX_CODE) code = CY_CSDIDAC_MAX_CODE`. -/
def clampCode (code : Nat) : Nat :=
  if code > CY_CSDIDAC_MAX_CODE then CY_CSDIDAC_MAX_CODE else code

/-- Embedding of `Cy_CSDIDAC_OutputEnable`. -/
def Cy_CSDIDAC_OutputEnable (ch : cy_en_csdidac_choice_t) (current : Int)
    (context : Option cy_stc_csdidac_context_t) : Outcome :=
  let absCur := absCurrent current
  match context with
  | none => ⟨CY_CSDIDAC_BAD_PARAM, none, []⟩
  | some ctx =>
    if CY_CSDIDAC_MAX_CURRENT_NA ≥ absCur then
      let polarity := if 0 > current then CY_CSDIDAC_SINK else CY_CSDIDAC_SOURCE
      let lsb := (lsbAndCode absCur).1
      let code := clampCode (lsbAndCode absCur).2
      Cy_CSDIDAC_OutputEnableExt ch polarity lsb code (some ctx)
    else
      ⟨CY_CSDIDAC_BAD_PARAM, some ctx, []⟩

/-! ## Cy_CSDIDAC_DisconnectChannelA / B and Cy_CSDIDAC_OutputDisable -/

/-- Embedding of `Cy_CSDIDAC_DisconnectChannelA`: the context afterwards and
the hardware accesses. -/
def Cy_CSDIDAC_DisconnectChannelA (ctx : cy_stc_csdidac_context_t) :
    cy_stc_csdidac_context_t × List HwOp :=
  let write := [HwOp.Cy_CSD_WriteReg ctx.cfgCopy.base CY_CSD_REG_OFFSET_IDACA 0]
  let pinOp :=
    if ctx.cfgCopy.busOnlyA ≠ CY_CSDIDAC_ENABLE ∧ ctx.cfgCopy.ptrPinA ≠ none then
      setPinHSIOM ctx.cfgCopy.ptrPinA HSIOM_SEL_GPIO_PIN else []
  ({ ctx with channelStateA := CY_CSDIDAC_DISABLE }, write ++ pinOp)

/-- Embedding of `Cy_CSDIDAC_DisconnectChannelB`. -/
def Cy_CSDIDAC_DisconnectChannelB (ctx : cy_stc_csdidac_context_t) :
    cy_stc_csdidac_context_t × List HwOp :=
  let write := [HwOp.Cy_CSD_WriteReg ctx.cfgCopy.base CY_CSD_REG_OFFSET_IDACB 0]
  let pinOp :=
    if ctx.cfgCopy.busOnlyB ≠ CY_CSDIDAC_ENABLE ∧ ctx.cfgCopy.ptrPinB ≠ none then
      setPinHSIOM ctx.cfgCopy.ptrPinB HSIOM_SEL_GPIO_PIN else []
  ({ ctx with channelStateB := CY_CSDIDAC_DISABLE }, write ++ pinOp)

/-- Embedding of `Cy_CSDIDAC_OutputDisable`. -/
def Cy_CSDIDAC_OutputDisable (ch : cy_en_csdidac_choice_t)
    (context : Option cy_stc_csdidac_context_t) : Outcome :=
  match context with
  | none => ⟨CY_CSDIDAC_BAD_PARAM, none, []⟩
  | some ctx =>
    let r1 := if ch = CY_CSDIDAC_A then Cy_CSDIDAC_DisconnectChannelA ctx else (ctx, [])
    let r2 := if ch = CY_CSDIDAC_B then Cy_CSDIDAC_DisconnectChannelB r1.1 else (r1.1, [])
    ⟨CY_CSDIDAC_SUCCESS, some r2.1, r1.2 ++ r2.2⟩

/-! ## Reading the state of a channel -/

/-- The channel has a destination: a pin or bus-only routing. -/
def hasDestination (ch : cy_en_csdidac_choice_t) (cfg : cy_stc_csdidac_config_t) : Prop :=
  match ch with
  | CY_CSDIDAC_A => cfg.ptrPinA ≠ none ∨ cfg.busOnlyA = CY_CSDIDAC_ENABLE
  | CY_CSDIDAC_B => cfg.ptrPinB ≠ none ∨ cfg.busOnlyB = CY_CSDIDAC_ENABLE

instance (ch : cy_en_csdidac_choice_t) (cfg : cy_stc_csdidac_config_t) :
    Decidable (hasDestination ch cfg) := by
  cases ch <;> unfold hasDestination <;> infer_instance

/-- Recorded polarity of a channel. -/
def chPolarity (ch : cy_en_csdidac_choice_t) (ctx : cy_stc_csdidac_context_t) :
    cy_en_csdidac_polarity_t :=
  match ch with
  | CY_CSDIDAC_A => ctx.polarityA
  | CY_CSDIDAC_B => ctx.polarityB

/-- Recorded LSB index of a channel. -/
def chLsb (ch : cy_en_csdidac_choice_t) (ctx : cy_stc_csdidac_context_t) : Nat :=
  match ch with
  | CY_CSDIDAC_A => ctx.lsbA
  | CY_CSDIDAC_B => ctx.lsbB

/-- Recorded IDAC code of a channel. -/
def chCode (ch : cy_en_csdidac_choice_t) (ctx : cy_stc_csdidac_context_t) : Nat :=
  match ch with
  | CY_CSDIDAC_A => ctx.codeA
  | CY_CSDIDAC_B => ctx.codeB

/-- Recorded enabled flag of a channel. -/
def chState (ch : cy_en_csdidac_choice_t) (ctx : cy_stc_csdidac_context_t) :
    cy_en_csdidac_state_t :=
  match ch with
  | CY_CSDIDAC_A => ctx.channelStateA
  | CY_CSDIDAC_B => ctx.channelStateB

/-- A sample context: channel A on a pin, channel B bus-only. -/
def sampleCtx : cy_stc_csdidac_context_t :=
  { cfgCopy :=
      { base := 1, csdCxtPtr := 2, periClk := 50000000,
        busOnlyA := CY_CSDIDAC_DISABLE, ptrPinA := some ⟨7, 3⟩,
        busOnlyB := CY_CSDIDAC_ENABLE, ptrPinB := none, csdInitTime := 25 },
    polarityA := CY_CSDIDAC_SOURCE, lsbA := 0, codeA := 0,
    channelStateA := CY_CSDIDAC_DISABLE,
    polarityB := CY_CSDIDAC_SOURCE, lsbB := 0, codeB := 0,
    channelStateB := CY_CSDIDAC_DISABLE }

/-- A sample context in which no channel has a destination. -/
def bareCtx : cy_stc_csdidac_context_t :=
  { sampleCtx with
    cfgCopy := { sampleCtx.cfgCopy with ptrPinA := none, busOnlyB := CY_CSDIDAC_DISABLE } }

/-- What a call left recorded for a channel: polarity, LSB index and IDAC code. -/
def recorded (ch : cy_en_csdidac_choice_t) (r : Outcome) :
    Option (cy_en_csdidac_polarity_t × Nat × Nat) :=
  r.context.map fun c => (chPolarity ch c, chLsb ch c, chCode ch c)

/-! ## The LSB table of the header, for stating the quantizer properties -/

/-- LSB of each index in tenths of nA (37.5, 75, 300, 600, 2400, 4800 nA). -/
def stepTenths (idx : Nat) : Nat :=
  match idx with
  | 0 => 375
  | 1 => 750
  | 2 => 3000
  | 3 => 6000
  | 4 => 24000
  | _ => 48000

/-- LSB of each index in nA, as an exact rational. -/
def stepNA (idx : Nat) : ℚ :=
  match idx with
  | 0 => 75 / 2
  | 1 => 75
  | 2 => 300
  | 3 => 600
  | 4 => 2400
  | _ => 4800

/-- Rounding of a rational to the nearest integer, halves rounded up. -/
def roundHalfUp (x : ℚ) : Int := ⌊x + 1 / 2⌋

/-! ## Cy_CSDIDAC_Restore -/

/-- The statements that set the bypass switch bits of a channel with a pin or
bus-only routing, as written in `Cy_CSDIDAC_Restore` (on `csdCfg.swBypSel`) and
in `Cy_CSDIDAC_WriteConfig` (on `swBypSelValue`). -/
def swBypSelBits (start : Nat) (cfg : cy_stc_csdidac_config_t) : Nat :=
  let v1 :=
    if cfg.ptrPinA ≠ none ∨ cfg.busOnlyA = CY_CSDIDAC_ENABLE then
      start ||| CY_CSDIDAC_SW_BYPA_ENABLE else start
  if cfg.ptrPinB ≠ none ∨ cfg.busOnlyB = CY_CSDIDAC_ENABLE then
    v1 ||| CY_CSDIDAC_SW_BYPB_ENABLE else v1

/-- The watchdog loop of `Cy_CSDIDAC_Restore`,
`while ((CY_CSD_BUSY == initStatus) && (0u != watchdogCounter))`. The answer of
the driver to the call number `k` of `Cy_CSD_GetConversionStatus` is
`convStatus k`; the loop returns the last status and the calls it made. -/
def watchdogLoop (convStatus : Nat → cy_en_csd_status_t) (base : Nat) :
    Nat → cy_en_csd_status_t → Nat → cy_en_csd_status_t × List HwOp
  | _, initStatus, 0 => (initStatus, [])
  | k, initStatus, watchdogCounter + 1 =>
    if initStatus = CY_CSD_BUSY then
      let r := watchdogLoop convStatus base (k + 1) (convStatus k) watchdogCounter
      (r.1, HwOp.Cy_CSD_GetConversionStatus base :: r.2)
    else
      (initStatus, [])

/-- Initial value of `watchdogCounter`:
`(initWatchdogTimeS * context->cfgCopy.periClk) / intrInitLoopDuration`. -/
def watchdogBudget (periClk : Nat) : Nat :=
  let intrInitLoopDuration := 5
  let initWatchdogTimeS := 1
  ((initWatchdogTimeS * periClk) % U32) / intrInitLoopDuration

/-- Embedding of `Cy_CSDIDAC_Restore`. The answers of the CSD driver are
arguments: `mvKey` is what `Cy_CSD_GetLockStatus` returns, `convStatus k` what
call number `k` of `Cy_CSD_GetConversionStatus` returns, and `csdInitStatus`
what `Cy_CSD_Init` returns. (The source reads `context->cfgCopy` in initializers
before its NULL test; the embedding starts at the test.) -/
def Cy_CSDIDAC_Restore (mvKey : cy_en_csd_key_t) (convStatus : Nat → cy_en_csd_status_t)
    (csdInitStatus : cy_en_csd_status_t) (context : Option cy_stc_csdidac_context_t) :
    Outcome :=
  match context with
  | none => ⟨CY_CSDIDAC_BAD_PARAM, none, []⟩
  | some ctx =>
    let ptrCsdBaseAdd := ctx.cfgCopy.base
    if CY_CSD_NONE_KEY = mvKey then
      let initStatus := convStatus 0
      let query := [HwOp.Cy_CSD_GetConversionStatus ptrCsdBaseAdd]
      let abort :=
        if CY_CSD_BUSY = initStatus then
          [HwOp.Cy_CSD_WriteReg ptrCsdBaseAdd CY_CSD_REG_OFFSET_INTR_MASK
              CY_CSDIDAC_CSD_INTR_MASK_CLEAR_MSK,
            HwOp.Cy_CSD_WriteReg ptrCsdBaseAdd CY_CSD_REG_OFFSET_SEQ_START
              CY_CSDIDAC_FSM_ABORT]
            ++ (watchdogLoop convStatus ptrCsdBaseAdd 1 initStatus
                  (watchdogBudget ctx.cfgCopy.periClk)).2
        else []
      let csdCfg : cy_stc_csd_config_t :=
        { CY_CSDIDAC_CSD_CONFIG_DEFAULT with
          swBypSel := swBypSelBits CY_CSDIDAC_CSD_CONFIG_DEFAULT.swBypSel ctx.cfgCopy }
      let capture := [HwOp.Cy_CSD_Init ptrCsdBaseAdd csdCfg CY_CSD_IDAC_KEY]
      let result :=
        if CY_CSD_SUCCESS = csdInitStatus then CY_CSDIDAC_SUCCESS else CY_CSDIDAC_HW_BUSY
      ⟨result, some ctx, query ++ abort ++ capture⟩
    else
      ⟨CY_CSDIDAC_HW_LOCKED, some ctx, []⟩

/-! ## Reading a configuration and a list of hardware accesses -/

/-- The pin pointer configured for a channel. -/
def cfgPin (ch : cy_en_csdidac_choice_t) (cfg : cy_stc_csdidac_config_t) :
    Option cy_stc_csdidac_pin_t :=
  match ch with
  | CY_CSDIDAC_A => cfg.ptrPinA
  | CY_CSDIDAC_B => cfg.ptrPinB

/-- The bus-only option configured for a channel. -/
def cfgBusOnly (ch : cy_en_csdidac_choice_t) (cfg : cy_stc_csdidac_config_t) :
    cy_en_csdidac_state_t :=
  match ch with
  | CY_CSDIDAC_A => cfg.busOnlyA
  | CY_CSDIDAC_B => cfg.busOnlyB

/-- The IDAC register of a channel. -/
def idacRegOf (ch : cy_en_csdidac_choice_t) : RegOffset :=
  match ch with
  | CY_CSDIDAC_A => CY_CSD_REG_OFFSET_IDACA
  | CY_CSDIDAC_B => CY_CSD_REG_OFFSET_IDACB

/-- The analog bus of a channel. -/
def amuxOf (ch : cy_en_csdidac_choice_t) : HsiomSel :=
  match ch with
  | CY_CSDIDAC_A => HSIOM_SEL_AMUXA
  | CY_CSDIDAC_B => HSIOM_SEL_AMUXB

/-- The register writes among a list of hardware accesses, in order. -/
def regWrites (ops : List HwOp) : List (Nat × RegOffset × Nat) :=
  ops.filterMap fun op =>
    match op with
    | HwOp.Cy_CSD_WriteReg base offset value => some (base, offset, value)
    | _ => none

/-- The pin operations among a list of hardware accesses, in order (a read
through a NULL pin pointer included). -/
def pinOps (ops : List HwOp) : List HwOp :=
  ops.filter fun op =>
    match op with
    | HwOp.Cy_GPIO_SetHSIOM _ _ _ => true
    | HwOp.NullPinDeref => true
    | _ => false

/-- The calls of `Cy_CSD_GetConversionStatus` among a list of hardware accesses. -/
def conversionPolls (ops : List HwOp) : Nat :=
  (ops.filter fun op =>
    match op with
    | HwOp.Cy_CSD_GetConversionStatus _ => true
    | _ => false).length

/-- The other channel. -/
def otherChannel (ch : cy_en_csdidac_choice_t) : cy_en_csdidac_choice_t :=
  match ch with
  | CY_CSDIDAC_A => CY_CSDIDAC_B
  | CY_CSDIDAC_B => CY_CSDIDAC_A

/-- Driver answers in which the conversion never finishes. -/
def alwaysBusy : Nat → cy_en_csd_status_t := fun _ => CY_CSD_BUSY

/-- Driver answers in which the conversion is busy for the first three queries. -/
def busyThrice : Nat → cy_en_csd_status_t :=
  fun k => if k < 3 then CY_CSD_BUSY else CY_CSD_SUCCESS

/-- The lock-key provider reports a holder other than this middleware. -/
def heldByOtherOwner (key : cy_en_csd_key_t) : Prop :=
  key ≠ CY_CSD_NONE_KEY ∧ key ≠ CY_CSD_IDAC_KEY

instance (key : cy_en_csd_key_t) : Decidable (heldByOtherOwner key) := by
  unfold heldByOtherOwner
  infer_instance

/-! ## Cy_CSDIDAC_Wakeup, Cy_CSDIDAC_Init, Cy_CSDIDAC_Save, Cy_CSDIDAC_DeInit -/

/-- Embedding of `Cy_CSDIDAC_Wakeup`; the argument of the delay is
`(uint16_t)context->cfgCopy.csdInitTime`. -/
def Cy_CSDIDAC_Wakeup (context : Option cy_stc_csdidac_context_t) : Outcome :=
  match context with
  | none => ⟨CY_CSDIDAC_BAD_PARAM, none, []⟩
  | some ctx =>
    ⟨CY_CSDIDAC_SUCCESS, some ctx, [HwOp.Cy_SysLib_DelayUs (ctx.cfgCopy.csdInitTime % 65536)]⟩

/-- Embedding of `Cy_CSDIDAC_Init`. The answers of the CSD driver to the inner
`Cy_CSDIDAC_Restore` are arguments, as for that function. -/
def Cy_CSDIDAC_Init (mvKey : cy_en_csd_key_t) (convStatus : Nat → cy_en_csd_status_t)
    (csdInitStatus : cy_en_csd_status_t) (config : Option cy_stc_csdidac_config_t)
    (context : Option cy_stc_csdidac_context_t) : Outcome :=
  match config, context with
  | some cfg, some ctx =>
    let ctx1 : cy_stc_csdidac_context_t := { ctx with cfgCopy := cfg }
    let restore := Cy_CSDIDAC_Restore mvKey convStatus csdInitStatus (some ctx1)
    let ctx2 := restore.context.getD ctx1
    if CY_CSDIDAC_SUCCESS = restore.status then
      let a := Cy_CSDIDAC_DisconnectChannelA ctx2
      let b := Cy_CSDIDAC_DisconnectChannelB a.1
      let wake := Cy_CSDIDAC_Wakeup (some b.1)
      ⟨restore.status, some b.1, restore.ops ++ a.2 ++ b.2 ++ wake.ops⟩
    else
      ⟨CY_CSDIDAC_HW_LOCKED, some ctx2, restore.ops⟩
  | _, _ => ⟨CY_CSDIDAC_BAD_PARAM, context, []⟩

/-- Embedding of `Cy_CSDIDAC_Save`; `csdDeInitStatus` is what `Cy_CSD_DeInit`
returns. -/
def Cy_CSDIDAC_Save (csdDeInitStatus : cy_en_csd_status_t)
    (context : Option cy_stc_csdidac_context_t) : Outcome :=
  match context with
  | none => ⟨CY_CSDIDAC_BAD_PARAM, none, []⟩
  | some ctx =>
    let release := [HwOp.Cy_CSD_DeInit ctx.cfgCopy.base CY_CSD_IDAC_KEY]
    if CY_CSD_SUCCESS = csdDeInitStatus then
      let a := Cy_CSDIDAC_DisconnectChannelA ctx
      let b := Cy_CSDIDAC_DisconnectChannelB a.1
      ⟨CY_CSDIDAC_SUCCESS, some b.1, release ++ a.2 ++ b.2⟩
    else
      ⟨CY_CSDIDAC_HW_LOCKED, some ctx, release⟩

/-- Embedding of `Cy_CSDIDAC_DeInit`: `return (Cy_CSDIDAC_Save(context));`. -/
def Cy_CSDIDAC_DeInit (csdDeInitStatus : cy_en_csd_status_t)
    (context : Option cy_stc_csdidac_context_t) : Outcome :=
  Cy_CSDIDAC_Save csdDeInitStatus context

/-! ## Cy_CSDIDAC_WriteConfig -/

/-- Embedding of `Cy_CSDIDAC_WriteConfig`; `mvKey` is what
`Cy_CSD_GetLockStatus` returns. -/
def Cy_CSDIDAC_WriteConfig (mvKey : cy_en_csd_key_t)
    (config : Option cy_stc_csdidac_config_t)
    (context : Option cy_stc_csdidac_context_t) : Outcome :=
  match config, context with
  | some cfg, some ctx =>
    if CY_CSD_IDAC_KEY = mvKey then
      if CY_CSDIDAC_DISABLE = ctx.channelStateA ∧ CY_CSDIDAC_DISABLE = ctx.channelStateB then
        let ctx1 : cy_stc_csdidac_context_t := { ctx with cfgCopy := cfg }
        let swBypSelValue := swBypSelBits 0 ctx1.cfgCopy
        ⟨CY_CSDIDAC_SUCCESS, some ctx1,
          [HwOp.Cy_CSD_WriteReg ctx1.cfgCopy.base CY_CSD_REG_OFFSET_SW_BYP_SEL swBypSelValue]⟩
      else
        ⟨CY_CSDIDAC_HW_BUSY, some ctx, []⟩
    else
      ⟨CY_CSDIDAC_HW_LOCKED, some ctx, []⟩
  | _, _ => ⟨CY_CSDIDAC_BAD_PARAM, context, []⟩

/-! ## Cy_CSDIDAC_DeepSleepCallback -/

/-- Modelled from the spec: the status type `cy_en_syspm_status_t` of the power
management driver, declared outside this repository; the two values the
middleware returns. -/
inductive cy_en_syspm_status_t
  | CY_SYSPM_SUCCESS
  | CY_SYSPM_FAIL
deriving DecidableEq, Repr

/-- Modelled from the spec: the mode type `cy_en_syspm_callback_mode_t` of the
power management driver, declared outside this repository. The middleware
names `CY_SYSPM_CHECK_READY`; the other modes of a transition are listed after
it. -/
inductive cy_en_syspm_callback_mode_t
  | CY_SYSPM_CHECK_READY
  | CY_SYSPM_CHECK_FAIL
  | CY_SYSPM_BEFORE_TRANSITION
  | CY_SYSPM_AFTER_TRANSITION
deriving DecidableEq, Repr

open cy_en_syspm_status_t cy_en_syspm_callback_mode_t

/-- Embedding of `Cy_CSDIDAC_DeepSleepCallback`: the returned value, the
context afterwards and the hardware accesses made. `csdIdacCxt` is the context
`callbackParams->context` points to (read without a NULL test), `mvKey` what
`Cy_CSD_GetLockStatus` returns. -/
def Cy_CSDIDAC_DeepSleepCallback (mvKey : cy_en_csd_key_t)
    (csdIdacCxt : cy_stc_csdidac_context_t) (mode : cy_en_syspm_callback_mode_t) :
    cy_en_syspm_status_t × cy_stc_csdidac_context_t × List HwOp :=
  let retVal :=
    if CY_SYSPM_CHECK_READY = mode then
      if CY_CSD_IDAC_KEY = mvKey ∧
          (CY_CSDIDAC_ENABLE = csdIdacCxt.channelStateA ∨
            CY_CSDIDAC_ENABLE = csdIdacCxt.channelStateB) then
        CY_SYSPM_FAIL
      else CY_SYSPM_SUCCESS
    else CY_SYSPM_SUCCESS
  (retVal, csdIdacCxt, [])

/-! ## Sequences of calls -/

/-- The hardware accesses that disable and disconnect a channel: zero to its
IDAC register, then its pin back to GPIO when a pin is configured and the
channel is not bus-only. -/
def disconnectAccesses (ch : cy_en_csdidac_choice_t) (cfg : cy_stc_csdidac_config_t) :
    List HwOp :=
  HwOp.Cy_CSD_WriteReg cfg.base (idacRegOf ch) 0 ::
    (match cfgPin ch cfg with
     | some p =>
       if cfgBusOnly ch cfg ≠ CY_CSDIDAC_ENABLE then
         [HwOp.Cy_GPIO_SetHSIOM p.ioPcPtr p.pin HSIOM_SEL_GPIO_PIN] else []
     | none => [])

/-- One call of a public function on the context, with its arguments and the
answers the CSD driver gives during the call. -/
inductive Call
  | Init (mvKey : cy_en_csd_key_t) (convStatus : Nat → cy_en_csd_status_t)
      (csdInitStatus : cy_en_csd_status_t) (config : Option cy_stc_csdidac_config_t)
  | DeInit (csdDeInitStatus : cy_en_csd_status_t)
  | Save (csdDeInitStatus : cy_en_csd_status_t)
  | Restore (mvKey : cy_en_csd_key_t) (convStatus : Nat → cy_en_csd_status_t)
      (csdInitStatus : cy_en_csd_status_t)
  | WriteConfig (mvKey : cy_en_csd_key_t) (config : Option cy_stc_csdidac_config_t)
  | OutputEnable (ch : cy_en_csdidac_choice_t) (current : Int)
  | OutputEnableExt (ch : cy_en_csdidac_choice_t) (polarity : cy_en_csdidac_polarity_t)
      (lsbIndex : Nat) (idacCode : Nat)
  | OutputDisable (ch : cy_en_csdidac_choice_t)

/-- The outcome of a call on a context. -/
def Call.run (call : Call) (context : Option cy_stc_csdidac_context_t) : Outcome :=
  match call with
  | Call.Init mvKey convStatus csdInitStatus config =>
    Cy_CSDIDAC_Init mvKey convStatus csdInitStatus config context
  | Call.DeInit csdDeInitStatus => Cy_CSDIDAC_DeInit csdDeInitStatus context
  | Call.Save csdDeInitStatus => Cy_CSDIDAC_Save csdDeInitStatus context
  | Call.Restore mvKey convStatus csdInitStatus =>
    Cy_CSDIDAC_Restore mvKey convStatus csdInitStatus context
  | Call.WriteConfig mvKey config => Cy_CSDIDAC_WriteConfig mvKey config context
  | Call.OutputEnable ch current => Cy_CSDIDAC_OutputEnable ch current context
  | Call.OutputEnableExt ch polarity lsbIndex idacCode =>
    Cy_CSDIDAC_OutputEnableExt ch polarity lsbIndex idacCode context
  | Call.OutputDisable ch => Cy_CSDIDAC_OutputDisable ch context

/-- The call is a `Cy_CSDIDAC_Init` that does not succeed on the context. -/
def Call.isFailedInit (call : Call) (ctx : cy_stc_csdidac_context_t) : Prop :=
  match call with
  | Call.Init mvKey convStatus csdInitStatus config =>
    (Cy_CSDIDAC_Init mvKey convStatus csdInitStatus config (some ctx)).status
      ≠ CY_CSDIDAC_SUCCESS
  | _ => False

/-- Contexts reachable from a successful `Cy_CSDIDAC_Init` by any sequence of
calls of the public functions, the driver answering anything. -/
inductive Reachable : cy_stc_csdidac_context_t → Prop
  | init (mvKey : cy_en_csd_key_t) (convStatus : Nat → cy_en_csd_status_t)
      (csdInitStatus : cy_en_csd_status_t) (cfg : cy_stc_csdidac_config_t)
      (ctx0 ctx : cy_stc_csdidac_context_t) :
      (Cy_CSDIDAC_Init mvKey convStatus csdInitStatus (some cfg) (some ctx0)).status
        = CY_CSDIDAC_SUCCESS →
      (Cy_CSDIDAC_Init mvKey convStatus csdInitStatus (some cfg) (some ctx0)).context
        = some ctx →
      Reachable ctx
  | step (call : Call) (ctx ctx1 : cy_stc_csdidac_context_t) :
      Reachable ctx → (call.run (some ctx)).context = some ctx1 → Reachable ctx1

/-- Contexts reachable from a successful `Cy_CSDIDAC_Init` by any sequence of
calls of the public functions in which no later `Cy_CSDIDAC_Init` fails. -/
inductive ReachableInitOk : cy_stc_csdidac_context_t → Prop
  | init (mvKey : cy_en_csd_key_t) (convStatus : Nat → cy_en_csd_status_t)
      (csdInitStatus : cy_en_csd_status_t) (cfg : cy_stc_csdidac_config_t)
      (ctx0 ctx : cy_stc_csdidac_context_t) :
      (Cy_CSDIDAC_Init mvKey convStatus csdInitStatus (some cfg) (some ctx0)).status
        = CY_CSDIDAC_SUCCESS →
      (Cy_CSDIDAC_Init mvKey convStatus csdInitStatus (some cfg) (some ctx0)).context
        = some ctx →
      ReachableInitOk ctx
  | step (call : Call) (ctx ctx1 : cy_stc_csdidac_context_t) :
      ReachableInitOk ctx → ¬ call.isFailedInit ctx →
      (call.run (some ctx)).context = some ctx1 → ReachableInitOk ctx1

/-- Every enabled channel has a destination in the configuration copy. -/
def enabledHasDestination (ctx : cy_stc_csdidac_context_t) : Prop :=
  ∀ ch, chState ch ctx = CY_CSDIDAC_ENABLE → hasDestination ch ctx.cfgCopy

/-- The sample context with channel A enabled. -/
def enabledCtx : cy_stc_csdidac_context_t :=
  { sampleCtx with channelStateA := CY_CSDIDAC_ENABLE }

/-! ## Further notions for stating properties -/

/-- Both recorded codes are within the 7-bit range of the IDAC. -/
def codesInRange (ctx : cy_stc_csdidac_context_t) : Prop :=
  chCode CY_CSDIDAC_A ctx ≤ 127 ∧ chCode CY_CSDIDAC_B ctx ≤ 127

instance (ctx : cy_stc_csdidac_context_t) : Decidable (codesInRange ctx) := by
  unfold codesInRange
  infer_instance

/-- The LSB index and the code before the clamp as `lsbAndCode` computes them,
but in unbounded integer arithmetic (no reduction modulo `2 ^ 32`). -/
def lsbAndCodeExact (absCur : Nat) : Nat × Nat :=
  let tmpLsb := absCur / 127
  if tmpLsb > 2400 then (5, (absCur + 4800 / 2) / 4800)
  else if tmpLsb > 600 then (4, (absCur + 2400 / 2) / 2400)
  else if tmpLsb > 300 then (3, (absCur + 600 / 2) / 600)
  else if tmpLsb > 75 then (2, (absCur + 300 / 2) / 300)
  else if tmpLsb * 10 > 375 then (1, (absCur + 75 / 2) / 75)
  else (0, (absCur * 10 + 375 / 2) / 375)

/-- The threshold walk on `t = |c| / 127` in the words of the claim. -/
def thresholdWalk (t : Nat) : Nat :=
  if t > 2400 then 5 else if t > 600 then 4 else if t > 300 then 3
  else if t > 75 then 2 else if 10 * t > 375 then 1 else 0

/-- The magnitude programmed for a requested magnitude, in tenths of nA: the
LSB of the chosen index times the clamped code. -/
def programmedTenths (absCur : Nat) : Nat :=
  stepTenths (lsbAndCode absCur).1 * clampCode (lsbAndCode absCur).2

/-- Decoding of the register word: the code field `w & 0x7F`. -/
def wordCode (w : Nat) : Nat := w &&& 0x7F

/-- Decoding of the register word: the polarity field `(w >> 8) & 3`. -/
def wordPolarity (w : Nat) : Nat := (w >>> 8) &&& 3

/-- Decoding of the register word: the LSB index
`2 * ((w >> 22) & 3) + ((w >> 25) & 1)`. -/
def wordLsb (w : Nat) : Nat := 2 * ((w >>> 22) &&& 3) + ((w >>> 25) &&& 1)

/-! ## The lock of the CSD driver along a sequence of calls -/

/-- Modelled from the spec: the lock-key provider of the CSD driver (declared
outside this repository) keeps one current holder. The answers the driver
gives during a call agree with the holder `holder` when `Cy_CSD_GetLockStatus`
reports it, and when a release with the middleware's key (`Cy_CSD_DeInit`)
succeeds only if the middleware holds the block. -/
def Call.agreesWith (call : Call) (holder : cy_en_csd_key_t) : Prop :=
  match call with
  | Call.Init mvKey _ _ _ => mvKey = holder
  | Call.Restore mvKey _ _ => mvKey = holder
  | Call.WriteConfig mvKey _ => mvKey = holder
  | Call.DeInit csdDeInitStatus => csdDeInitStatus = CY_CSD_SUCCESS → holder = CY_CSD_IDAC_KEY
  | Call.Save csdDeInitStatus => csdDeInitStatus = CY_CSD_SUCCESS → holder = CY_CSD_IDAC_KEY
  | _ => True

/-- Modelled from the spec: the holder after a call. A `Cy_CSD_Init` that is
reached (the block was not held) and succeeds takes the lock under the
middleware's key; a `Cy_CSD_DeInit` that succeeds releases it; nothing else
changes the holder. -/
def Call.holderAfter (call : Call) (holder : cy_en_csd_key_t) : cy_en_csd_key_t :=
  match call with
  | Call.Init mvKey _ csdInitStatus (some _) =>
    if mvKey = CY_CSD_NONE_KEY ∧ csdInitStatus = CY_CSD_SUCCESS then CY_CSD_IDAC_KEY else holder
  | Call.Restore mvKey _ csdInitStatus =>
    if mvKey = CY_CSD_NONE_KEY ∧ csdInitStatus = CY_CSD_SUCCESS then CY_CSD_IDAC_KEY else holder
  | Call.DeInit csdDeInitStatus =>
    if csdDeInitStatus = CY_CSD_SUCCESS then CY_CSD_NONE_KEY else holder
  | Call.Save csdDeInitStatus =>
    if csdDeInitStatus = CY_CSD_SUCCESS then CY_CSD_NONE_KEY else holder
  | _ => holder

/-- The call is a `Cy_CSDIDAC_Save` or `Cy_CSDIDAC_DeInit` that succeeds on the
context. -/
def Call.isSuccessfulRelease (call : Call) (ctx : cy_stc_csdidac_context_t) : Prop :=
  match call with
  | Call.DeInit csdDeInitStatus =>
    (Cy_CSDIDAC_DeInit csdDeInitStatus (some ctx)).status = CY_CSDIDAC_SUCCESS
  | Call.Save csdDeInitStatus =>
    (Cy_CSDIDAC_Save csdDeInitStatus (some ctx)).status = CY_CSDIDAC_SUCCESS
  | _ => False

/-- Sequences of calls on a present context, the driver answering as its lock
holder dictates, without a successful `Cy_CSDIDAC_Save` / `Cy_CSDIDAC_DeInit`:
from holder and context on the left to holder and context on the right. -/
inductive StepsWithoutRelease :
    cy_en_csd_key_t → cy_stc_csdidac_context_t →
    cy_en_csd_key_t → cy_stc_csdidac_context_t → Prop
  | refl (holder : cy_en_csd_key_t) (ctx : cy_stc_csdidac_context_t) :
      StepsWithoutRelease holder ctx holder ctx
  | step (call : Call) (holder holder1 : cy_en_csd_key_t)
      (ctx ctx1 ctx2 : cy_stc_csdidac_context_t) :
      StepsWithoutRelease holder ctx holder1 ctx1 →
      call.agreesWith holder1 → ¬ call.isSuccessfulRelease ctx1 →
      (call.run (some ctx1)).context = some ctx2 →
      StepsWithoutRelease holder ctx (call.holderAfter holder1) ctx2

/-- The bypass-switch select value in the words of the claim: the channel-A bit
`0x1000` when channel A has a pin or bus-only routing configured, plus the
channel-B bit `0x10000` when channel B has. -/
def switchEnableValue (cfg : cy_stc_csdidac_config_t) : Nat :=
  (if hasDestination CY_CSDIDAC_A cfg then 0x1000 else 0) +
    (if hasDestination CY_CSDIDAC_B cfg then 0x10000 else 0)

/-- The call is a `Cy_CSDIDAC_Init` with a present config that does not succeed
on the context while its config gives no destination to a channel that the
context marks enabled. -/
def Call.stripsDestination (call : Call) (ctx : cy_stc_csdidac_context_t) : Prop :=
  match call with
  | Call.Init mvKey convStatus csdInitStatus (some cfg) =>
    (Cy_CSDIDAC_Init mvKey convStatus csdInitStatus (some cfg) (some ctx)).status
        ≠ CY_CSDIDAC_SUCCESS ∧
      ∃ ch, chState ch ctx = CY_CSDIDAC_ENABLE ∧ ¬ hasDestination ch cfg
  | _ => False

/-- Contexts reachable from a successful `Cy_CSDIDAC_Init` by any sequence of
calls of the public functions, failed ones included, in which no
`Cy_CSDIDAC_Init` fails with a config that gives no destination to a channel
marked enabled at that moment. -/
inductive ReachableKeepingDestinations : cy_stc_csdidac_context_t → Prop
  | init (mvKey : cy_en_csd_key_t) (convStatus : Nat → cy_en_csd_status_t)
      (csdInitStatus : cy_en_csd_status_t) (cfg : cy_stc_csdidac_config_t)
      (ctx0 ctx : cy_stc_csdidac_context_t) :
      (Cy_CSDIDAC_Init mvKey convStatus csdInitStatus (some cfg) (some ctx0)).status
        = CY_CSDIDAC_SUCCESS →
      (Cy_CSDIDAC_Init mvKey convStatus csdInitStatus (some cfg) (some ctx0)).context
        = some ctx →
      ReachableKeepingDestinations ctx
  | step (call : Call) (ctx ctx1 : cy_stc_csdidac_context_t) :
      ReachableKeepingDestinations ctx → ¬ call.stripsDestination ctx →
      (call.run (some ctx)).context = some ctx1 → ReachableKeepingDestinations ctx1

theorem absCurrent_eq_natAbs (c : Int) (h : c.natAbs < 4294967296) :
    absCurrent c = c.natAbs := by
  unfold absCurrent U32
  split <;> omega

/-- The threshold walk of `Cy_CSDIDAC_OutputEnable`, range by range. -/
theorem lsbAndCode_ranges (n : Nat) (h : n ≤ 609600) :
    (n ≤ 4825 ∧ lsbAndCode n = (0, (10 * n + 187) / 375)) ∨
    (4826 ≤ n ∧ n ≤ 9651 ∧ lsbAndCode n = (1, (n + 37) / 75)) ∨
    (9652 ≤ n ∧ n ≤ 38226 ∧ lsbAndCode n = (2, (n + 150) / 300)) ∨
    (38227 ≤ n ∧ n ≤ 76326 ∧ lsbAndCode n = (3, (n + 300) / 600)) ∨
    (76327 ≤ n ∧ n ≤ 304926 ∧ lsbAndCode n = (4, (n + 1200) / 2400)) ∨
    (304927 ≤ n ∧ lsbAndCode n = (5, (n + 2400) / 4800)) := by
  simp only [lsbAndCode, CY_CSDIDAC_MAX_CODE, CY_CSDIDAC_LSB_2400, CY_CSDIDAC_LSB_600,
    CY_CSDIDAC_LSB_300, CY_CSDIDAC_LSB_75, CY_CSDIDAC_LSB_37, CY_CSDIDAC_LSB_4800,
    CY_CSDIDAC_CONST_10, U32, CY_CSDIDAC_LSB_4800_IDX, CY_CSDIDAC_LSB_2400_IDX,
    CY_CSDIDAC_LSB_600_IDX, CY_CSDIDAC_LSB_300_IDX, CY_CSDIDAC_LSB_75_IDX,
    CY_CSDIDAC_LSB_37_IDX, Nat.shiftRight_eq_div_pow, Nat.reducePow, Nat.reduceDiv]
  have h1 : n / 127 * 10 % 4294967296 = n / 127 * 10 := Nat.mod_eq_of_lt (by omega)
  have h2 : n * 10 % 4294967296 = n * 10 := Nat.mod_eq_of_lt (by omega)
  rw [h1, h2]
  split_ifs <;>
    simp only [Prod.mk.injEq, Nat.reduceEqDiff, false_and, and_false, true_and, or_false,
      false_or] <;>
    omega

theorem clampCode_eq_min (code : Nat) : clampCode code = min 127 code := by
  unfold clampCode CY_CSDIDAC_MAX_CODE
  split <;> omega

theorem clampCode_le (code : Nat) : clampCode code ≤ 127 := by
  rw [clampCode_eq_min]
  omega

/-- With a destination configured and a code of at most 127,
`Cy_CSDIDAC_OutputEnableExt` succeeds and records its arguments. -/
theorem OutputEnableExt_valid (ch : cy_en_csdidac_choice_t) (pol : cy_en_csdidac_polarity_t)
    (lsb code : Nat) (ctx : cy_stc_csdidac_context_t)
    (hd : hasDestination ch ctx.cfgCopy) (hcode : code ≤ 127) :
    (Cy_CSDIDAC_OutputEnableExt ch pol lsb code (some ctx)).status = CY_CSDIDAC_SUCCESS ∧
    recorded ch (Cy_CSDIDAC_OutputEnableExt ch pol lsb code (some ctx))
      = some (pol, lsb, code) := by
  have h256 : code % 256 = code := by omega
  cases ch <;>
    simp [Cy_CSDIDAC_OutputEnableExt, hasDestination, CY_CSDIDAC_MAX_CODE, recorded, chPolarity,
      chLsb, chCode, hcode, h256] at hd ⊢ <;>
    rcases hd with hd | hd <;> simp [hd, chPolarity, chLsb, chCode, h256]

/-- With a destination configured and a magnitude of at most 609600 nA,
`Cy_CSDIDAC_OutputEnable` succeeds and records the quantizer's choice. -/
theorem OutputEnable_valid (ch : cy_en_csdidac_choice_t) (current : Int)
    (ctx : cy_stc_csdidac_context_t)
    (hd : hasDestination ch ctx.cfgCopy) (hc : current.natAbs ≤ 609600) :
    (Cy_CSDIDAC_OutputEnable ch current (some ctx)).status = CY_CSDIDAC_SUCCESS ∧
    recorded ch (Cy_CSDIDAC_OutputEnable ch current (some ctx))
      = some (if 0 > current then CY_CSDIDAC_SINK else CY_CSDIDAC_SOURCE,
          (lsbAndCode current.natAbs).1, clampCode (lsbAndCode current.natAbs).2) := by
  have ha : absCurrent current = current.natAbs := absCurrent_eq_natAbs current (by omega)
  have hle : CY_CSDIDAC_MAX_CURRENT_NA ≥ current.natAbs := hc
  simp only [Cy_CSDIDAC_OutputEnable, ha, hle, if_true]
  exact OutputEnableExt_valid ch _ _ _ ctx hd (clampCode_le _)

theorem stepNA_eq_stepTenths (idx : Nat) : stepNA idx = (stepTenths idx : ℚ) / 10 := by
  rcases idx with _ | _ | _ | _ | _ | _ <;> simp only [stepNA, stepTenths] <;> norm_num

theorem roundHalfUp_div (a b : Nat) (hb : 0 < b) :
    roundHalfUp ((a : ℚ) / (b : ℚ)) = ((2 * a + b) / (2 * b) : Nat) := by
  have hb0 : (b : ℚ) ≠ 0 := by exact_mod_cast hb.ne'
  have h : (a : ℚ) / (b : ℚ) + 1 / 2 = ((2 * a + b : Nat) : ℚ) / ((2 * b : Nat) : ℚ) := by
    push_cast
    field_simp
    ring
  unfold roundHalfUp
  rw [h, Rat.floor_natCast_div_natCast]
  norm_cast

theorem stepTenths_pos (idx : Nat) : 0 < stepTenths idx := by
  rcases idx with _ | _ | _ | _ | _ | _ <;> simp [stepTenths]

/-- Exact rounding of `n / step[idx]`, computed in tenths of nA. -/
theorem roundHalfUp_stepNA (n idx : Nat) :
    roundHalfUp ((n : ℚ) / stepNA idx)
      = ((2 * (10 * n) + stepTenths idx) / (2 * stepTenths idx) : Nat) := by
  have hT : (stepTenths idx : ℚ) ≠ 0 := by exact_mod_cast (stepTenths_pos idx).ne'
  have h : (n : ℚ) / stepNA idx = ((10 * n : Nat) : ℚ) / (stepTenths idx : ℚ) := by
    rw [stepNA_eq_stepTenths]
    push_cast
    field_simp
    ring
  rw [h, roundHalfUp_div _ _ (stepTenths_pos idx)]

/-- The formula `(n + S / 2) / S` is exact rounding for every integral LSB. -/
theorem halfStep_formula_exact (n S idx : Nat) (hidx : idx ≠ 0) (hS : stepNA idx = (S : ℚ)) :
    (((n + S / 2) / S : Nat) : Int) = roundHalfUp ((n : ℚ) / stepNA idx) := by
  rw [roundHalfUp_stepNA]
  have h10 : 10 * S = stepTenths idx := by
    have h := stepNA_eq_stepTenths idx
    rw [hS] at h
    have h2 : (10 : ℚ) * (S : ℚ) = (stepTenths idx : ℚ) := by
      rw [h]
      ring
    exact_mod_cast h2
  have hS1 : S = stepTenths idx / 10 := by omega
  subst hS1
  rcases idx with _ | _ | _ | _ | _ | _
  · exact absurd rfl hidx
  all_goals
    simp only [stepTenths, Nat.reduceDiv]
    omega

/-- The formula `(10 * n + 187) / 375` is exact rounding for the 37.5 nA LSB. -/
theorem tenfold_formula_exact (n : Nat) :
    (((10 * n + 187) / 375 : Nat) : Int) = roundHalfUp ((n : ℚ) / stepNA 0) := by
  rw [roundHalfUp_stepNA]
  simp only [stepTenths]
  omega

/-! ## Claims -/

/-- C1: for every signed current of magnitude at most 609600 nA and a context
whose addressed channel has a pin or bus-only routing configured,
`Cy_CSDIDAC_OutputEnable` succeeds and records for that channel a code in
[0,127] and an LSB index in [0,5]. -/
theorem C1_OutputEnable_code_and_lsb_in_range (ch : cy_en_csdidac_choice_t) (current : Int)
    (ctx : cy_stc_csdidac_context_t)
    (hd : hasDestination ch ctx.cfgCopy) (hc : current.natAbs ≤ 609600) :
    (Cy_CSDIDAC_OutputEnable ch current (some ctx)).status = CY_CSDIDAC_SUCCESS ∧
    ∃ pol lsb code,
      recorded ch (Cy_CSDIDAC_OutputEnable ch current (some ctx)) = some (pol, lsb, code) ∧
      code ≤ 127 ∧ lsb ≤ 5 := by
  obtain ⟨hs, hr⟩ := OutputEnable_valid ch current ctx hd hc
  refine ⟨hs, _, _, _, hr, clampCode_le _, ?_⟩
  rcases lsbAndCode_ranges current.natAbs hc with h | h | h | h | h | h <;>
    simp [h]

/-- Instance of C1: channel B, -609600 nA. -/
theorem C1_witness :
    hasDestination CY_CSDIDAC_B sampleCtx.cfgCopy ∧ (-609600 : Int).natAbs ≤ 609600 ∧
    ((Cy_CSDIDAC_OutputEnable CY_CSDIDAC_B (-609600) (some sampleCtx)).status
        = CY_CSDIDAC_SUCCESS ∧
      ∃ pol lsb code,
        recorded CY_CSDIDAC_B (Cy_CSDIDAC_OutputEnable CY_CSDIDAC_B (-609600) (some sampleCtx))
          = some (pol, lsb, code) ∧
        code ≤ 127 ∧ lsb ≤ 5) :=
  ⟨by decide, by decide,
    C1_OutputEnable_code_and_lsb_in_range CY_CSDIDAC_B (-609600) sampleCtx (by decide)
      (by decide)⟩

/-- C2 (code evaluated at a failing input): for 4825 nA the code records LSB
index 0 (37.5 nA) and code 127, i.e. 4762.5 nA, which is 62.5 nA below the
request: more than one step of 37.5 nA. -/
theorem C2_OutputEnable_4825_misses_by_more_than_one_step :
    recorded CY_CSDIDAC_A (Cy_CSDIDAC_OutputEnable CY_CSDIDAC_A 4825 (some sampleCtx))
      = some (CY_CSDIDAC_SOURCE, 0, 127) ∧
    stepTenths 0 * 127 + stepTenths 0 < 10 * 4825 := by
  decide

/-- C3 (code evaluated at a failing input): for 4800 nA the code records LSB
index 0 although the full scale of index 0, 127 * 37.5 nA, is below 4800 nA;
index 1 (75 nA) is the smallest index whose full scale reaches 4800 nA, and
64 * 75 nA is 4800 nA exactly. -/
theorem C3_OutputEnable_4800_picks_lsb_below_finest_fit :
    recorded CY_CSDIDAC_A (Cy_CSDIDAC_OutputEnable CY_CSDIDAC_A 4800 (some sampleCtx))
      = some (CY_CSDIDAC_SOURCE, 0, 127) ∧
    127 * stepTenths 0 < 10 * 4800 ∧ 10 * 4800 ≤ 127 * stepTenths 1 ∧
    64 * stepTenths 1 = 10 * 4800 := by
  decide

/-- C4: the LSB chosen by `Cy_CSDIDAC_OutputEnable` is never larger than
necessary: for every current of magnitude at most 609600 nA, every LSB index j
strictly below the recorded one has 127 * step[j] < |current| (compared in
tenths of nA). -/
theorem C4_OutputEnable_lsb_never_larger_than_necessary (ch : cy_en_csdidac_choice_t)
    (current : Int) (ctx : cy_stc_csdidac_context_t)
    (hd : hasDestination ch ctx.cfgCopy) (hc : current.natAbs ≤ 609600) :
    ∃ pol lsb code,
      recorded ch (Cy_CSDIDAC_OutputEnable ch current (some ctx)) = some (pol, lsb, code) ∧
      ∀ j, j < lsb → 127 * stepTenths j < 10 * current.natAbs := by
  obtain ⟨_, hr⟩ := OutputEnable_valid ch current ctx hd hc
  refine ⟨_, _, _, hr, ?_⟩
  rcases lsbAndCode_ranges current.natAbs hc with h | h | h | h | h | h <;>
    obtain ⟨hlo, h⟩ := h
  · intro j hj
    simp [h] at hj
  all_goals
    (try obtain ⟨_, h⟩ := h)
    intro j hj
    simp only [h] at hj
    interval_cases j <;> simp only [stepTenths] <;> omega

/-- Instance of C4: channel A, 123456 nA. -/
theorem C4_witness :
    hasDestination CY_CSDIDAC_A sampleCtx.cfgCopy ∧ (123456 : Int).natAbs ≤ 609600 ∧
    ∃ pol lsb code,
      recorded CY_CSDIDAC_A (Cy_CSDIDAC_OutputEnable CY_CSDIDAC_A 123456 (some sampleCtx))
        = some (pol, lsb, code) ∧
      ∀ j, j < lsb → 127 * stepTenths j < 10 * (123456 : Int).natAbs :=
  ⟨by decide, by decide,
    C4_OutputEnable_lsb_never_larger_than_necessary CY_CSDIDAC_A 123456 sampleCtx (by decide)
      (by decide)⟩

/-- C5: for every current of magnitude at most 609600 nA the code recorded by
`Cy_CSDIDAC_OutputEnable` is min(127, r), r being the exact rational
|current| / S rounded to nearest with halves up, S the chosen LSB (37.5 nA for
index 0); the value computed before the clamp is r itself, and the integer
formulas (|current| + S/2) / S and, for index 0, (10 * |current| + 187) / 375
agree with exact rounding. -/
theorem C5_OutputEnable_code_is_clamped_exact_rounding (ch : cy_en_csdidac_choice_t)
    (current : Int) (ctx : cy_stc_csdidac_context_t)
    (hd : hasDestination ch ctx.cfgCopy) (hc : current.natAbs ≤ 609600) :
    ∃ pol lsb code,
      recorded ch (Cy_CSDIDAC_OutputEnable ch current (some ctx)) = some (pol, lsb, code) ∧
      (code : Int) = min 127 (roundHalfUp ((current.natAbs : ℚ) / stepNA lsb)) ∧
      ((lsbAndCode (absCurrent current)).2 : Int)
        = roundHalfUp ((current.natAbs : ℚ) / stepNA lsb) ∧
      (lsb = 0 → (((10 * current.natAbs + 187) / 375 : Nat) : Int)
        = roundHalfUp ((current.natAbs : ℚ) / stepNA lsb)) ∧
      (∀ S : Nat, lsb ≠ 0 → stepNA lsb = (S : ℚ) →
        (((current.natAbs + S / 2) / S : Nat) : Int)
          = roundHalfUp ((current.natAbs : ℚ) / stepNA lsb)) := by
  obtain ⟨_, hr⟩ := OutputEnable_valid ch current ctx hd hc
  have ha : absCurrent current = current.natAbs := absCurrent_eq_natAbs current (by omega)
  refine ⟨_, _, _, hr, ?_, ?_, ?_, fun S h0 hS => halfStep_formula_exact _ S _ h0 hS⟩
  · rw [roundHalfUp_stepNA, clampCode_eq_min]
    rcases lsbAndCode_ranges current.natAbs hc with h | h | h | h | h | h <;>
      simp only [h, stepTenths] <;> omega
  · rw [roundHalfUp_stepNA, ha]
    rcases lsbAndCode_ranges current.natAbs hc with h | h | h | h | h | h <;>
      simp only [h, stepTenths] <;> omega
  · intro h0
    rw [h0]
    exact tenfold_formula_exact _

/-- Instance of C5: channel A, -4825 nA (the clamp is active). -/
theorem C5_witness :
    hasDestination CY_CSDIDAC_A sampleCtx.cfgCopy ∧ (-4825 : Int).natAbs ≤ 609600 ∧
    ∃ pol lsb code,
      recorded CY_CSDIDAC_A (Cy_CSDIDAC_OutputEnable CY_CSDIDAC_A (-4825) (some sampleCtx))
        = some (pol, lsb, code) ∧
      (code : Int) = min 127 (roundHalfUp (((-4825 : Int).natAbs : ℚ) / stepNA lsb)) ∧
      ((lsbAndCode (absCurrent (-4825))).2 : Int)
        = roundHalfUp (((-4825 : Int).natAbs : ℚ) / stepNA lsb) ∧
      (lsb = 0 → (((10 * (-4825 : Int).natAbs + 187) / 375 : Nat) : Int)
        = roundHalfUp (((-4825 : Int).natAbs : ℚ) / stepNA lsb)) ∧
      (∀ S : Nat, lsb ≠ 0 → stepNA lsb = (S : ℚ) →
        ((((-4825 : Int).natAbs + S / 2) / S : Nat) : Int)
          = roundHalfUp (((-4825 : Int).natAbs : ℚ) / stepNA lsb)) :=
  ⟨by decide, by decide,
    C5_OutputEnable_code_is_clamped_exact_rounding CY_CSDIDAC_A (-4825) sampleCtx (by decide)
      (by decide)⟩

/-- C6 (as stated, at current 0): the requests 0 and -0 both record source
polarity, so the two polarities are not swapped. -/
theorem C6_counterexample_zero_keeps_polarity :
    (0 : Int).natAbs ≤ 609600 ∧
    recorded CY_CSDIDAC_A (Cy_CSDIDAC_OutputEnable CY_CSDIDAC_A 0 (some sampleCtx))
      = some (CY_CSDIDAC_SOURCE, 0, 0) ∧
    recorded CY_CSDIDAC_A (Cy_CSDIDAC_OutputEnable CY_CSDIDAC_A (-0) (some sampleCtx))
      = some (CY_CSDIDAC_SOURCE, 0, 0) := by
  decide

/-- C6 (amended): for every current of magnitude at most 609600 nA,
`Cy_CSDIDAC_OutputEnable` with the negated current records the same LSB index
and code; the recorded polarity is sink exactly when the input is negative and
source otherwise, so a nonzero current and its negation get swapped
polarities, while 0 and -0 both get source. -/
theorem C6_OutputEnable_polarity_symmetry (ch : cy_en_csdidac_choice_t) (current : Int)
    (ctx : cy_stc_csdidac_context_t)
    (hd : hasDestination ch ctx.cfgCopy) (hc : current.natAbs ≤ 609600) :
    ∃ p q lsb code,
      recorded ch (Cy_CSDIDAC_OutputEnable ch current (some ctx)) = some (p, lsb, code) ∧
      recorded ch (Cy_CSDIDAC_OutputEnable ch (-current) (some ctx)) = some (q, lsb, code) ∧
      (p = CY_CSDIDAC_SINK ↔ current < 0) ∧ (p = CY_CSDIDAC_SOURCE ↔ 0 ≤ current) ∧
      (q = CY_CSDIDAC_SINK ↔ -current < 0) ∧ (q = CY_CSDIDAC_SOURCE ↔ 0 ≤ -current) ∧
      (current ≠ 0 → p ≠ q) ∧
      (current = 0 → p = CY_CSDIDAC_SOURCE ∧ q = CY_CSDIDAC_SOURCE) := by
  have hn : (-current).natAbs = current.natAbs := Int.natAbs_neg current
  obtain ⟨_, hr⟩ := OutputEnable_valid ch current ctx hd hc
  obtain ⟨_, hr'⟩ := OutputEnable_valid ch (-current) ctx hd (hn ▸ hc)
  rw [hn] at hr'
  refine ⟨_, _, _, _, hr, hr', ?_⟩
  rcases lt_trichotomy current 0 with h | h | h
  · have h1 : 0 > current := h
    have h2 : ¬ (0 > -current) := by omega
    simp only [h1, h2, if_true, if_false]
    refine ⟨?_, ?_, ?_, ?_, ?_, ?_⟩ <;> first | omega | simp <;> omega
  · subst h
    simp
  · have h1 : ¬ (0 > current) := by omega
    have h2 : 0 > -current := by omega
    simp only [h1, h2, if_true, if_false]
    refine ⟨?_, ?_, ?_, ?_, ?_, ?_⟩ <;> first | omega | simp <;> omega

/-- Instance of C6: channel A, 123456 nA. -/
theorem C6_witness :
    hasDestination CY_CSDIDAC_A sampleCtx.cfgCopy ∧ (123456 : Int).natAbs ≤ 609600 ∧
    ∃ p q lsb code,
      recorded CY_CSDIDAC_A (Cy_CSDIDAC_OutputEnable CY_CSDIDAC_A 123456 (some sampleCtx))
        = some (p, lsb, code) ∧
      recorded CY_CSDIDAC_A (Cy_CSDIDAC_OutputEnable CY_CSDIDAC_A (-123456) (some sampleCtx))
        = some (q, lsb, code) ∧
      (p = CY_CSDIDAC_SINK ↔ (123456 : Int) < 0) ∧
      (p = CY_CSDIDAC_SOURCE ↔ 0 ≤ (123456 : Int)) ∧
      (q = CY_CSDIDAC_SINK ↔ -(123456 : Int) < 0) ∧
      (q = CY_CSDIDAC_SOURCE ↔ 0 ≤ -(123456 : Int)) ∧
      ((123456 : Int) ≠ 0 → p ≠ q) ∧
      ((123456 : Int) = 0 → p = CY_CSDIDAC_SOURCE ∧ q = CY_CSDIDAC_SOURCE) :=
  ⟨by decide, by decide,
    C6_OutputEnable_polarity_symmetry CY_CSDIDAC_A 123456 sampleCtx (by decide) (by decide)⟩

/-- C7: with a present context whose addressed channel has a destination,
`Cy_CSDIDAC_OutputEnable` returns BAD_PARAM if and only if the magnitude of
the 32-bit current exceeds 609600 nA (the most negative 32-bit input
included); in that case the context is unchanged and no register write or pin
operation is made. -/
theorem C7_OutputEnable_bad_param_iff_magnitude (ch : cy_en_csdidac_choice_t) (current : Int)
    (ctx : cy_stc_csdidac_context_t) (hd : hasDestination ch ctx.cfgCopy)
    (hlo : -2147483648 ≤ current) (hhi : current ≤ 2147483647) :
    ((Cy_CSDIDAC_OutputEnable ch current (some ctx)).status = CY_CSDIDAC_BAD_PARAM ↔
      609600 < current.natAbs) ∧
    (609600 < current.natAbs →
      (Cy_CSDIDAC_OutputEnable ch current (some ctx)).context = some ctx ∧
      (Cy_CSDIDAC_OutputEnable ch current (some ctx)).ops = []) := by
  have ha : absCurrent current = current.natAbs := absCurrent_eq_natAbs current (by omega)
  by_cases h : current.natAbs ≤ 609600
  · obtain ⟨hs, _⟩ := OutputEnable_valid ch current ctx hd h
    refine ⟨?_, fun hgt => absurd h (by omega)⟩
    rw [hs]
    constructor
    · intro hbad
      cases hbad
    · intro hgt
      omega
  · have hgt : ¬ (CY_CSDIDAC_MAX_CURRENT_NA ≥ current.natAbs) := h
    have heq : Cy_CSDIDAC_OutputEnable ch current (some ctx)
        = ⟨CY_CSDIDAC_BAD_PARAM, some ctx, []⟩ := by
      simp only [Cy_CSDIDAC_OutputEnable, ha, hgt, if_false]
    rw [heq]
    exact ⟨⟨fun _ => (by omega), fun _ => rfl⟩, fun _ => ⟨rfl, rfl⟩⟩

/-- Instance of C7: channel A, the most negative 32-bit current. -/
theorem C7_witness :
    hasDestination CY_CSDIDAC_A sampleCtx.cfgCopy ∧
    (-2147483648 : Int) ≤ -2147483648 ∧ (-2147483648 : Int) ≤ 2147483647 ∧
    (((Cy_CSDIDAC_OutputEnable CY_CSDIDAC_A (-2147483648) (some sampleCtx)).status
        = CY_CSDIDAC_BAD_PARAM ↔ 609600 < (-2147483648 : Int).natAbs) ∧
      (609600 < (-2147483648 : Int).natAbs →
        (Cy_CSDIDAC_OutputEnable CY_CSDIDAC_A (-2147483648) (some sampleCtx)).context
          = some sampleCtx ∧
        (Cy_CSDIDAC_OutputEnable CY_CSDIDAC_A (-2147483648) (some sampleCtx)).ops = [])) :=
  ⟨by decide, by decide, by decide,
    C7_OutputEnable_bad_param_iff_magnitude CY_CSDIDAC_A (-2147483648) sampleCtx (by decide)
      (by decide) (by decide)⟩

/-- C8: requesting 123456 nA through `Cy_CSDIDAC_OutputEnable` selects the
2400 nA LSB (index 4) with code 51, i.e. 122400 nA, and source polarity. -/
theorem C8_OutputEnable_123456 (ch : cy_en_csdidac_choice_t) (ctx : cy_stc_csdidac_context_t)
    (hd : hasDestination ch ctx.cfgCopy) :
    (Cy_CSDIDAC_OutputEnable ch 123456 (some ctx)).status = CY_CSDIDAC_SUCCESS ∧
    recorded ch (Cy_CSDIDAC_OutputEnable ch 123456 (some ctx))
      = some (CY_CSDIDAC_SOURCE, CY_CSDIDAC_LSB_2400_IDX, 51) ∧
    CY_CSDIDAC_LSB_2400_IDX = 4 ∧ stepTenths CY_CSDIDAC_LSB_2400_IDX = 10 * 2400 ∧
    stepTenths CY_CSDIDAC_LSB_2400_IDX * 51 = 10 * 122400 := by
  obtain ⟨hs, hr⟩ := OutputEnable_valid ch 123456 ctx hd (by decide)
  have hq : lsbAndCode (123456 : Int).natAbs = (4, 51) := by decide
  have hcl : clampCode 51 = 51 := by decide
  rw [hq] at hr
  simp only [hcl] at hr
  exact ⟨hs, hr, rfl, rfl, rfl⟩

/-- Instance of C8: channel B. -/
theorem C8_witness :
    hasDestination CY_CSDIDAC_B sampleCtx.cfgCopy ∧
    ((Cy_CSDIDAC_OutputEnable CY_CSDIDAC_B 123456 (some sampleCtx)).status
        = CY_CSDIDAC_SUCCESS ∧
      recorded CY_CSDIDAC_B (Cy_CSDIDAC_OutputEnable CY_CSDIDAC_B 123456 (some sampleCtx))
        = some (CY_CSDIDAC_SOURCE, CY_CSDIDAC_LSB_2400_IDX, 51) ∧
      CY_CSDIDAC_LSB_2400_IDX = 4 ∧ stepTenths CY_CSDIDAC_LSB_2400_IDX = 10 * 2400 ∧
      stepTenths CY_CSDIDAC_LSB_2400_IDX * 51 = 10 * 122400) :=
  ⟨by decide, C8_OutputEnable_123456 CY_CSDIDAC_B sampleCtx (by decide)⟩

/-- C9 (as stated): for -50 nA the code does not record the code 13 with the
37.5 nA LSB and sink polarity. -/
theorem C9_counterexample_code_is_not_13 :
    recorded CY_CSDIDAC_A (Cy_CSDIDAC_OutputEnable CY_CSDIDAC_A (-50) (some sampleCtx))
      ≠ some (CY_CSDIDAC_SINK, CY_CSDIDAC_LSB_37_IDX, 13) := by
  decide

/-- C9 (amended): requesting -50 nA through `Cy_CSDIDAC_OutputEnable` selects
the 37.5 nA LSB (index 0, the finest), code 1 (50 / 37.5 rounded to nearest)
and sink polarity. -/
theorem C9_OutputEnable_minus_50 (ch : cy_en_csdidac_choice_t) (ctx : cy_stc_csdidac_context_t)
    (hd : hasDestination ch ctx.cfgCopy) :
    (Cy_CSDIDAC_OutputEnable ch (-50) (some ctx)).status = CY_CSDIDAC_SUCCESS ∧
    recorded ch (Cy_CSDIDAC_OutputEnable ch (-50) (some ctx))
      = some (CY_CSDIDAC_SINK, CY_CSDIDAC_LSB_37_IDX, 1) ∧
    CY_CSDIDAC_LSB_37_IDX = 0 ∧ roundHalfUp ((50 : ℚ) / stepNA CY_CSDIDAC_LSB_37_IDX) = 1 := by
  obtain ⟨hs, hr⟩ := OutputEnable_valid ch (-50) ctx hd (by decide)
  have hq : lsbAndCode (-50 : Int).natAbs = (0, 1) := by decide
  have hcl : clampCode 1 = 1 := by decide
  rw [hq] at hr
  simp only [hcl] at hr
  refine ⟨hs, hr, rfl, ?_⟩
  have h := tenfold_formula_exact 50
  simp only [Nat.cast_ofNat] at h
  simp only [CY_CSDIDAC_LSB_37_IDX]
  rw [← h]
  decide

/-- Instance of C9: channel A. -/
theorem C9_witness :
    hasDestination CY_CSDIDAC_A sampleCtx.cfgCopy ∧
    ((Cy_CSDIDAC_OutputEnable CY_CSDIDAC_A (-50) (some sampleCtx)).status
        = CY_CSDIDAC_SUCCESS ∧
      recorded CY_CSDIDAC_A (Cy_CSDIDAC_OutputEnable CY_CSDIDAC_A (-50) (some sampleCtx))
        = some (CY_CSDIDAC_SINK, CY_CSDIDAC_LSB_37_IDX, 1) ∧
      CY_CSDIDAC_LSB_37_IDX = 0 ∧
      roundHalfUp ((50 : ℚ) / stepNA CY_CSDIDAC_LSB_37_IDX) = 1) :=
  ⟨by decide, C9_OutputEnable_minus_50 CY_CSDIDAC_A sampleCtx (by decide)⟩

/-- C10: `Cy_CSDIDAC_OutputEnableExt` on a present context returns BAD_PARAM
if and only if the code exceeds 127 or the addressed channel has neither a pin
nor bus-only routing configured; whenever it returns BAD_PARAM the context
(both channels and the configuration copy) is unchanged and no register write
or pin connection is made. -/
theorem C10_OutputEnableExt_bad_param (ch : cy_en_csdidac_choice_t)
    (pol : cy_en_csdidac_polarity_t) (lsb code : Nat) (ctx : cy_stc_csdidac_context_t) :
    ((Cy_CSDIDAC_OutputEnableExt ch pol lsb code (some ctx)).status = CY_CSDIDAC_BAD_PARAM ↔
      (127 < code ∨ ¬ hasDestination ch ctx.cfgCopy)) ∧
    ((Cy_CSDIDAC_OutputEnableExt ch pol lsb code (some ctx)).status = CY_CSDIDAC_BAD_PARAM →
      (Cy_CSDIDAC_OutputEnableExt ch pol lsb code (some ctx)).context = some ctx ∧
      (Cy_CSDIDAC_OutputEnableExt ch pol lsb code (some ctx)).ops = []) := by
  by_cases hcode : code ≤ 127
  · by_cases hd : hasDestination ch ctx.cfgCopy
    · obtain ⟨hs, _⟩ := OutputEnableExt_valid ch pol lsb code ctx hd hcode
      rw [hs]
      refine ⟨⟨fun h => (by cases h), fun h => ?_⟩, fun h => (by cases h)⟩
      rcases h with h | h
      · omega
      · exact absurd hd h
    · have hge : CY_CSDIDAC_MAX_CODE ≥ code := hcode
      cases ch <;>
        simp only [hasDestination, not_or] at hd <;>
        obtain ⟨hp, hb⟩ := hd <;>
        simp [Cy_CSDIDAC_OutputEnableExt, hge, hasDestination, hb] <;>
        simp_all
  · have hlt : ¬ (CY_CSDIDAC_MAX_CODE ≥ code) := hcode
    have heq : Cy_CSDIDAC_OutputEnableExt ch pol lsb code (some ctx)
        = ⟨CY_CSDIDAC_BAD_PARAM, some ctx, []⟩ := by
      simp only [Cy_CSDIDAC_OutputEnableExt, hlt, if_false]
    rw [heq]
    exact ⟨⟨fun _ => Or.inl (by omega), fun _ => rfl⟩, fun _ => ⟨rfl, rfl⟩⟩

/-! ## Auxiliary lemmas on the output functions -/

theorem OutputEnableExt_bad (ch : cy_en_csdidac_choice_t) (pol : cy_en_csdidac_polarity_t)
    (lsb code : Nat) (ctx : cy_stc_csdidac_context_t)
    (h : 127 < code ∨ ¬ hasDestination ch ctx.cfgCopy) :
    Cy_CSDIDAC_OutputEnableExt ch pol lsb code (some ctx)
      = ⟨CY_CSDIDAC_BAD_PARAM, some ctx, []⟩ := by
  by_cases hcode : CY_CSDIDAC_MAX_CODE ≥ code
  · have hd : ¬ hasDestination ch ctx.cfgCopy := by
      rcases h with h | h
      · exact absurd hcode (by unfold CY_CSDIDAC_MAX_CODE; omega)
      · exact h
    cases ch <;>
      simp only [hasDestination, not_or] at hd <;>
      obtain ⟨hp, hb⟩ := hd <;>
      simp [Cy_CSDIDAC_OutputEnableExt, hcode, hb] <;>
      simp_all
  · simp only [Cy_CSDIDAC_OutputEnableExt, hcode, if_false]

theorem OutputEnableExt_good (ch : cy_en_csdidac_choice_t) (pol : cy_en_csdidac_polarity_t)
    (lsb code : Nat) (ctx : cy_stc_csdidac_context_t)
    (hd : hasDestination ch ctx.cfgCopy) (hcode : code ≤ 127) :
    ∃ ctx1,
      Cy_CSDIDAC_OutputEnableExt ch pol lsb code (some ctx)
        = ⟨CY_CSDIDAC_SUCCESS, some ctx1,
            HwOp.Cy_CSD_WriteReg ctx.cfgCopy.base (idacRegOf ch) (idacRegValue pol lsb code) ::
              (if cfgBusOnly ch ctx.cfgCopy ≠ CY_CSDIDAC_ENABLE then
                setPinHSIOM (cfgPin ch ctx.cfgCopy) (amuxOf ch) else [])⟩ ∧
      chPolarity ch ctx1 = pol ∧ chLsb ch ctx1 = lsb ∧ chCode ch ctx1 = code ∧
      chState ch ctx1 = CY_CSDIDAC_ENABLE ∧ ctx1.cfgCopy = ctx.cfgCopy ∧
      chPolarity (otherChannel ch) ctx1 = chPolarity (otherChannel ch) ctx ∧
      chLsb (otherChannel ch) ctx1 = chLsb (otherChannel ch) ctx ∧
      chCode (otherChannel ch) ctx1 = chCode (otherChannel ch) ctx ∧
      chState (otherChannel ch) ctx1 = chState (otherChannel ch) ctx := by
  have h256 : code % 256 = code := by omega
  have hge : CY_CSDIDAC_MAX_CODE ≥ code := hcode
  cases ch
  · refine ⟨{ ctx with polarityA := pol, lsbA := lsb, codeA := code,
                       channelStateA := CY_CSDIDAC_ENABLE }, ?_, rfl, rfl, rfl, rfl, rfl,
      rfl, rfl, rfl, rfl⟩
    simp only [hasDestination] at hd
    rcases hd with hd | hd <;>
      simp [Cy_CSDIDAC_OutputEnableExt, hge, h256, hd, idacRegOf, cfgBusOnly, cfgPin, amuxOf]
  · refine ⟨{ ctx with polarityB := pol, lsbB := lsb, codeB := code,
                       channelStateB := CY_CSDIDAC_ENABLE }, ?_, rfl, rfl, rfl, rfl, rfl,
      rfl, rfl, rfl, rfl⟩
    simp only [hasDestination] at hd
    rcases hd with hd | hd <;>
      simp [Cy_CSDIDAC_OutputEnableExt, hge, h256, hd, idacRegOf, cfgBusOnly, cfgPin, amuxOf]

theorem OutputEnableExt_success (ch : cy_en_csdidac_choice_t) (pol : cy_en_csdidac_polarity_t)
    (lsb code : Nat) (context : Option cy_stc_csdidac_context_t)
    (hs : (Cy_CSDIDAC_OutputEnableExt ch pol lsb code context).status = CY_CSDIDAC_SUCCESS) :
    ∃ ctx, context = some ctx ∧ hasDestination ch ctx.cfgCopy ∧ code ≤ 127 := by
  cases context with
  | none => simp [Cy_CSDIDAC_OutputEnableExt] at hs
  | some ctx =>
    refine ⟨ctx, rfl, ?_, ?_⟩
    · by_contra hd
      rw [OutputEnableExt_bad ch pol lsb code ctx (Or.inr hd)] at hs
      cases hs
    · by_contra hc
      rw [OutputEnableExt_bad ch pol lsb code ctx (Or.inl (by omega))] at hs
      cases hs
theorem idacRegValue_word (pol : cy_en_csdidac_polarity_t) (lsb code : Nat) (hl : lsb ≤ 5) :
    idacRegValue pol lsb code
      = code ||| (pol.toNat <<< 8) ||| ((lsb / 2) <<< 22) ||| (1 <<< 24) |||
          ((lsb % 2) <<< 25) := by
  interval_cases lsb <;> cases pol <;>
    simp [idacRegValue, cy_en_csdidac_polarity_t.toNat, CY_CSDIDAC_POLARITY_POS,
      CY_CSDIDAC_LSB_POS, CY_CSDIDAC_LEG1_EN_MASK, CY_CSDIDAC_LEG1_EN_POS,
      CY_CSDIDAC_LEG2_EN_MASK, CY_CSDIDAC_LEG2_EN_POS, CY_CSDIDAC_CONST_2, U32,
      Nat.shiftRight_eq_div_pow]

theorem idacRegValue_legs (pol : cy_en_csdidac_polarity_t) (lsb code : Nat) (hl : lsb ≤ 5)
    (hc : code ≤ 127) :
    (idacRegValue pol lsb code).testBit 24 = true ∧
    ((idacRegValue pol lsb code).testBit 25 = true ↔ lsb % 2 = 1) := by
  have h24 : code.testBit 24 = false := Nat.testBit_lt_two_pow (by omega)
  have h25 : code.testBit 25 = false := Nat.testBit_lt_two_pow (by omega)
  rw [idacRegValue_word pol lsb code hl]
  interval_cases lsb <;> cases pol <;>
    simp [Nat.testBit_or, h24, h25, cy_en_csdidac_polarity_t.toNat] <;> decide

theorem OutputDisable_eq (ch : cy_en_csdidac_choice_t) (ctx : cy_stc_csdidac_context_t) :
    ∃ ctx1,
      Cy_CSDIDAC_OutputDisable ch (some ctx)
        = ⟨CY_CSDIDAC_SUCCESS, some ctx1,
            HwOp.Cy_CSD_WriteReg ctx.cfgCopy.base (idacRegOf ch) 0 ::
              (if cfgBusOnly ch ctx.cfgCopy ≠ CY_CSDIDAC_ENABLE ∧ cfgPin ch ctx.cfgCopy ≠ none
                then setPinHSIOM (cfgPin ch ctx.cfgCopy) HSIOM_SEL_GPIO_PIN else [])⟩ ∧
      chState ch ctx1 = CY_CSDIDAC_DISABLE ∧
      chPolarity ch ctx1 = chPolarity ch ctx ∧ chLsb ch ctx1 = chLsb ch ctx ∧
      chCode ch ctx1 = chCode ch ctx ∧ ctx1.cfgCopy = ctx.cfgCopy ∧
      chPolarity (otherChannel ch) ctx1 = chPolarity (otherChannel ch) ctx ∧
      chLsb (otherChannel ch) ctx1 = chLsb (otherChannel ch) ctx ∧
      chCode (otherChannel ch) ctx1 = chCode (otherChannel ch) ctx ∧
      chState (otherChannel ch) ctx1 = chState (otherChannel ch) ctx := by
  cases ch
  · refine ⟨{ ctx with channelStateA := CY_CSDIDAC_DISABLE }, ?_, rfl, rfl, rfl, rfl, rfl,
      rfl, rfl, rfl, rfl⟩
    simp [Cy_CSDIDAC_OutputDisable, Cy_CSDIDAC_DisconnectChannelA, idacRegOf, cfgBusOnly,
      cfgPin]
  · refine ⟨{ ctx with channelStateB := CY_CSDIDAC_DISABLE }, ?_, rfl, rfl, rfl, rfl, rfl,
      rfl, rfl, rfl, rfl⟩
    simp [Cy_CSDIDAC_OutputDisable, Cy_CSDIDAC_DisconnectChannelB, idacRegOf, cfgBusOnly,
      cfgPin]

/-! ## Claims on the output functions -/

/-- C11: when `Cy_CSDIDAC_OutputEnableExt` succeeds, the recorded polarity, LSB
index and code of the addressed channel equal the arguments and the channel is
marked enabled. -/
theorem C11_OutputEnableExt_records_arguments (ch : cy_en_csdidac_choice_t)
    (pol : cy_en_csdidac_polarity_t) (lsb code : Nat)
    (context : Option cy_stc_csdidac_context_t)
    (hs : (Cy_CSDIDAC_OutputEnableExt ch pol lsb code context).status = CY_CSDIDAC_SUCCESS) :
    ∃ ctx1, (Cy_CSDIDAC_OutputEnableExt ch pol lsb code context).context = some ctx1 ∧
      chPolarity ch ctx1 = pol ∧ chLsb ch ctx1 = lsb ∧ chCode ch ctx1 = code ∧
      chState ch ctx1 = CY_CSDIDAC_ENABLE := by
  obtain ⟨ctx, rfl, hd, hcode⟩ := OutputEnableExt_success ch pol lsb code context hs
  obtain ⟨ctx1, heq, hp, hl, hc, he, _⟩ := OutputEnableExt_good ch pol lsb code ctx hd hcode
  exact ⟨ctx1, by rw [heq], hp, hl, hc, he⟩

/-- Instance of C11: channel A, sink, LSB index 3, code 100. -/
theorem C11_witness :
    (Cy_CSDIDAC_OutputEnableExt CY_CSDIDAC_A CY_CSDIDAC_SINK 3 100 (some sampleCtx)).status
      = CY_CSDIDAC_SUCCESS ∧
    ∃ ctx1,
      (Cy_CSDIDAC_OutputEnableExt CY_CSDIDAC_A CY_CSDIDAC_SINK 3 100 (some sampleCtx)).context
        = some ctx1 ∧
      chPolarity CY_CSDIDAC_A ctx1 = CY_CSDIDAC_SINK ∧ chLsb CY_CSDIDAC_A ctx1 = 3 ∧
      chCode CY_CSDIDAC_A ctx1 = 100 ∧ chState CY_CSDIDAC_A ctx1 = CY_CSDIDAC_ENABLE :=
  ⟨by decide,
    C11_OutputEnableExt_records_arguments CY_CSDIDAC_A CY_CSDIDAC_SINK 3 100 (some sampleCtx)
      (by decide)⟩

/-- C12: on success `Cy_CSDIDAC_OutputEnableExt` makes exactly one register
write, to the IDAC register of the addressed channel (IDACA for A, IDACB for
B); for the six LSB indices the word written is
count | (polarity << 8) | ((index / 2) << 22) | (1 << 24) | (leg2 << 25), its
leg-1 bit (24) is set and its leg-2 bit (25) is set exactly when the index is
odd. -/
theorem C12_OutputEnableExt_single_register_write (ch : cy_en_csdidac_choice_t)
    (pol : cy_en_csdidac_polarity_t) (lsb code : Nat)
    (context : Option cy_stc_csdidac_context_t)
    (hs : (Cy_CSDIDAC_OutputEnableExt ch pol lsb code context).status = CY_CSDIDAC_SUCCESS) :
    ∃ ctx w, context = some ctx ∧
      regWrites (Cy_CSDIDAC_OutputEnableExt ch pol lsb code context).ops
        = [(ctx.cfgCopy.base, idacRegOf ch, w)] ∧
      idacRegOf CY_CSDIDAC_A = CY_CSD_REG_OFFSET_IDACA ∧
      idacRegOf CY_CSDIDAC_B = CY_CSD_REG_OFFSET_IDACB ∧
      (lsb ≤ 5 →
        w = code ||| (pol.toNat <<< 8) ||| ((lsb / 2) <<< 22) ||| (1 <<< 24) |||
              ((lsb % 2) <<< 25) ∧
        w.testBit 24 = true ∧ (w.testBit 25 = true ↔ lsb % 2 = 1)) := by
  obtain ⟨ctx, rfl, hd, hcode⟩ := OutputEnableExt_success ch pol lsb code context hs
  obtain ⟨ctx1, heq, _⟩ := OutputEnableExt_good ch pol lsb code ctx hd hcode
  refine ⟨ctx, idacRegValue pol lsb code, rfl, ?_, rfl, rfl, fun hl =>
    ⟨idacRegValue_word pol lsb code hl, idacRegValue_legs pol lsb code hl hcode⟩⟩
  rw [heq]
  by_cases hb : cfgBusOnly ch ctx.cfgCopy = CY_CSDIDAC_ENABLE
  · simp [regWrites, hb]
  · cases hpin : cfgPin ch ctx.cfgCopy <;> simp [regWrites, hb, setPinHSIOM]

/-- Instance of C12: channel B, source, LSB index 5, code 127. -/
theorem C12_witness :
    (Cy_CSDIDAC_OutputEnableExt CY_CSDIDAC_B CY_CSDIDAC_SOURCE 5 127 (some sampleCtx)).status
      = CY_CSDIDAC_SUCCESS ∧
    ∃ ctx w, some sampleCtx = some ctx ∧
      regWrites
          (Cy_CSDIDAC_OutputEnableExt CY_CSDIDAC_B CY_CSDIDAC_SOURCE 5 127 (some sampleCtx)).ops
        = [(ctx.cfgCopy.base, idacRegOf CY_CSDIDAC_B, w)] ∧
      idacRegOf CY_CSDIDAC_A = CY_CSD_REG_OFFSET_IDACA ∧
      idacRegOf CY_CSDIDAC_B = CY_CSD_REG_OFFSET_IDACB ∧
      (5 ≤ 5 →
        w = 127 ||| (CY_CSDIDAC_SOURCE.toNat <<< 8) ||| ((5 / 2) <<< 22) ||| (1 <<< 24) |||
              ((5 % 2) <<< 25) ∧
        w.testBit 24 = true ∧ (w.testBit 25 = true ↔ 5 % 2 = 1)) :=
  ⟨by decide,
    C12_OutputEnableExt_single_register_write CY_CSDIDAC_B CY_CSDIDAC_SOURCE 5 127
      (some sampleCtx) (by decide)⟩

/-- C14: `Cy_CSDIDAC_OutputDisable` returns BAD_PARAM for an absent context and
SUCCESS for every present one; it then writes zero to the register of the
addressed channel (its only register write), switches the pin of the channel
back to GPIO exactly when the channel is not bus-only and a pin is configured
(no pin operation otherwise), marks the channel disabled and leaves its
recorded polarity, LSB index and code unchanged. -/
theorem C14_OutputDisable_effect (ch : cy_en_csdidac_choice_t)
    (ctx : cy_stc_csdidac_context_t) :
    Cy_CSDIDAC_OutputDisable ch none = ⟨CY_CSDIDAC_BAD_PARAM, none, []⟩ ∧
    (Cy_CSDIDAC_OutputDisable ch (some ctx)).status = CY_CSDIDAC_SUCCESS ∧
    regWrites (Cy_CSDIDAC_OutputDisable ch (some ctx)).ops
      = [(ctx.cfgCopy.base, idacRegOf ch, 0)] ∧
    (∀ p, cfgPin ch ctx.cfgCopy = some p → cfgBusOnly ch ctx.cfgCopy ≠ CY_CSDIDAC_ENABLE →
      pinOps (Cy_CSDIDAC_OutputDisable ch (some ctx)).ops
        = [HwOp.Cy_GPIO_SetHSIOM p.ioPcPtr p.pin HSIOM_SEL_GPIO_PIN]) ∧
    (cfgPin ch ctx.cfgCopy = none ∨ cfgBusOnly ch ctx.cfgCopy = CY_CSDIDAC_ENABLE →
      pinOps (Cy_CSDIDAC_OutputDisable ch (some ctx)).ops = []) ∧
    ∃ ctx1, (Cy_CSDIDAC_OutputDisable ch (some ctx)).context = some ctx1 ∧
      chState ch ctx1 = CY_CSDIDAC_DISABLE ∧ chPolarity ch ctx1 = chPolarity ch ctx ∧
      chLsb ch ctx1 = chLsb ch ctx ∧ chCode ch ctx1 = chCode ch ctx := by
  obtain ⟨ctx1, heq, hst, hp, hl, hc, _⟩ := OutputDisable_eq ch ctx
  rw [heq]
  refine ⟨rfl, rfl, ?_, ?_, ?_, ctx1, rfl, hst, hp, hl, hc⟩
  · by_cases hb : cfgBusOnly ch ctx.cfgCopy = CY_CSDIDAC_ENABLE
    · simp [regWrites, hb]
    · cases hpin : cfgPin ch ctx.cfgCopy <;> simp [regWrites, hb, setPinHSIOM]
  · intro p hpin hb
    simp [pinOps, hb, hpin, setPinHSIOM]
  · intro h
    rcases h with h | h <;> simp [pinOps, h]

/-- C15: `Cy_CSDIDAC_OutputDisable` is idempotent: for every context (present or
absent) and channel, the second of two successive calls returns the same
status, leaves the same context and makes the same hardware accesses (register
write and pin operation) as the first. -/
theorem C15_OutputDisable_idempotent (ch : cy_en_csdidac_choice_t)
    (context : Option cy_stc_csdidac_context_t) :
    Cy_CSDIDAC_OutputDisable ch (Cy_CSDIDAC_OutputDisable ch context).context
      = Cy_CSDIDAC_OutputDisable ch context := by
  cases context with
  | none => rfl
  | some ctx =>
    cases ch <;>
      simp [Cy_CSDIDAC_OutputDisable, Cy_CSDIDAC_DisconnectChannelA,
        Cy_CSDIDAC_DisconnectChannelB]

/-- C16: for every polarity, LSB index and code of at most 127 and a context
whose channel (A in particular) has a destination, a successful
`Cy_CSDIDAC_OutputEnableExt` followed by `Cy_CSDIDAC_OutputDisable` on the same
channel leaves the channel disabled with recorded polarity, LSB index and code
equal to the values just written; when a pin is configured and the channel is
not bus-only, the last hardware access of the two calls switches that pin back
to GPIO. -/
theorem C16_enable_then_disable (ch : cy_en_csdidac_choice_t)
    (pol : cy_en_csdidac_polarity_t) (lsb code : Nat) (ctx : cy_stc_csdidac_context_t)
    (hd : hasDestination ch ctx.cfgCopy) (hcode : code ≤ 127) :
    (Cy_CSDIDAC_OutputEnableExt ch pol lsb code (some ctx)).status = CY_CSDIDAC_SUCCESS ∧
    (Cy_CSDIDAC_OutputDisable ch
      (Cy_CSDIDAC_OutputEnableExt ch pol lsb code (some ctx)).context).status
      = CY_CSDIDAC_SUCCESS ∧
    (∃ ctx2,
      (Cy_CSDIDAC_OutputDisable ch
        (Cy_CSDIDAC_OutputEnableExt ch pol lsb code (some ctx)).context).context = some ctx2 ∧
      chState ch ctx2 = CY_CSDIDAC_DISABLE ∧ chPolarity ch ctx2 = pol ∧
      chLsb ch ctx2 = lsb ∧ chCode ch ctx2 = code) ∧
    (∀ p, cfgPin ch ctx.cfgCopy = some p → cfgBusOnly ch ctx.cfgCopy ≠ CY_CSDIDAC_ENABLE →
      ((Cy_CSDIDAC_OutputEnableExt ch pol lsb code (some ctx)).ops ++
        (Cy_CSDIDAC_OutputDisable ch
          (Cy_CSDIDAC_OutputEnableExt ch pol lsb code (some ctx)).context).ops).getLast?
        = some (HwOp.Cy_GPIO_SetHSIOM p.ioPcPtr p.pin HSIOM_SEL_GPIO_PIN)) := by
  obtain ⟨ctx1, heq, hp, hl, hc, _, hcfg, _⟩ := OutputEnableExt_good ch pol lsb code ctx hd hcode
  obtain ⟨ctx2, heq2, hst2, hp2, hl2, hc2, _⟩ := OutputDisable_eq ch ctx1
  have hctx : (Cy_CSDIDAC_OutputEnableExt ch pol lsb code (some ctx)).context = some ctx1 := by
    rw [heq]
  rw [hctx, heq2, heq]
  refine ⟨rfl, rfl, ⟨ctx2, rfl, hst2, hp2.trans hp, hl2.trans hl, hc2.trans hc⟩, ?_⟩
  intro p hpin hb
  rw [hcfg]
  simp [hb, hpin, setPinHSIOM]

/-- Instance of C16: channel A of the sample context, which is on a pin. -/
theorem C16_witness :
    hasDestination CY_CSDIDAC_A sampleCtx.cfgCopy ∧ 100 ≤ 127 ∧
    ((Cy_CSDIDAC_OutputEnableExt CY_CSDIDAC_A CY_CSDIDAC_SINK 3 100
        (some sampleCtx)).status = CY_CSDIDAC_SUCCESS ∧
    (Cy_CSDIDAC_OutputDisable CY_CSDIDAC_A
      (Cy_CSDIDAC_OutputEnableExt CY_CSDIDAC_A CY_CSDIDAC_SINK 3 100
        (some sampleCtx)).context).status = CY_CSDIDAC_SUCCESS ∧
    (∃ ctx2,
      (Cy_CSDIDAC_OutputDisable CY_CSDIDAC_A
        (Cy_CSDIDAC_OutputEnableExt CY_CSDIDAC_A CY_CSDIDAC_SINK 3 100
          (some sampleCtx)).context).context = some ctx2 ∧
      chState CY_CSDIDAC_A ctx2 = CY_CSDIDAC_DISABLE ∧
      chPolarity CY_CSDIDAC_A ctx2 = CY_CSDIDAC_SINK ∧
      chLsb CY_CSDIDAC_A ctx2 = 3 ∧ chCode CY_CSDIDAC_A ctx2 = 100) ∧
    (∀ p, cfgPin CY_CSDIDAC_A sampleCtx.cfgCopy = some p →
      cfgBusOnly CY_CSDIDAC_A sampleCtx.cfgCopy ≠ CY_CSDIDAC_ENABLE →
      ((Cy_CSDIDAC_OutputEnableExt CY_CSDIDAC_A CY_CSDIDAC_SINK 3 100 (some sampleCtx)).ops ++
        (Cy_CSDIDAC_OutputDisable CY_CSDIDAC_A
          (Cy_CSDIDAC_OutputEnableExt CY_CSDIDAC_A CY_CSDIDAC_SINK 3 100
            (some sampleCtx)).context).ops).getLast?
        = some (HwOp.Cy_GPIO_SetHSIOM p.ioPcPtr p.pin HSIOM_SEL_GPIO_PIN))) :=
  ⟨by decide, by decide,
    C16_enable_then_disable CY_CSDIDAC_A CY_CSDIDAC_SINK 3 100 sampleCtx (by decide)
      (by decide)⟩

/-! ## Auxiliary lemmas on Cy_CSDIDAC_Restore -/

theorem Restore_held (mvKey : cy_en_csd_key_t) (convStatus : Nat → cy_en_csd_status_t)
    (csdInitStatus : cy_en_csd_status_t) (ctx : cy_stc_csdidac_context_t)
    (h : mvKey ≠ CY_CSD_NONE_KEY) :
    Cy_CSDIDAC_Restore mvKey convStatus csdInitStatus (some ctx)
      = ⟨CY_CSDIDAC_HW_LOCKED, some ctx, []⟩ := by
  have h1 : ¬ (CY_CSD_NONE_KEY = mvKey) := fun e => h e.symm
  simp only [Cy_CSDIDAC_Restore, h1, if_false]

theorem Restore_unheld_status (convStatus : Nat → cy_en_csd_status_t)
    (csdInitStatus : cy_en_csd_status_t) (ctx : cy_stc_csdidac_context_t) :
    (Cy_CSDIDAC_Restore CY_CSD_NONE_KEY convStatus csdInitStatus (some ctx)).status
      = (if CY_CSD_SUCCESS = csdInitStatus then CY_CSDIDAC_SUCCESS else CY_CSDIDAC_HW_BUSY) ∧
    (Cy_CSDIDAC_Restore CY_CSD_NONE_KEY convStatus csdInitStatus (some ctx)).context
      = some ctx := by
  simp only [Cy_CSDIDAC_Restore, if_true, and_self]

/-- The polls of the watchdog loop: `n` calls, `n` within the counter, each
further call made because the previous answer was busy, and an early stop only
at an answer that is not busy. -/
theorem watchdogLoop_polls (convStatus : Nat → cy_en_csd_status_t) (base : Nat)
    (c : Nat) : ∀ (k : Nat) (s : cy_en_csd_status_t),
    ∃ n, (watchdogLoop convStatus base k s c).2
        = List.replicate n (HwOp.Cy_CSD_GetConversionStatus base) ∧
      n ≤ c ∧ (∀ j, j + 1 < n → convStatus (k + j) = CY_CSD_BUSY) ∧
      (0 < n → s = CY_CSD_BUSY) ∧
      (n < c → (n = 0 ∧ s ≠ CY_CSD_BUSY) ∨ (0 < n ∧ convStatus (k + n - 1) ≠ CY_CSD_BUSY)) := by
  induction c with
  | zero =>
    intro k s
    exact ⟨0, rfl, le_refl 0, fun j hj => absurd hj (by omega), fun h => absurd h (by omega),
      fun h => absurd h (by omega)⟩
  | succ c ih =>
    intro k s
    by_cases hs : s = CY_CSD_BUSY
    · obtain ⟨n, hl, hn, hbusy, hfirst, hstop⟩ := ih (k + 1) (convStatus k)
      refine ⟨n + 1, ?_, by omega, ?_, fun _ => hs, ?_⟩
      · simp only [watchdogLoop, hs, if_true, hl, List.replicate_succ]
      · intro j hj
        rcases j with _ | j
        · exact hfirst (by omega)
        · have h := hbusy j (by omega)
          rwa [show k + 1 + j = k + (j + 1) by omega] at h
      · intro hlt
        right
        refine ⟨by omega, ?_⟩
        rcases hstop (by omega) with ⟨h0, hne⟩ | ⟨hpos, hne⟩
        · subst h0
          simpa using hne
        · rwa [show k + 1 + n - 1 = k + (n + 1) - 1 by omega] at hne
    · refine ⟨0, ?_, by omega, fun j hj => absurd hj (by omega),
        fun h => absurd h (by omega), fun _ => Or.inl ⟨rfl, hs⟩⟩
      simp only [watchdogLoop, hs, if_false, List.replicate_zero]

theorem watchdogBudget_le (periClk : Nat) : watchdogBudget periClk ≤ periClk / 5 := by
  simp only [watchdogBudget, U32, Nat.one_mul]
  omega

/-! ## Claims on Cy_CSDIDAC_Restore -/

/-- C17 (as stated, with the lock held under the middleware's own key):
`Cy_CSDIDAC_Restore` returns HW_LOCKED although the holder reported by the
lock-key provider is not a different owner. -/
theorem C17_counterexample_own_key_gives_locked :
    (Cy_CSDIDAC_Restore CY_CSD_IDAC_KEY alwaysBusy CY_CSD_SUCCESS (some sampleCtx)).status
      = CY_CSDIDAC_HW_LOCKED ∧
    ¬ heldByOtherOwner CY_CSD_IDAC_KEY := by
  decide

/-- C17 (amended): for a present context `Cy_CSDIDAC_Restore` returns HW_LOCKED
if and only if the lock-key provider reports any holder, that is a key other
than `CY_CSD_NONE_KEY`: a different owner or the middleware's own key. -/
theorem C17_Restore_locked_iff_held (mvKey : cy_en_csd_key_t)
    (convStatus : Nat → cy_en_csd_status_t) (csdInitStatus : cy_en_csd_status_t)
    (ctx : cy_stc_csdidac_context_t) :
    ((Cy_CSDIDAC_Restore mvKey convStatus csdInitStatus (some ctx)).status
        = CY_CSDIDAC_HW_LOCKED ↔ mvKey ≠ CY_CSD_NONE_KEY) ∧
    (mvKey ≠ CY_CSD_NONE_KEY ↔ (heldByOtherOwner mvKey ∨ mvKey = CY_CSD_IDAC_KEY)) := by
  constructor
  · by_cases h : mvKey = CY_CSD_NONE_KEY
    · subst h
      rw [(Restore_unheld_status convStatus csdInitStatus ctx).1]
      constructor
      · intro hs
        split at hs <;> cases hs
      · intro hne
        exact absurd rfl hne
    · rw [Restore_held mvKey convStatus csdInitStatus ctx h]
      exact ⟨fun _ => h, fun _ => rfl⟩
  · unfold heldByOtherOwner
    constructor
    · intro h
      by_cases hi : mvKey = CY_CSD_IDAC_KEY
      · exact Or.inr hi
      · exact Or.inl ⟨h, hi⟩
    · intro h
      rcases h with h | h
      · exact h.1
      · rw [h]
        decide

/-- C18: `Cy_CSDIDAC_Restore` never changes the context when it fails: whenever
it returns HW_LOCKED or HW_BUSY the context afterwards (configuration copy and
polarity, LSB index, code and enabled flag of both channels) is the one before
the call; when another owner holds the lock it returns HW_LOCKED and makes no
hardware access at all, so no register write. -/
theorem C18_Restore_failure_leaves_context (mvKey : cy_en_csd_key_t)
    (convStatus : Nat → cy_en_csd_status_t) (csdInitStatus : cy_en_csd_status_t)
    (ctx : cy_stc_csdidac_context_t) :
    ((Cy_CSDIDAC_Restore mvKey convStatus csdInitStatus (some ctx)).status
          = CY_CSDIDAC_HW_LOCKED ∨
        (Cy_CSDIDAC_Restore mvKey convStatus csdInitStatus (some ctx)).status
          = CY_CSDIDAC_HW_BUSY →
      (Cy_CSDIDAC_Restore mvKey convStatus csdInitStatus (some ctx)).context = some ctx) ∧
    (heldByOtherOwner mvKey →
      (Cy_CSDIDAC_Restore mvKey convStatus csdInitStatus (some ctx)).status
        = CY_CSDIDAC_HW_LOCKED ∧
      (Cy_CSDIDAC_Restore mvKey convStatus csdInitStatus (some ctx)).context = some ctx ∧
      (Cy_CSDIDAC_Restore mvKey convStatus csdInitStatus (some ctx)).ops = [] ∧
      regWrites (Cy_CSDIDAC_Restore mvKey convStatus csdInitStatus (some ctx)).ops = []) := by
  constructor
  · intro _
    by_cases h : mvKey = CY_CSD_NONE_KEY
    · subst h
      exact (Restore_unheld_status convStatus csdInitStatus ctx).2
    · rw [Restore_held mvKey convStatus csdInitStatus ctx h]
  · intro h
    rw [Restore_held mvKey convStatus csdInitStatus ctx h.1]
    exact ⟨rfl, rfl, rfl, rfl⟩

/-- C19: when the lock is not held, `Cy_CSDIDAC_Restore` returns SUCCESS if
`Cy_CSD_Init` succeeds and HW_BUSY otherwise, whatever the conversion status
answers are: two runs that differ only in those answers (conversion finished
at once, finished during the wait, or never finished within the budget) return
the same status. -/
theorem C19_Restore_unheld_status (convStatus convStatus2 : Nat → cy_en_csd_status_t)
    (csdInitStatus : cy_en_csd_status_t) (ctx : cy_stc_csdidac_context_t) :
    (csdInitStatus = CY_CSD_SUCCESS →
      (Cy_CSDIDAC_Restore CY_CSD_NONE_KEY convStatus csdInitStatus (some ctx)).status
        = CY_CSDIDAC_SUCCESS) ∧
    (csdInitStatus ≠ CY_CSD_SUCCESS →
      (Cy_CSDIDAC_Restore CY_CSD_NONE_KEY convStatus csdInitStatus (some ctx)).status
        = CY_CSDIDAC_HW_BUSY) ∧
    (Cy_CSDIDAC_Restore CY_CSD_NONE_KEY convStatus csdInitStatus (some ctx)).status
      = (Cy_CSDIDAC_Restore CY_CSD_NONE_KEY convStatus2 csdInitStatus (some ctx)).status ∧
    (Cy_CSDIDAC_Restore CY_CSD_NONE_KEY alwaysBusy CY_CSD_SUCCESS (some ctx)).status
      = CY_CSDIDAC_SUCCESS := by
  rw [(Restore_unheld_status convStatus csdInitStatus ctx).1,
    (Restore_unheld_status convStatus2 csdInitStatus ctx).1,
    (Restore_unheld_status alwaysBusy CY_CSD_SUCCESS ctx).1]
  refine ⟨fun h => ?_, fun h => ?_, rfl, rfl⟩
  · rw [h]
    rfl
  · have h1 : ¬ (CY_CSD_SUCCESS = csdInitStatus) := fun e => h e.symm
    simp only [h1, if_false]

/-- C20: the abort-and-wait loop of `Cy_CSDIDAC_Restore` terminates for every
peripheral clock and every sequence of conversion status answers (the loop is
a total function, recursive on the watchdog counter). With the lock not held:
if the first answer is not busy there is no abort and no poll; if it is busy,
the two abort writes are followed by `n` polls and then `Cy_CSD_Init`, where
`n` is at most periClk / 5 (zero when periClk < 5), every poll but the last
was answered busy, fewer than periClk / 5 polls (periClk being a 32-bit value)
are made only when poll number `n` was answered not busy, and exactly
periClk / 5 polls are made when no poll within that count is answered
otherwise than busy. -/
theorem C20_Restore_bounded_polling (convStatus : Nat → cy_en_csd_status_t)
    (csdInitStatus : cy_en_csd_status_t) (ctx : cy_stc_csdidac_context_t) :
    ∃ csdCfg,
      (convStatus 0 ≠ CY_CSD_BUSY →
        (Cy_CSDIDAC_Restore CY_CSD_NONE_KEY convStatus csdInitStatus (some ctx)).ops
          = [HwOp.Cy_CSD_GetConversionStatus ctx.cfgCopy.base,
              HwOp.Cy_CSD_Init ctx.cfgCopy.base csdCfg CY_CSD_IDAC_KEY]) ∧
      (convStatus 0 = CY_CSD_BUSY →
        ∃ n,
          (Cy_CSDIDAC_Restore CY_CSD_NONE_KEY convStatus csdInitStatus (some ctx)).ops
            = [HwOp.Cy_CSD_GetConversionStatus ctx.cfgCopy.base,
                HwOp.Cy_CSD_WriteReg ctx.cfgCopy.base CY_CSD_REG_OFFSET_INTR_MASK 0,
                HwOp.Cy_CSD_WriteReg ctx.cfgCopy.base CY_CSD_REG_OFFSET_SEQ_START 8]
              ++ List.replicate n (HwOp.Cy_CSD_GetConversionStatus ctx.cfgCopy.base)
              ++ [HwOp.Cy_CSD_Init ctx.cfgCopy.base csdCfg CY_CSD_IDAC_KEY] ∧
          n ≤ ctx.cfgCopy.periClk / 5 ∧ (ctx.cfgCopy.periClk < 5 → n = 0) ∧
          (∀ i, 1 ≤ i → i < n → convStatus i = CY_CSD_BUSY) ∧
          (n < watchdogBudget ctx.cfgCopy.periClk → 1 ≤ n ∧ convStatus n ≠ CY_CSD_BUSY) ∧
          watchdogBudget ctx.cfgCopy.periClk = ctx.cfgCopy.periClk % 2 ^ 32 / 5 ∧
          (ctx.cfgCopy.periClk < 2 ^ 32 → n < ctx.cfgCopy.periClk / 5 →
            1 ≤ n ∧ convStatus n ≠ CY_CSD_BUSY) ∧
          (ctx.cfgCopy.periClk < 2 ^ 32 →
            (∀ i, 1 ≤ i → i ≤ ctx.cfgCopy.periClk / 5 → convStatus i = CY_CSD_BUSY) →
            n = ctx.cfgCopy.periClk / 5)) := by
  have hbud : watchdogBudget ctx.cfgCopy.periClk = ctx.cfgCopy.periClk % 2 ^ 32 / 5 := by
    simp only [watchdogBudget, U32, Nat.one_mul, Nat.reducePow]
  refine ⟨{ CY_CSDIDAC_CSD_CONFIG_DEFAULT with
    swBypSel := swBypSelBits CY_CSDIDAC_CSD_CONFIG_DEFAULT.swBypSel ctx.cfgCopy }, ?_, ?_⟩
  · intro h0
    have h1 : ¬ (CY_CSD_BUSY = convStatus 0) := fun e => h0 e.symm
    simp [Cy_CSDIDAC_Restore, h1]
  · intro h0
    obtain ⟨n, hl, hn, hbusy, _, hstop⟩ :=
      watchdogLoop_polls convStatus ctx.cfgCopy.base (watchdogBudget ctx.cfgCopy.periClk) 1
        (convStatus 0)
    have hb := watchdogBudget_le ctx.cfgCopy.periClk
    have hearly : n < watchdogBudget ctx.cfgCopy.periClk →
        1 ≤ n ∧ convStatus n ≠ CY_CSD_BUSY := by
      intro hlt
      rcases hstop hlt with ⟨_, hne⟩ | ⟨hpos, hne⟩
      · exact absurd h0 hne
      · refine ⟨hpos, ?_⟩
        rwa [show 1 + n - 1 = n by omega] at hne
    refine ⟨n, ?_, by omega, fun hlt => by omega, ?_, hearly, hbud, ?_, ?_⟩
    · rw [h0] at hl
      simp [Cy_CSDIDAC_Restore, h0, hl, CY_CSDIDAC_CSD_INTR_MASK_CLEAR_MSK,
        CY_CSDIDAC_FSM_ABORT]
    · intro i hi hin
      have h := hbusy (i - 1) (by omega)
      rwa [show 1 + (i - 1) = i by omega] at h
    · intro h32 hlt
      apply hearly
      rw [hbud, Nat.mod_eq_of_lt h32]
      exact hlt
    · intro h32 hall
      have hw : watchdogBudget ctx.cfgCopy.periClk = ctx.cfgCopy.periClk / 5 := by
        rw [hbud, Nat.mod_eq_of_lt h32]
      by_contra hne
      have hlt : n < watchdogBudget ctx.cfgCopy.periClk := by omega
      obtain ⟨hpos, hnb⟩ := hearly hlt
      exact hnb (hall n hpos (by omega))

/-! ## Auxiliary lemmas on the lock protocol -/

theorem Restore_context (mvKey : cy_en_csd_key_t) (convStatus : Nat → cy_en_csd_status_t)
    (csdInitStatus : cy_en_csd_status_t) (ctx : cy_stc_csdidac_context_t) :
    (Cy_CSDIDAC_Restore mvKey convStatus csdInitStatus (some ctx)).context = some ctx := by
  by_cases h : mvKey = CY_CSD_NONE_KEY
  · subst h
    exact (Restore_unheld_status convStatus csdInitStatus ctx).2
  · rw [Restore_held mvKey convStatus csdInitStatus ctx h]

theorem Restore_status_cases (mvKey : cy_en_csd_key_t) (convStatus : Nat → cy_en_csd_status_t)
    (csdInitStatus : cy_en_csd_status_t) (ctx : cy_stc_csdidac_context_t) :
    (Cy_CSDIDAC_Restore mvKey convStatus csdInitStatus (some ctx)).status
      = (if mvKey = CY_CSD_NONE_KEY then
          (if csdInitStatus = CY_CSD_SUCCESS then CY_CSDIDAC_SUCCESS else CY_CSDIDAC_HW_BUSY)
        else CY_CSDIDAC_HW_LOCKED) := by
  by_cases h : mvKey = CY_CSD_NONE_KEY
  · subst h
    rw [(Restore_unheld_status convStatus csdInitStatus ctx).1]
    by_cases h2 : csdInitStatus = CY_CSD_SUCCESS
    · subst h2
      rfl
    · have h3 : ¬ (CY_CSD_SUCCESS = csdInitStatus) := fun e => h2 e.symm
      simp only [h2, h3, if_false, if_true]
  · rw [Restore_held mvKey convStatus csdInitStatus ctx h]
    simp only [h, if_false]

theorem Disconnect_both (ctx : cy_stc_csdidac_context_t) :
    (Cy_CSDIDAC_DisconnectChannelB (Cy_CSDIDAC_DisconnectChannelA ctx).1).1
      = { ctx with channelStateA := CY_CSDIDAC_DISABLE, channelStateB := CY_CSDIDAC_DISABLE } ∧
    (Cy_CSDIDAC_DisconnectChannelA ctx).2 ++
        (Cy_CSDIDAC_DisconnectChannelB (Cy_CSDIDAC_DisconnectChannelA ctx).1).2
      = disconnectAccesses CY_CSDIDAC_A ctx.cfgCopy ++
          disconnectAccesses CY_CSDIDAC_B ctx.cfgCopy := by
  refine ⟨rfl, ?_⟩
  cases hA : ctx.cfgCopy.ptrPinA <;> cases hB : ctx.cfgCopy.ptrPinB <;>
    by_cases hbA : ctx.cfgCopy.busOnlyA = CY_CSDIDAC_ENABLE <;>
    by_cases hbB : ctx.cfgCopy.busOnlyB = CY_CSDIDAC_ENABLE <;>
    simp [Cy_CSDIDAC_DisconnectChannelA, Cy_CSDIDAC_DisconnectChannelB, disconnectAccesses,
      cfgPin, cfgBusOnly, idacRegOf, setPinHSIOM, hA, hB, hbA, hbB]

theorem Save_success (ctx : cy_stc_csdidac_context_t) :
    Cy_CSDIDAC_Save CY_CSD_SUCCESS (some ctx)
      = ⟨CY_CSDIDAC_SUCCESS,
          some { ctx with channelStateA := CY_CSDIDAC_DISABLE,
                          channelStateB := CY_CSDIDAC_DISABLE },
          HwOp.Cy_CSD_DeInit ctx.cfgCopy.base CY_CSD_IDAC_KEY ::
            (disconnectAccesses CY_CSDIDAC_A ctx.cfgCopy ++
              disconnectAccesses CY_CSDIDAC_B ctx.cfgCopy)⟩ := by
  obtain ⟨h1, h2⟩ := Disconnect_both ctx
  simp only [Cy_CSDIDAC_Save, if_true, h1, List.append_assoc, List.singleton_append]
  rw [List.cons_append, h2]

theorem Save_failure (csdDeInitStatus : cy_en_csd_status_t) (ctx : cy_stc_csdidac_context_t)
    (h : csdDeInitStatus ≠ CY_CSD_SUCCESS) :
    Cy_CSDIDAC_Save csdDeInitStatus (some ctx)
      = ⟨CY_CSDIDAC_HW_LOCKED, some ctx,
          [HwOp.Cy_CSD_DeInit ctx.cfgCopy.base CY_CSD_IDAC_KEY]⟩ := by
  have h1 : ¬ (CY_CSD_SUCCESS = csdDeInitStatus) := fun e => h e.symm
  simp only [Cy_CSDIDAC_Save, h1, if_false]

theorem Init_restore_success (mvKey : cy_en_csd_key_t) (convStatus : Nat → cy_en_csd_status_t)
    (csdInitStatus : cy_en_csd_status_t) (cfg : cy_stc_csdidac_config_t)
    (ctx : cy_stc_csdidac_context_t)
    (h : (Cy_CSDIDAC_Restore mvKey convStatus csdInitStatus
      (some { ctx with cfgCopy := cfg })).status = CY_CSDIDAC_SUCCESS) :
    Cy_CSDIDAC_Init mvKey convStatus csdInitStatus (some cfg) (some ctx)
      = ⟨CY_CSDIDAC_SUCCESS,
          some { ctx with cfgCopy := cfg, channelStateA := CY_CSDIDAC_DISABLE,
                          channelStateB := CY_CSDIDAC_DISABLE },
          (Cy_CSDIDAC_Restore mvKey convStatus csdInitStatus
              (some { ctx with cfgCopy := cfg })).ops ++
            disconnectAccesses CY_CSDIDAC_A cfg ++ disconnectAccesses CY_CSDIDAC_B cfg ++
            [HwOp.Cy_SysLib_DelayUs (cfg.csdInitTime % 65536)]⟩ := by
  have hc := Restore_context mvKey convStatus csdInitStatus { ctx with cfgCopy := cfg }
  obtain ⟨h1, h2⟩ := Disconnect_both { ctx with cfgCopy := cfg }
  simp only [Cy_CSDIDAC_Init, h, hc, Option.getD_some, if_true, h1, Cy_CSDIDAC_Wakeup,
    List.append_assoc]
  rw [← List.append_assoc (Cy_CSDIDAC_DisconnectChannelA _).2, h2]
  simp only [List.append_assoc]

theorem Init_restore_failure (mvKey : cy_en_csd_key_t) (convStatus : Nat → cy_en_csd_status_t)
    (csdInitStatus : cy_en_csd_status_t) (cfg : cy_stc_csdidac_config_t)
    (ctx : cy_stc_csdidac_context_t)
    (h : (Cy_CSDIDAC_Restore mvKey convStatus csdInitStatus
      (some { ctx with cfgCopy := cfg })).status ≠ CY_CSDIDAC_SUCCESS) :
    Cy_CSDIDAC_Init mvKey convStatus csdInitStatus (some cfg) (some ctx)
      = ⟨CY_CSDIDAC_HW_LOCKED, some { ctx with cfgCopy := cfg },
          (Cy_CSDIDAC_Restore mvKey convStatus csdInitStatus
              (some { ctx with cfgCopy := cfg })).ops⟩ := by
  have hc := Restore_context mvKey convStatus csdInitStatus { ctx with cfgCopy := cfg }
  have h1 : ¬ (CY_CSDIDAC_SUCCESS = (Cy_CSDIDAC_Restore mvKey convStatus csdInitStatus
      (some { ctx with cfgCopy := cfg })).status) := fun e => h e.symm
  simp only [Cy_CSDIDAC_Init, h1, hc, Option.getD_some, if_false]

/-! ## Claims on the lock protocol -/

/-- C21: `Cy_CSDIDAC_Save` on a present context: if `Cy_CSD_DeInit` with the
middleware's key fails, it returns HW_LOCKED, the context is unchanged and the
only hardware access is that call (no register write, no pin operation); if it
succeeds, it returns SUCCESS and both channels end disabled, whatever their
state before, each with its register zeroed and its pin switched back to GPIO
where a pin is configured and the channel is not bus-only, the rest of the
context being kept. -/
theorem C21_Save_release (csdDeInitStatus : cy_en_csd_status_t)
    (ctx : cy_stc_csdidac_context_t) :
    (csdDeInitStatus ≠ CY_CSD_SUCCESS →
      (Cy_CSDIDAC_Save csdDeInitStatus (some ctx)).status = CY_CSDIDAC_HW_LOCKED ∧
      (Cy_CSDIDAC_Save csdDeInitStatus (some ctx)).context = some ctx ∧
      (Cy_CSDIDAC_Save csdDeInitStatus (some ctx)).ops
        = [HwOp.Cy_CSD_DeInit ctx.cfgCopy.base CY_CSD_IDAC_KEY] ∧
      regWrites (Cy_CSDIDAC_Save csdDeInitStatus (some ctx)).ops = [] ∧
      pinOps (Cy_CSDIDAC_Save csdDeInitStatus (some ctx)).ops = []) ∧
    (csdDeInitStatus = CY_CSD_SUCCESS →
      (Cy_CSDIDAC_Save csdDeInitStatus (some ctx)).status = CY_CSDIDAC_SUCCESS ∧
      (Cy_CSDIDAC_Save csdDeInitStatus (some ctx)).ops
        = HwOp.Cy_CSD_DeInit ctx.cfgCopy.base CY_CSD_IDAC_KEY ::
            (disconnectAccesses CY_CSDIDAC_A ctx.cfgCopy ++
              disconnectAccesses CY_CSDIDAC_B ctx.cfgCopy) ∧
      ∃ c, (Cy_CSDIDAC_Save csdDeInitStatus (some ctx)).context = some c ∧
        chState CY_CSDIDAC_A c = CY_CSDIDAC_DISABLE ∧
        chState CY_CSDIDAC_B c = CY_CSDIDAC_DISABLE ∧ c.cfgCopy = ctx.cfgCopy ∧
        ∀ ch, chPolarity ch c = chPolarity ch ctx ∧ chLsb ch c = chLsb ch ctx ∧
          chCode ch c = chCode ch ctx) := by
  constructor
  · intro h
    rw [Save_failure csdDeInitStatus ctx h]
    exact ⟨rfl, rfl, rfl, rfl, rfl⟩
  · intro h
    subst h
    rw [Save_success ctx]
    refine ⟨rfl, rfl, _, rfl, rfl, rfl, rfl, fun ch => ?_⟩
    cases ch <;> exact ⟨rfl, rfl, rfl⟩

/-- C22: `Cy_CSDIDAC_Init` with present config and context: if the inner
`Cy_CSDIDAC_Restore` succeeds it returns SUCCESS, the configuration copy equals
config, both channels are disabled and disconnected, and the last hardware
access is the delay of the configured initialization time; if the inner
`Cy_CSDIDAC_Restore` does not succeed (HW_BUSY or HW_LOCKED) it returns
HW_LOCKED; it never returns HW_BUSY. -/
theorem C22_Init_outcome (mvKey : cy_en_csd_key_t) (convStatus : Nat → cy_en_csd_status_t)
    (csdInitStatus : cy_en_csd_status_t) (cfg : cy_stc_csdidac_config_t)
    (ctx : cy_stc_csdidac_context_t) :
    ((Cy_CSDIDAC_Restore mvKey convStatus csdInitStatus
        (some { ctx with cfgCopy := cfg })).status = CY_CSDIDAC_SUCCESS →
      (Cy_CSDIDAC_Init mvKey convStatus csdInitStatus (some cfg) (some ctx)).status
        = CY_CSDIDAC_SUCCESS ∧
      (Cy_CSDIDAC_Init mvKey convStatus csdInitStatus (some cfg) (some ctx)).ops
        = (Cy_CSDIDAC_Restore mvKey convStatus csdInitStatus
              (some { ctx with cfgCopy := cfg })).ops ++
            disconnectAccesses CY_CSDIDAC_A cfg ++ disconnectAccesses CY_CSDIDAC_B cfg ++
            [HwOp.Cy_SysLib_DelayUs (cfg.csdInitTime % 65536)] ∧
      (cfg.csdInitTime < 256 →
        (Cy_CSDIDAC_Init mvKey convStatus csdInitStatus (some cfg) (some ctx)).ops.getLast?
          = some (HwOp.Cy_SysLib_DelayUs cfg.csdInitTime)) ∧
      ∃ c, (Cy_CSDIDAC_Init mvKey convStatus csdInitStatus (some cfg) (some ctx)).context
          = some c ∧
        c.cfgCopy = cfg ∧ chState CY_CSDIDAC_A c = CY_CSDIDAC_DISABLE ∧
        chState CY_CSDIDAC_B c = CY_CSDIDAC_DISABLE) ∧
    ((Cy_CSDIDAC_Restore mvKey convStatus csdInitStatus
        (some { ctx with cfgCopy := cfg })).status ≠ CY_CSDIDAC_SUCCESS →
      (Cy_CSDIDAC_Init mvKey convStatus csdInitStatus (some cfg) (some ctx)).status
        = CY_CSDIDAC_HW_LOCKED) ∧
    (Cy_CSDIDAC_Init mvKey convStatus csdInitStatus (some cfg) (some ctx)).status
      ≠ CY_CSDIDAC_HW_BUSY := by
  by_cases h : (Cy_CSDIDAC_Restore mvKey convStatus csdInitStatus
      (some { ctx with cfgCopy := cfg })).status = CY_CSDIDAC_SUCCESS
  · rw [Init_restore_success mvKey convStatus csdInitStatus cfg ctx h]
    refine ⟨fun _ => ⟨rfl, rfl, fun ht => ?_, _, rfl, rfl, rfl, rfl⟩,
      fun hne => absurd h hne, fun hb => (by cases hb)⟩
    have hm : cfg.csdInitTime % 65536 = cfg.csdInitTime := Nat.mod_eq_of_lt (by omega)
    simp [hm]
  · rw [Init_restore_failure mvKey convStatus csdInitStatus cfg ctx h]
    exact ⟨fun hs => absurd hs h, fun _ => rfl, fun hb => (by cases hb)⟩

/-- C23 (code evaluated at failing inputs): with the block held by another
owner, and with the block free but `Cy_CSD_Init` answering busy (where the
inner `Cy_CSDIDAC_Restore` returns HW_BUSY), `Cy_CSDIDAC_Init` returns
HW_LOCKED, not HW_BUSY. -/
theorem C23_Init_unavailable_block_gives_locked :
    (Cy_CSDIDAC_Init (CY_CSD_OTHER_KEY 2) busyThrice CY_CSD_SUCCESS (some sampleCtx.cfgCopy)
      (some sampleCtx)).status = CY_CSDIDAC_HW_LOCKED ∧
    (Cy_CSDIDAC_Restore CY_CSD_NONE_KEY busyThrice CY_CSD_BUSY (some sampleCtx)).status
      = CY_CSDIDAC_HW_BUSY ∧
    (Cy_CSDIDAC_Init CY_CSD_NONE_KEY busyThrice CY_CSD_BUSY (some sampleCtx.cfgCopy)
      (some sampleCtx)).status = CY_CSDIDAC_HW_LOCKED := by
  decide

/-- C24: `Cy_CSDIDAC_DeInit` is `Cy_CSDIDAC_Save`: for every context (present
or absent) and every answer of the driver both give the same status, the same
context afterwards and the same hardware accesses. -/
theorem C24_DeInit_is_Save (csdDeInitStatus : cy_en_csd_status_t)
    (context : Option cy_stc_csdidac_context_t) :
    Cy_CSDIDAC_DeInit csdDeInitStatus context = Cy_CSDIDAC_Save csdDeInitStatus context ∧
    (Cy_CSDIDAC_DeInit csdDeInitStatus context).status
      = (Cy_CSDIDAC_Save csdDeInitStatus context).status ∧
    (Cy_CSDIDAC_DeInit csdDeInitStatus context).context
      = (Cy_CSDIDAC_Save csdDeInitStatus context).context ∧
    (Cy_CSDIDAC_DeInit csdDeInitStatus context).ops
      = (Cy_CSDIDAC_Save csdDeInitStatus context).ops :=
  ⟨rfl, rfl, rfl, rfl⟩

/-! ## Claims on Cy_CSDIDAC_WriteConfig and Cy_CSDIDAC_DeepSleepCallback -/

theorem WriteConfig_not_own_key (mvKey : cy_en_csd_key_t) (cfg : cy_stc_csdidac_config_t)
    (ctx : cy_stc_csdidac_context_t) (h : mvKey ≠ CY_CSD_IDAC_KEY) :
    Cy_CSDIDAC_WriteConfig mvKey (some cfg) (some ctx)
      = ⟨CY_CSDIDAC_HW_LOCKED, some ctx, []⟩ := by
  have h1 : ¬ (CY_CSD_IDAC_KEY = mvKey) := fun e => h e.symm
  simp only [Cy_CSDIDAC_WriteConfig, h1, if_false]

theorem WriteConfig_busy (cfg : cy_stc_csdidac_config_t) (ctx : cy_stc_csdidac_context_t)
    (h : ctx.channelStateA = CY_CSDIDAC_ENABLE ∨ ctx.channelStateB = CY_CSDIDAC_ENABLE) :
    Cy_CSDIDAC_WriteConfig CY_CSD_IDAC_KEY (some cfg) (some ctx)
      = ⟨CY_CSDIDAC_HW_BUSY, some ctx, []⟩ := by
  have h1 : ¬ (CY_CSDIDAC_DISABLE = ctx.channelStateA ∧
      CY_CSDIDAC_DISABLE = ctx.channelStateB) := by
    rintro ⟨ha, hb⟩
    rcases h with h | h
    · rw [h] at ha
      cases ha
    · rw [h] at hb
      cases hb
  simp only [Cy_CSDIDAC_WriteConfig, h1, if_true, if_false]

theorem WriteConfig_ok (cfg : cy_stc_csdidac_config_t) (ctx : cy_stc_csdidac_context_t)
    (ha : ctx.channelStateA = CY_CSDIDAC_DISABLE) (hb : ctx.channelStateB = CY_CSDIDAC_DISABLE) :
    Cy_CSDIDAC_WriteConfig CY_CSD_IDAC_KEY (some cfg) (some ctx)
      = ⟨CY_CSDIDAC_SUCCESS, some { ctx with cfgCopy := cfg },
          [HwOp.Cy_CSD_WriteReg cfg.base CY_CSD_REG_OFFSET_SW_BYP_SEL (swBypSelBits 0 cfg)]⟩ := by
  simp only [Cy_CSDIDAC_WriteConfig, ha, hb, and_self, if_true]

theorem state_disable_or_enable (s : cy_en_csdidac_state_t) :
    s = CY_CSDIDAC_DISABLE ∨ s = CY_CSDIDAC_ENABLE := by
  cases s
  · exact Or.inl rfl
  · exact Or.inr rfl

/-- C25: with present config and context, `Cy_CSDIDAC_WriteConfig` returns
HW_LOCKED whenever the key reported by the lock-key provider is not the
middleware's own key, whatever the enabled flags of the channels. -/
theorem C25_WriteConfig_locked_without_own_key (mvKey : cy_en_csd_key_t)
    (cfg : cy_stc_csdidac_config_t) (ctx : cy_stc_csdidac_context_t)
    (h : mvKey ≠ CY_CSD_IDAC_KEY) :
    (Cy_CSDIDAC_WriteConfig mvKey (some cfg) (some ctx)).status = CY_CSDIDAC_HW_LOCKED := by
  rw [WriteConfig_not_own_key mvKey cfg ctx h]

/-- Instance of C25: the block is not held and channel A is enabled. -/
theorem C25_witness :
    CY_CSD_NONE_KEY ≠ CY_CSD_IDAC_KEY ∧
    (Cy_CSDIDAC_WriteConfig CY_CSD_NONE_KEY (some sampleCtx.cfgCopy) (some enabledCtx)).status
      = CY_CSDIDAC_HW_LOCKED :=
  ⟨by decide,
    C25_WriteConfig_locked_without_own_key CY_CSD_NONE_KEY sampleCtx.cfgCopy enabledCtx
      (by decide)⟩

/-- C26 (as stated, with the block not held and channel A enabled):
`Cy_CSDIDAC_WriteConfig` returns HW_LOCKED, not HW_BUSY, although a channel is
enabled. -/
theorem C26_counterexample_enabled_but_locked :
    chState CY_CSDIDAC_A enabledCtx = CY_CSDIDAC_ENABLE ∧
    (Cy_CSDIDAC_WriteConfig CY_CSD_NONE_KEY (some sampleCtx.cfgCopy) (some enabledCtx)).status
      = CY_CSDIDAC_HW_LOCKED ∧
    (Cy_CSDIDAC_WriteConfig CY_CSD_NONE_KEY (some sampleCtx.cfgCopy) (some enabledCtx)).status
      ≠ CY_CSDIDAC_HW_BUSY := by
  decide

/-- C26 (amended): with present config and context, `Cy_CSDIDAC_WriteConfig`
returns HW_BUSY if and only if the lock-key provider reports the middleware's
own key and at least one channel is enabled at call time. -/
theorem C26_WriteConfig_busy_iff (mvKey : cy_en_csd_key_t) (cfg : cy_stc_csdidac_config_t)
    (ctx : cy_stc_csdidac_context_t) :
    (Cy_CSDIDAC_WriteConfig mvKey (some cfg) (some ctx)).status = CY_CSDIDAC_HW_BUSY ↔
      (mvKey = CY_CSD_IDAC_KEY ∧
        (chState CY_CSDIDAC_A ctx = CY_CSDIDAC_ENABLE ∨
          chState CY_CSDIDAC_B ctx = CY_CSDIDAC_ENABLE)) := by
  simp only [chState]
  by_cases hk : mvKey = CY_CSD_IDAC_KEY
  · subst hk
    by_cases he : ctx.channelStateA = CY_CSDIDAC_ENABLE ∨ ctx.channelStateB = CY_CSDIDAC_ENABLE
    · rw [WriteConfig_busy cfg ctx he]
      exact ⟨fun _ => ⟨rfl, he⟩, fun _ => rfl⟩
    · have ha : ctx.channelStateA = CY_CSDIDAC_DISABLE :=
        (state_disable_or_enable _).resolve_right (fun h => he (Or.inl h))
      have hb : ctx.channelStateB = CY_CSDIDAC_DISABLE :=
        (state_disable_or_enable _).resolve_right (fun h => he (Or.inr h))
      rw [WriteConfig_ok cfg ctx ha hb]
      exact ⟨fun h => (by cases h), fun h => absurd h.2 he⟩
  · rw [WriteConfig_not_own_key mvKey cfg ctx hk]
    exact ⟨fun h => (by cases h), fun h => absurd h.1 hk⟩

/-- C27: when `Cy_CSDIDAC_WriteConfig` succeeds, the configuration copy equals
the new config, the only hardware access is one write of the recomputed switch
value to the bypass switch select register, and both channels are disabled,
as before the call, with polarity, LSB index and code unchanged; when it
returns BAD_PARAM, HW_LOCKED or HW_BUSY the context is unchanged and there is
no hardware access. -/
theorem C27_WriteConfig_effect (mvKey : cy_en_csd_key_t)
    (config : Option cy_stc_csdidac_config_t)
    (context : Option cy_stc_csdidac_context_t) :
    ((Cy_CSDIDAC_WriteConfig mvKey config context).status = CY_CSDIDAC_SUCCESS →
      ∃ cfg ctx c, config = some cfg ∧ context = some ctx ∧
        (Cy_CSDIDAC_WriteConfig mvKey config context).context = some c ∧
        c.cfgCopy = cfg ∧
        (Cy_CSDIDAC_WriteConfig mvKey config context).ops
          = [HwOp.Cy_CSD_WriteReg cfg.base CY_CSD_REG_OFFSET_SW_BYP_SEL
              (swBypSelBits 0 cfg)] ∧
        regWrites (Cy_CSDIDAC_WriteConfig mvKey config context).ops
          = [(cfg.base, CY_CSD_REG_OFFSET_SW_BYP_SEL, swBypSelBits 0 cfg)] ∧
        ∀ ch, chState ch ctx = CY_CSDIDAC_DISABLE ∧ chState ch c = CY_CSDIDAC_DISABLE ∧
          chPolarity ch c = chPolarity ch ctx ∧ chLsb ch c = chLsb ch ctx ∧
          chCode ch c = chCode ch ctx) ∧
    ((Cy_CSDIDAC_WriteConfig mvKey config context).status ≠ CY_CSDIDAC_SUCCESS →
      ((Cy_CSDIDAC_WriteConfig mvKey config context).status = CY_CSDIDAC_BAD_PARAM ∨
        (Cy_CSDIDAC_WriteConfig mvKey config context).status = CY_CSDIDAC_HW_LOCKED ∨
        (Cy_CSDIDAC_WriteConfig mvKey config context).status = CY_CSDIDAC_HW_BUSY) ∧
      (Cy_CSDIDAC_WriteConfig mvKey config context).context = context ∧
      (Cy_CSDIDAC_WriteConfig mvKey config context).ops = []) := by
  cases config with
  | none =>
    have heq : Cy_CSDIDAC_WriteConfig mvKey none context
        = ⟨CY_CSDIDAC_BAD_PARAM, context, []⟩ := by
      cases context <;> rfl
    rw [heq]
    exact ⟨fun h => (by cases h), fun _ => ⟨Or.inl rfl, rfl, rfl⟩⟩
  | some cfg =>
    cases context with
    | none =>
      have heq : Cy_CSDIDAC_WriteConfig mvKey (some cfg) none
          = ⟨CY_CSDIDAC_BAD_PARAM, none, []⟩ := rfl
      rw [heq]
      exact ⟨fun h => (by cases h), fun _ => ⟨Or.inl rfl, rfl, rfl⟩⟩
    | some ctx =>
      by_cases hk : mvKey = CY_CSD_IDAC_KEY
      · subst hk
        by_cases he : ctx.channelStateA = CY_CSDIDAC_ENABLE ∨
            ctx.channelStateB = CY_CSDIDAC_ENABLE
        · rw [WriteConfig_busy cfg ctx he]
          exact ⟨fun h => (by cases h), fun _ => ⟨Or.inr (Or.inr rfl), rfl, rfl⟩⟩
        · have ha : ctx.channelStateA = CY_CSDIDAC_DISABLE :=
            (state_disable_or_enable _).resolve_right (fun h => he (Or.inl h))
          have hb : ctx.channelStateB = CY_CSDIDAC_DISABLE :=
            (state_disable_or_enable _).resolve_right (fun h => he (Or.inr h))
          rw [WriteConfig_ok cfg ctx ha hb]
          refine ⟨fun _ => ⟨cfg, ctx, _, rfl, rfl, rfl, rfl, rfl, rfl, fun ch => ?_⟩,
            fun h => absurd rfl h⟩
          cases ch
          · exact ⟨ha, ha, rfl, rfl, rfl⟩
          · exact ⟨hb, hb, rfl, rfl, rfl⟩
      · rw [WriteConfig_not_own_key mvKey cfg ctx hk]
        exact ⟨fun h => (by cases h), fun _ => ⟨Or.inr (Or.inl rfl), rfl, rfl⟩⟩

/-- C28: `Cy_CSDIDAC_DeepSleepCallback` returns CY_SYSPM_FAIL if and only if
the mode is CY_SYSPM_CHECK_READY, the lock-key provider reports the
middleware's own key, and channel A or channel B is enabled; in every other
case it returns CY_SYSPM_SUCCESS; the context is returned unchanged and no
hardware access is made. -/
theorem C28_DeepSleepCallback_readiness (mvKey : cy_en_csd_key_t)
    (ctx : cy_stc_csdidac_context_t) (mode : cy_en_syspm_callback_mode_t) :
    ((Cy_CSDIDAC_DeepSleepCallback mvKey ctx mode).1 = CY_SYSPM_FAIL ↔
      (mode = CY_SYSPM_CHECK_READY ∧ mvKey = CY_CSD_IDAC_KEY ∧
        (chState CY_CSDIDAC_A ctx = CY_CSDIDAC_ENABLE ∨
          chState CY_CSDIDAC_B ctx = CY_CSDIDAC_ENABLE))) ∧
    (¬ (mode = CY_SYSPM_CHECK_READY ∧ mvKey = CY_CSD_IDAC_KEY ∧
        (chState CY_CSDIDAC_A ctx = CY_CSDIDAC_ENABLE ∨
          chState CY_CSDIDAC_B ctx = CY_CSDIDAC_ENABLE)) →
      (Cy_CSDIDAC_DeepSleepCallback mvKey ctx mode).1 = CY_SYSPM_SUCCESS) ∧
    (Cy_CSDIDAC_DeepSleepCallback mvKey ctx mode).2.1 = ctx ∧
    (Cy_CSDIDAC_DeepSleepCallback mvKey ctx mode).2.2 = [] := by
  have hiff : (Cy_CSDIDAC_DeepSleepCallback mvKey ctx mode).1 = CY_SYSPM_FAIL ↔
      (mode = CY_SYSPM_CHECK_READY ∧ mvKey = CY_CSD_IDAC_KEY ∧
        (chState CY_CSDIDAC_A ctx = CY_CSDIDAC_ENABLE ∨
          chState CY_CSDIDAC_B ctx = CY_CSDIDAC_ENABLE)) := by
    simp only [Cy_CSDIDAC_DeepSleepCallback, chState]
    constructor
    · intro h
      split at h
      · rename_i hm
        split at h
        · rename_i hc
          exact ⟨hm.symm, hc.1.symm, hc.2.imp Eq.symm Eq.symm⟩
        · cases h
      · cases h
    · rintro ⟨hm, hk, he⟩
      have hc : CY_CSD_IDAC_KEY = mvKey ∧ (CY_CSDIDAC_ENABLE = ctx.channelStateA ∨
          CY_CSDIDAC_ENABLE = ctx.channelStateB) := ⟨hk.symm, he.imp Eq.symm Eq.symm⟩
      simp only [hm, hc, and_self, if_true]
  refine ⟨hiff, fun hn => ?_, rfl, rfl⟩
  cases hr : (Cy_CSDIDAC_DeepSleepCallback mvKey ctx mode).1
  · rfl
  · exact absurd (hiff.mp hr) hn

/-! ## Claims on sequences of calls -/

theorem OutputEnable_cases (ch : cy_en_csdidac_choice_t) (current : Int)
    (ctx : cy_stc_csdidac_context_t) :
    (∃ pol lsb code, code ≤ 127 ∧
      Cy_CSDIDAC_OutputEnable ch current (some ctx)
        = Cy_CSDIDAC_OutputEnableExt ch pol lsb code (some ctx)) ∨
    Cy_CSDIDAC_OutputEnable ch current (some ctx) = ⟨CY_CSDIDAC_BAD_PARAM, some ctx, []⟩ := by
  by_cases h : CY_CSDIDAC_MAX_CURRENT_NA ≥ absCurrent current
  · left
    refine ⟨if 0 > current then CY_CSDIDAC_SINK else CY_CSDIDAC_SOURCE,
      (lsbAndCode (absCurrent current)).1, clampCode (lsbAndCode (absCurrent current)).2,
      clampCode_le (lsbAndCode (absCurrent current)).2, ?_⟩
    simp only [Cy_CSDIDAC_OutputEnable, h, if_true]
  · right
    simp only [Cy_CSDIDAC_OutputEnable, h, if_false]

theorem channel_same_or_other (ch ch1 : cy_en_csdidac_choice_t) :
    ch1 = ch ∨ ch1 = otherChannel ch := by
  cases ch <;> cases ch1 <;> simp [otherChannel]

theorem enabledHasDestination_of_disabled (ctx : cy_stc_csdidac_context_t)
    (ha : ctx.channelStateA = CY_CSDIDAC_DISABLE) (hb : ctx.channelStateB = CY_CSDIDAC_DISABLE) :
    enabledHasDestination ctx := by
  intro ch he
  cases ch
  · simp only [chState] at he
    rw [ha] at he
    cases he
  · simp only [chState] at he
    rw [hb] at he
    cases he

theorem OutputEnableExt_keeps_invariant (ch : cy_en_csdidac_choice_t)
    (pol : cy_en_csdidac_polarity_t) (lsb code : Nat) (ctx ctx1 : cy_stc_csdidac_context_t)
    (hinv : enabledHasDestination ctx)
    (h : (Cy_CSDIDAC_OutputEnableExt ch pol lsb code (some ctx)).context = some ctx1) :
    enabledHasDestination ctx1 := by
  by_cases hv : 127 < code ∨ ¬ hasDestination ch ctx.cfgCopy
  · rw [OutputEnableExt_bad ch pol lsb code ctx hv] at h
    cases h
    exact hinv
  · have hd : hasDestination ch ctx.cfgCopy := by
      by_contra hd
      exact hv (Or.inr hd)
    have hcode : code ≤ 127 := by
      by_contra hc
      exact hv (Or.inl (by omega))
    obtain ⟨c, heq, _, _, _, _, hcfg, _, _, _, hst⟩ :=
      OutputEnableExt_good ch pol lsb code ctx hd hcode
    rw [heq] at h
    cases h
    intro ch1 he
    rw [hcfg]
    rcases channel_same_or_other ch ch1 with h1 | h1
    · rw [h1]
      exact hd
    · rw [h1] at he ⊢
      rw [hst] at he
      exact hinv _ he

theorem OutputDisable_keeps_invariant (ch : cy_en_csdidac_choice_t)
    (ctx ctx1 : cy_stc_csdidac_context_t) (hinv : enabledHasDestination ctx)
    (h : (Cy_CSDIDAC_OutputDisable ch (some ctx)).context = some ctx1) :
    enabledHasDestination ctx1 := by
  obtain ⟨c, heq, hdis, _, _, _, hcfg, _, _, _, hst⟩ := OutputDisable_eq ch ctx
  rw [heq] at h
  cases h
  intro ch1 he
  rw [hcfg]
  rcases channel_same_or_other ch ch1 with h1 | h1
  · rw [h1] at he
    rw [hdis] at he
    cases he
  · rw [h1] at he ⊢
    rw [hst] at he
    exact hinv _ he

theorem Save_keeps_invariant (csdDeInitStatus : cy_en_csd_status_t)
    (ctx ctx1 : cy_stc_csdidac_context_t) (hinv : enabledHasDestination ctx)
    (h : (Cy_CSDIDAC_Save csdDeInitStatus (some ctx)).context = some ctx1) :
    enabledHasDestination ctx1 := by
  by_cases hs : csdDeInitStatus = CY_CSD_SUCCESS
  · subst hs
    rw [Save_success ctx] at h
    cases h
    exact enabledHasDestination_of_disabled _ rfl rfl
  · rw [Save_failure csdDeInitStatus ctx hs] at h
    cases h
    exact hinv

theorem WriteConfig_keeps_invariant (mvKey : cy_en_csd_key_t)
    (config : Option cy_stc_csdidac_config_t) (ctx ctx1 : cy_stc_csdidac_context_t)
    (hinv : enabledHasDestination ctx)
    (h : (Cy_CSDIDAC_WriteConfig mvKey config (some ctx)).context = some ctx1) :
    enabledHasDestination ctx1 := by
  cases config with
  | none =>
    have heq : Cy_CSDIDAC_WriteConfig mvKey none (some ctx)
        = ⟨CY_CSDIDAC_BAD_PARAM, some ctx, []⟩ := rfl
    rw [heq] at h
    cases h
    exact hinv
  | some cfg =>
    by_cases hk : mvKey = CY_CSD_IDAC_KEY
    · subst hk
      by_cases he : ctx.channelStateA = CY_CSDIDAC_ENABLE ∨
          ctx.channelStateB = CY_CSDIDAC_ENABLE
      · rw [WriteConfig_busy cfg ctx he] at h
        cases h
        exact hinv
      · have ha : ctx.channelStateA = CY_CSDIDAC_DISABLE :=
          (state_disable_or_enable _).resolve_right (fun h => he (Or.inl h))
        have hb : ctx.channelStateB = CY_CSDIDAC_DISABLE :=
          (state_disable_or_enable _).resolve_right (fun h => he (Or.inr h))
        rw [WriteConfig_ok cfg ctx ha hb] at h
        cases h
        exact enabledHasDestination_of_disabled _ ha hb
    · rw [WriteConfig_not_own_key mvKey cfg ctx hk] at h
      cases h
      exact hinv

theorem Init_success_invariant (mvKey : cy_en_csd_key_t)
    (convStatus : Nat → cy_en_csd_status_t) (csdInitStatus : cy_en_csd_status_t)
    (config : Option cy_stc_csdidac_config_t) (ctx ctx1 : cy_stc_csdidac_context_t)
    (hs : (Cy_CSDIDAC_Init mvKey convStatus csdInitStatus config (some ctx)).status
      = CY_CSDIDAC_SUCCESS)
    (h : (Cy_CSDIDAC_Init mvKey convStatus csdInitStatus config (some ctx)).context
      = some ctx1) :
    enabledHasDestination ctx1 := by
  cases config with
  | none =>
    have heq : Cy_CSDIDAC_Init mvKey convStatus csdInitStatus none (some ctx)
        = ⟨CY_CSDIDAC_BAD_PARAM, some ctx, []⟩ := rfl
    rw [heq] at hs
    cases hs
  | some cfg =>
    by_cases hr : (Cy_CSDIDAC_Restore mvKey convStatus csdInitStatus
        (some { ctx with cfgCopy := cfg })).status = CY_CSDIDAC_SUCCESS
    · rw [Init_restore_success mvKey convStatus csdInitStatus cfg ctx hr] at h
      cases h
      exact enabledHasDestination_of_disabled _ rfl rfl
    · rw [Init_restore_failure mvKey convStatus csdInitStatus cfg ctx hr] at hs
      cases hs

theorem step_keeps_invariant (call : Call) (ctx ctx1 : cy_stc_csdidac_context_t)
    (hinv : enabledHasDestination ctx) (hok : ¬ call.isFailedInit ctx)
    (h : (call.run (some ctx)).context = some ctx1) : enabledHasDestination ctx1 := by
  cases call with
  | Init mvKey convStatus csdInitStatus config =>
    simp only [Call.isFailedInit, ne_eq, not_not] at hok
    exact Init_success_invariant mvKey convStatus csdInitStatus config ctx ctx1 hok h
  | DeInit st => exact Save_keeps_invariant st ctx ctx1 hinv h
  | Save st => exact Save_keeps_invariant st ctx ctx1 hinv h
  | Restore mvKey convStatus csdInitStatus =>
    simp only [Call.run] at h
    rw [Restore_context] at h
    cases h
    exact hinv
  | WriteConfig mvKey config => exact WriteConfig_keeps_invariant mvKey config ctx ctx1 hinv h
  | OutputEnable ch current =>
    simp only [Call.run] at h
    rcases OutputEnable_cases ch current ctx with ⟨pol, lsb, code, _, heq⟩ | heq
    · rw [heq] at h
      exact OutputEnableExt_keeps_invariant ch pol lsb code ctx ctx1 hinv h
    · rw [heq] at h
      cases h
      exact hinv
  | OutputEnableExt ch pol lsb code =>
    exact OutputEnableExt_keeps_invariant ch pol lsb code ctx ctx1 hinv h
  | OutputDisable ch => exact OutputDisable_keeps_invariant ch ctx ctx1 hinv h

/-- A failed `Cy_CSDIDAC_Init` keeps the invariant as well, unless its config
gives no destination to a channel that is marked enabled. -/
theorem step_keeps_invariant_unless_stripped (call : Call)
    (ctx ctx1 : cy_stc_csdidac_context_t)
    (hinv : enabledHasDestination ctx) (hok : ¬ call.stripsDestination ctx)
    (h : (call.run (some ctx)).context = some ctx1) : enabledHasDestination ctx1 := by
  by_cases hf : call.isFailedInit ctx
  · cases call with
    | Init mvKey convStatus csdInitStatus config =>
      cases config with
      | none =>
        simp only [Call.run, Cy_CSDIDAC_Init] at h
        cases h
        exact hinv
      | some cfg =>
        simp only [Call.isFailedInit] at hf
        have hr : (Cy_CSDIDAC_Restore mvKey convStatus csdInitStatus
            (some { ctx with cfgCopy := cfg })).status ≠ CY_CSDIDAC_SUCCESS := by
          intro hs
          rw [Init_restore_success mvKey convStatus csdInitStatus cfg ctx hs] at hf
          exact hf rfl
        simp only [Call.run] at h
        rw [Init_restore_failure mvKey convStatus csdInitStatus cfg ctx hr] at h
        cases h
        intro ch hst
        by_contra hnd
        apply hok
        refine ⟨hf, ch, ?_, hnd⟩
        cases ch <;> exact hst
    | DeInit st => exact absurd hf (fun h => h)
    | Save st => exact absurd hf (fun h => h)
    | Restore mvKey convStatus csdInitStatus => exact absurd hf (fun h => h)
    | WriteConfig mvKey config => exact absurd hf (fun h => h)
    | OutputEnable ch current => exact absurd hf (fun h => h)
    | OutputEnableExt ch pol lsb code => exact absurd hf (fun h => h)
    | OutputDisable ch => exact absurd hf (fun h => h)
  · exact step_keeps_invariant call ctx ctx1 hinv hf h

/-- A `Cy_CSDIDAC_Init` that fails with a config giving no destination to an
enabled channel leaves that channel enabled without a destination. -/
theorem stripped_breaks_invariant (call : Call) (ctx ctx1 : cy_stc_csdidac_context_t)
    (hs : call.stripsDestination ctx)
    (h : (call.run (some ctx)).context = some ctx1) : ¬ enabledHasDestination ctx1 := by
  cases call with
  | Init mvKey convStatus csdInitStatus config =>
    cases config with
    | none => exact absurd hs (fun h => h)
    | some cfg =>
      obtain ⟨hf, ch, hst, hnd⟩ := hs
      have hr : (Cy_CSDIDAC_Restore mvKey convStatus csdInitStatus
          (some { ctx with cfgCopy := cfg })).status ≠ CY_CSDIDAC_SUCCESS := by
        intro hs
        rw [Init_restore_success mvKey convStatus csdInitStatus cfg ctx hs] at hf
        exact hf rfl
      simp only [Call.run] at h
      rw [Init_restore_failure mvKey convStatus csdInitStatus cfg ctx hr] at h
      cases h
      intro hinv
      apply hnd
      apply hinv ch
      cases ch <;> exact hst
  | DeInit st => exact absurd hs (fun h => h)
  | Save st => exact absurd hs (fun h => h)
  | Restore mvKey convStatus csdInitStatus => exact absurd hs (fun h => h)
  | WriteConfig mvKey config => exact absurd hs (fun h => h)
  | OutputEnable ch current => exact absurd hs (fun h => h)
  | OutputEnableExt ch pol lsb code => exact absurd hs (fun h => h)
  | OutputDisable ch => exact absurd hs (fun h => h)

/-- Sequences without any failed later `Cy_CSDIDAC_Init` are among the
sequences in which no failed `Cy_CSDIDAC_Init` strips a destination. -/
theorem ReachableInitOk_keeps_destinations (ctx : cy_stc_csdidac_context_t)
    (h : ReachableInitOk ctx) : ReachableKeepingDestinations ctx := by
  induction h with
  | init mvKey convStatus csdInitStatus cfg ctx0 ctx hs hc =>
    exact ReachableKeepingDestinations.init mvKey convStatus csdInitStatus cfg ctx0 ctx hs hc
  | step call ctx ctx1 _ hok hrun ih =>
    refine ReachableKeepingDestinations.step call ctx ctx1 ih ?_ hrun
    intro hs
    apply hok
    cases call with
    | Init mvKey convStatus csdInitStatus config =>
      cases config with
      | none => exact absurd hs (fun h => h)
      | some cfg => exact hs.1
    | DeInit st => exact absurd hs (fun h => h)
    | Save st => exact absurd hs (fun h => h)
    | Restore mvKey convStatus csdInitStatus => exact absurd hs (fun h => h)
    | WriteConfig mvKey config => exact absurd hs (fun h => h)
    | OutputEnable ch current => exact absurd hs (fun h => h)
    | OutputEnableExt ch pol lsb code => exact absurd hs (fun h => h)
    | OutputDisable ch => exact absurd hs (fun h => h)

/-- C30 (as stated): after a successful `Cy_CSDIDAC_Init` and an enable of
channel A, a second `Cy_CSDIDAC_Init` with a config that gives channel A no
destination, failing because the block is already held, replaces the
configuration copy and leaves channel A marked enabled without a destination. -/
theorem C30_counterexample_failed_init_breaks_invariant :
    ∃ ctx, Reachable ctx ∧ chState CY_CSDIDAC_A ctx = CY_CSDIDAC_ENABLE ∧
      ¬ hasDestination CY_CSDIDAC_A ctx.cfgCopy :=
  ⟨{ sampleCtx with cfgCopy := bareCtx.cfgCopy, lsbA := 2, codeA := 64,
                    channelStateA := CY_CSDIDAC_ENABLE },
    Reachable.step (Call.Init CY_CSD_IDAC_KEY busyThrice CY_CSD_SUCCESS (some bareCtx.cfgCopy))
      { sampleCtx with lsbA := 2, codeA := 64, channelStateA := CY_CSDIDAC_ENABLE } _
      (Reachable.step (Call.OutputEnableExt CY_CSDIDAC_A CY_CSDIDAC_SOURCE 2 64) sampleCtx _
        (Reachable.init CY_CSD_NONE_KEY busyThrice CY_CSD_SUCCESS sampleCtx.cfgCopy sampleCtx
          sampleCtx (by decide) (by decide))
        (by decide))
      (by decide),
    by decide, by decide⟩

/-- C30 (amended): in every context reachable from a successful
`Cy_CSDIDAC_Init` by any sequence of calls of the public functions (Init,
DeInit, Save, Restore, WriteConfig, OutputEnable, OutputEnableExt,
OutputDisable, the driver answering anything, failed calls included) in which
no `Cy_CSDIDAC_Init` fails with a config that gives no destination to a
channel marked enabled at that moment, a channel is marked enabled only if the
configuration copy gives it a destination; and each such excluded call does
leave an enabled channel without a destination. -/
theorem C30_enabled_channel_has_destination (ctx : cy_stc_csdidac_context_t)
    (h : ReachableKeepingDestinations ctx) :
    enabledHasDestination ctx ∧
    (∀ (call : Call) (ctx1 ctx2 : cy_stc_csdidac_context_t),
      call.stripsDestination ctx1 → (call.run (some ctx1)).context = some ctx2 →
      ¬ enabledHasDestination ctx2) := by
  refine ⟨?_, fun call ctx1 ctx2 hs hrun => stripped_breaks_invariant call ctx1 ctx2 hs hrun⟩
  induction h with
  | init mvKey convStatus csdInitStatus cfg ctx0 ctx hs hc =>
    exact Init_success_invariant mvKey convStatus csdInitStatus (some cfg) ctx0 ctx hs hc
  | step call ctx ctx1 _ hok hrun ih =>
    exact step_keeps_invariant_unless_stripped call ctx ctx1 ih hok hrun

/-- Instance of C30: a successful init, an enable of channel A, then two
failed inits (one without a config, one with the same config while the block
is held), after which channel A is still enabled with its destination. -/
theorem C30_witness :
    ReachableKeepingDestinations
        { sampleCtx with lsbA := 2, codeA := 64, channelStateA := CY_CSDIDAC_ENABLE } ∧
    (Cy_CSDIDAC_Init CY_CSD_IDAC_KEY busyThrice CY_CSD_SUCCESS (some sampleCtx.cfgCopy)
      (some { sampleCtx with lsbA := 2, codeA := 64,
                             channelStateA := CY_CSDIDAC_ENABLE })).status
      = CY_CSDIDAC_HW_LOCKED ∧
    enabledHasDestination
        { sampleCtx with lsbA := 2, codeA := 64, channelStateA := CY_CSDIDAC_ENABLE } :=
  have hr : ReachableKeepingDestinations
      { sampleCtx with lsbA := 2, codeA := 64, channelStateA := CY_CSDIDAC_ENABLE } :=
    ReachableKeepingDestinations.step
      (Call.Init CY_CSD_IDAC_KEY busyThrice CY_CSD_SUCCESS (some sampleCtx.cfgCopy))
      { sampleCtx with lsbA := 2, codeA := 64, channelStateA := CY_CSDIDAC_ENABLE } _
      (ReachableKeepingDestinations.step
        (Call.Init CY_CSD_NONE_KEY busyThrice CY_CSD_SUCCESS none)
        { sampleCtx with lsbA := 2, codeA := 64, channelStateA := CY_CSDIDAC_ENABLE } _
        (ReachableKeepingDestinations.step
          (Call.OutputEnableExt CY_CSDIDAC_A CY_CSDIDAC_SOURCE 2 64) sampleCtx _
          (ReachableKeepingDestinations.init CY_CSD_NONE_KEY busyThrice CY_CSD_SUCCESS
            sampleCtx.cfgCopy sampleCtx sampleCtx (by decide) (by decide))
          (fun hf => hf) (by decide))
        (fun hf => hf) (by decide))
      (fun hf => by
        obtain ⟨_, ch, hst, hnd⟩ := hf
        cases ch
        · exact hnd (by decide)
        · exact absurd hst (by decide))
      (by decide)
  ⟨hr, by decide, (C30_enabled_channel_has_destination _ hr).1⟩

/-! ## Claims on invariants and frames -/

theorem Init_context_cases (mvKey : cy_en_csd_key_t) (convStatus : Nat → cy_en_csd_status_t)
    (csdInitStatus : cy_en_csd_status_t) (config : Option cy_stc_csdidac_config_t)
    (ctx : cy_stc_csdidac_context_t) :
    ∃ c, (Cy_CSDIDAC_Init mvKey convStatus csdInitStatus config (some ctx)).context = some c ∧
      ∀ ch, chPolarity ch c = chPolarity ch ctx ∧ chLsb ch c = chLsb ch ctx ∧
        chCode ch c = chCode ch ctx := by
  cases config with
  | none => exact ⟨ctx, rfl, fun ch => ⟨rfl, rfl, rfl⟩⟩
  | some cfg =>
    by_cases hr : (Cy_CSDIDAC_Restore mvKey convStatus csdInitStatus
        (some { ctx with cfgCopy := cfg })).status = CY_CSDIDAC_SUCCESS
    · rw [Init_restore_success mvKey convStatus csdInitStatus cfg ctx hr]
      refine ⟨_, rfl, fun ch => ?_⟩
      cases ch <;> exact ⟨rfl, rfl, rfl⟩
    · rw [Init_restore_failure mvKey convStatus csdInitStatus cfg ctx hr]
      refine ⟨_, rfl, fun ch => ?_⟩
      cases ch <;> exact ⟨rfl, rfl, rfl⟩

theorem Save_context_cases (csdDeInitStatus : cy_en_csd_status_t)
    (ctx : cy_stc_csdidac_context_t) :
    ∃ c, (Cy_CSDIDAC_Save csdDeInitStatus (some ctx)).context = some c ∧
      ∀ ch, chPolarity ch c = chPolarity ch ctx ∧ chLsb ch c = chLsb ch ctx ∧
        chCode ch c = chCode ch ctx := by
  by_cases hs : csdDeInitStatus = CY_CSD_SUCCESS
  · subst hs
    rw [Save_success ctx]
    refine ⟨_, rfl, fun ch => ?_⟩
    cases ch <;> exact ⟨rfl, rfl, rfl⟩
  · rw [Save_failure csdDeInitStatus ctx hs]
    exact ⟨ctx, rfl, fun ch => ⟨rfl, rfl, rfl⟩⟩

theorem WriteConfig_context_cases (mvKey : cy_en_csd_key_t)
    (config : Option cy_stc_csdidac_config_t) (ctx : cy_stc_csdidac_context_t) :
    ∃ c, (Cy_CSDIDAC_WriteConfig mvKey config (some ctx)).context = some c ∧
      ∀ ch, chPolarity ch c = chPolarity ch ctx ∧ chLsb ch c = chLsb ch ctx ∧
        chCode ch c = chCode ch ctx := by
  cases config with
  | none => exact ⟨ctx, rfl, fun ch => ⟨rfl, rfl, rfl⟩⟩
  | some cfg =>
    by_cases hk : mvKey = CY_CSD_IDAC_KEY
    · subst hk
      by_cases he : ctx.channelStateA = CY_CSDIDAC_ENABLE ∨
          ctx.channelStateB = CY_CSDIDAC_ENABLE
      · rw [WriteConfig_busy cfg ctx he]
        exact ⟨ctx, rfl, fun ch => ⟨rfl, rfl, rfl⟩⟩
      · have ha : ctx.channelStateA = CY_CSDIDAC_DISABLE :=
          (state_disable_or_enable _).resolve_right (fun h => he (Or.inl h))
        have hb : ctx.channelStateB = CY_CSDIDAC_DISABLE :=
          (state_disable_or_enable _).resolve_right (fun h => he (Or.inr h))
        rw [WriteConfig_ok cfg ctx ha hb]
        refine ⟨_, rfl, fun ch => ?_⟩
        cases ch <;> exact ⟨rfl, rfl, rfl⟩
    · rw [WriteConfig_not_own_key mvKey cfg ctx hk]
      exact ⟨ctx, rfl, fun ch => ⟨rfl, rfl, rfl⟩⟩

theorem OutputEnableExt_code_cases (ch : cy_en_csdidac_choice_t)
    (pol : cy_en_csdidac_polarity_t) (lsb code : Nat) (ctx : cy_stc_csdidac_context_t) :
    ∃ c, (Cy_CSDIDAC_OutputEnableExt ch pol lsb code (some ctx)).context = some c ∧
      ∀ ch1, chCode ch1 c = chCode ch1 ctx ∨ (chCode ch1 c = code ∧ code ≤ 127) := by
  by_cases hv : 127 < code ∨ ¬ hasDestination ch ctx.cfgCopy
  · rw [OutputEnableExt_bad ch pol lsb code ctx hv]
    exact ⟨ctx, rfl, fun ch1 => Or.inl rfl⟩
  · have hd : hasDestination ch ctx.cfgCopy := by
      by_contra hd
      exact hv (Or.inr hd)
    have hcode : code ≤ 127 := by
      by_contra hc
      exact hv (Or.inl (by omega))
    obtain ⟨c, heq, _, _, hc, _, _, _, _, hco, _⟩ :=
      OutputEnableExt_good ch pol lsb code ctx hd hcode
    rw [heq]
    refine ⟨c, rfl, fun ch1 => ?_⟩
    rcases channel_same_or_other ch ch1 with h1 | h1
    · rw [h1]
      exact Or.inr ⟨hc, hcode⟩
    · rw [h1]
      exact Or.inl hco

theorem run_code_cases (call : Call) (ctx : cy_stc_csdidac_context_t) :
    ∃ c, (call.run (some ctx)).context = some c ∧
      ∀ ch1, chCode ch1 c = chCode ch1 ctx ∨ chCode ch1 c ≤ 127 := by
  cases call with
  | Init mvKey convStatus csdInitStatus config =>
    obtain ⟨c, hc, hf⟩ := Init_context_cases mvKey convStatus csdInitStatus config ctx
    exact ⟨c, hc, fun ch1 => Or.inl (hf ch1).2.2⟩
  | DeInit st =>
    obtain ⟨c, hc, hf⟩ := Save_context_cases st ctx
    exact ⟨c, hc, fun ch1 => Or.inl (hf ch1).2.2⟩
  | Save st =>
    obtain ⟨c, hc, hf⟩ := Save_context_cases st ctx
    exact ⟨c, hc, fun ch1 => Or.inl (hf ch1).2.2⟩
  | Restore mvKey convStatus csdInitStatus =>
    exact ⟨ctx, Restore_context mvKey convStatus csdInitStatus ctx, fun ch1 => Or.inl rfl⟩
  | WriteConfig mvKey config =>
    obtain ⟨c, hc, hf⟩ := WriteConfig_context_cases mvKey config ctx
    exact ⟨c, hc, fun ch1 => Or.inl (hf ch1).2.2⟩
  | OutputEnable ch current =>
    simp only [Call.run]
    rcases OutputEnable_cases ch current ctx with ⟨pol, lsb, code, _, heq⟩ | heq
    · rw [heq]
      obtain ⟨c, hc, hf⟩ := OutputEnableExt_code_cases ch pol lsb code ctx
      refine ⟨c, hc, fun ch1 => ?_⟩
      rcases hf ch1 with h1 | ⟨h1, h2⟩
      · exact Or.inl h1
      · exact Or.inr (by rw [h1]; exact h2)
    · rw [heq]
      exact ⟨ctx, rfl, fun ch1 => Or.inl rfl⟩
  | OutputEnableExt ch pol lsb code =>
    obtain ⟨c, hc, hf⟩ := OutputEnableExt_code_cases ch pol lsb code ctx
    refine ⟨c, hc, fun ch1 => ?_⟩
    rcases hf ch1 with h1 | ⟨h1, h2⟩
    · exact Or.inl h1
    · exact Or.inr (by rw [h1]; exact h2)
  | OutputDisable ch =>
    obtain ⟨c, heq, _, _, _, hc, _, _, _, hco, _⟩ := OutputDisable_eq ch ctx
    refine ⟨c, by simp only [Call.run]; rw [heq], fun ch1 => ?_⟩
    rcases channel_same_or_other ch ch1 with h1 | h1
    · rw [h1]
      exact Or.inl hc
    · rw [h1]
      exact Or.inl hco

/-- C31: if both recorded codes are in [0,127] before a call of a public
function (Init, DeInit, Save, Restore, WriteConfig, OutputEnable,
OutputEnableExt, OutputDisable), whatever its arguments, the answers of the
driver and its result, they are in [0,127] after it; and whenever
`Cy_CSDIDAC_OutputEnableExt` stores a code, the 8-bit store keeps its value. -/
theorem C31_codes_stay_in_range (call : Call) (ctx : cy_stc_csdidac_context_t)
    (h : codesInRange ctx) :
    (∃ ctx1, (call.run (some ctx)).context = some ctx1 ∧ codesInRange ctx1) ∧
    (∀ ch pol lsb code,
      (Cy_CSDIDAC_OutputEnableExt ch pol lsb code (some ctx)).status = CY_CSDIDAC_SUCCESS →
      code % 256 = code ∧
      (Cy_CSDIDAC_OutputEnableExt ch pol lsb code (some ctx)).context.map (chCode ch)
        = some code) := by
  constructor
  · obtain ⟨c, hc, hf⟩ := run_code_cases call ctx
    refine ⟨c, hc, ?_, ?_⟩
    · rcases hf CY_CSDIDAC_A with h1 | h1
      · rw [h1]
        exact h.1
      · exact h1
    · rcases hf CY_CSDIDAC_B with h1 | h1
      · rw [h1]
        exact h.2
      · exact h1
  · intro ch pol lsb code hs
    obtain ⟨c0, hc0, hd, hcode⟩ := OutputEnableExt_success ch pol lsb code (some ctx) hs
    cases hc0
    obtain ⟨c, heq, _, _, hc, _⟩ := OutputEnableExt_good ch pol lsb code ctx hd hcode
    refine ⟨Nat.mod_eq_of_lt (by omega), ?_⟩
    rw [heq]
    simp [hc]

/-- Instance of C31: an enable of channel A with code 127 on the sample
context. -/
theorem C31_witness :
    codesInRange sampleCtx ∧
    ((∃ ctx1,
      ((Call.OutputEnableExt CY_CSDIDAC_A CY_CSDIDAC_SINK 5 127).run (some sampleCtx)).context
        = some ctx1 ∧ codesInRange ctx1) ∧
    (∀ ch pol lsb code,
      (Cy_CSDIDAC_OutputEnableExt ch pol lsb code (some sampleCtx)).status
        = CY_CSDIDAC_SUCCESS →
      code % 256 = code ∧
      (Cy_CSDIDAC_OutputEnableExt ch pol lsb code (some sampleCtx)).context.map (chCode ch)
        = some code)) :=
  ⟨by decide,
    C31_codes_stay_in_range (Call.OutputEnableExt CY_CSDIDAC_A CY_CSDIDAC_SINK 5 127) sampleCtx
      (by decide)⟩

theorem thresholdWalk_ranges (n : Nat) :
    thresholdWalk (n / 127)
      = (if n ≤ 4825 then 0 else if n ≤ 9651 then 1 else if n ≤ 38226 then 2
          else if n ≤ 76326 then 3 else if n ≤ 304926 then 4 else 5) := by
  unfold thresholdWalk
  split_ifs <;> omega

theorem lsbAndCode_fst (n : Nat) (h : n ≤ 609600) :
    (lsbAndCode n).1 = thresholdWalk (n / 127) := by
  rw [thresholdWalk_ranges]
  rcases lsbAndCode_ranges n h with h | h | h | h | h | h
  · rw [h.2]
    simp only [h.1, if_true]
  all_goals
    first
    | (obtain ⟨h1, h2, h3⟩ := h
       rw [h3]
       split_ifs <;> omega)
    | (obtain ⟨h1, h3⟩ := h
       rw [h3]
       split_ifs <;> omega)

/-- C33: the LSB index recorded by `Cy_CSDIDAC_OutputEnable` follows the
descending threshold walk on t = |current| / 127: 5 if t > 2400, else 4 if
t > 600, else 3 if t > 300, else 2 if t > 75, else 1 if 10 * t > 375, else 0;
for |current| <= 609600 that is 0 up to 4825, 1 for 4826..9651, 2 for
9652..38226, 3 for 38227..76326, 4 for 76327..304926 and 5 from 304927. -/
theorem C33_OutputEnable_threshold_walk (ch : cy_en_csdidac_choice_t) (current : Int)
    (ctx : cy_stc_csdidac_context_t)
    (hd : hasDestination ch ctx.cfgCopy) (hc : current.natAbs ≤ 609600) :
    ∃ pol code,
      recorded ch (Cy_CSDIDAC_OutputEnable ch current (some ctx))
        = some (pol, thresholdWalk (current.natAbs / 127), code) ∧
      thresholdWalk (current.natAbs / 127)
        = (if current.natAbs ≤ 4825 then 0 else if current.natAbs ≤ 9651 then 1
            else if current.natAbs ≤ 38226 then 2 else if current.natAbs ≤ 76326 then 3
            else if current.natAbs ≤ 304926 then 4 else 5) := by
  obtain ⟨_, hr⟩ := OutputEnable_valid ch current ctx hd hc
  rw [lsbAndCode_fst current.natAbs hc] at hr
  exact ⟨_, _, hr, thresholdWalk_ranges current.natAbs⟩

/-- Instance of C33: 9652 nA is the first magnitude of index 2. -/
theorem C33_witness :
    hasDestination CY_CSDIDAC_A sampleCtx.cfgCopy ∧ (9652 : Int).natAbs ≤ 609600 ∧
    ∃ pol code,
      recorded CY_CSDIDAC_A (Cy_CSDIDAC_OutputEnable CY_CSDIDAC_A 9652 (some sampleCtx))
        = some (pol, thresholdWalk ((9652 : Int).natAbs / 127), code) ∧
      thresholdWalk ((9652 : Int).natAbs / 127)
        = (if (9652 : Int).natAbs ≤ 4825 then 0 else if (9652 : Int).natAbs ≤ 9651 then 1
            else if (9652 : Int).natAbs ≤ 38226 then 2
            else if (9652 : Int).natAbs ≤ 76326 then 3
            else if (9652 : Int).natAbs ≤ 304926 then 4 else 5) :=
  ⟨by decide, by decide,
    C33_OutputEnable_threshold_walk CY_CSDIDAC_A 9652 sampleCtx (by decide) (by decide)⟩


theorem swBypSelBits_zero (cfg : cy_stc_csdidac_config_t) :
    swBypSelBits 0 cfg = switchEnableValue cfg := by
  unfold swBypSelBits switchEnableValue hasDestination
  by_cases ha : cfg.ptrPinA ≠ none ∨ cfg.busOnlyA = CY_CSDIDAC_ENABLE <;>
    by_cases hb : cfg.ptrPinB ≠ none ∨ cfg.busOnlyB = CY_CSDIDAC_ENABLE <;>
    simp only [ha, hb, if_true, if_false] <;> decide

/-- C34: `Cy_CSDIDAC_Restore`, when the block is free, ends with one
`Cy_CSD_Init` with the default register image in which only the bypass-switch
select value is replaced, under the middleware's key, and makes no other
`Cy_CSD_Init`; the value has the channel-A bit 0x1000 exactly when channel A
has a pin or bus-only routing, the channel-B bit 0x10000 exactly when channel
B has, and no other bit; a successful `Cy_CSDIDAC_WriteConfig` with the same
configuration writes that same value to the bypass-switch select register. -/
theorem C34_switch_enable_bits (convStatus : Nat → cy_en_csd_status_t)
    (csdInitStatus : cy_en_csd_status_t) (ctx ctx2 : cy_stc_csdidac_context_t) :
    (∃ before,
      (Cy_CSDIDAC_Restore CY_CSD_NONE_KEY convStatus csdInitStatus (some ctx)).ops
        = before ++ [HwOp.Cy_CSD_Init ctx.cfgCopy.base
            { CY_CSDIDAC_CSD_CONFIG_DEFAULT with swBypSel := switchEnableValue ctx.cfgCopy }
            CY_CSD_IDAC_KEY] ∧
      ∀ op ∈ before, ∀ b c k, op ≠ HwOp.Cy_CSD_Init b c k) ∧
    CY_CSDIDAC_CSD_CONFIG_DEFAULT.swBypSel = 0 ∧
    (switchEnableValue ctx.cfgCopy &&& 0x1000 = 0x1000 ↔
      (ctx.cfgCopy.ptrPinA ≠ none ∨ ctx.cfgCopy.busOnlyA = CY_CSDIDAC_ENABLE)) ∧
    (switchEnableValue ctx.cfgCopy &&& 0x10000 = 0x10000 ↔
      (ctx.cfgCopy.ptrPinB ≠ none ∨ ctx.cfgCopy.busOnlyB = CY_CSDIDAC_ENABLE)) ∧
    switchEnableValue ctx.cfgCopy &&& 0x11000 = switchEnableValue ctx.cfgCopy ∧
    ((Cy_CSDIDAC_WriteConfig CY_CSD_IDAC_KEY (some ctx.cfgCopy) (some ctx2)).status
        = CY_CSDIDAC_SUCCESS →
      (Cy_CSDIDAC_WriteConfig CY_CSD_IDAC_KEY (some ctx.cfgCopy) (some ctx2)).ops
        = [HwOp.Cy_CSD_WriteReg ctx.cfgCopy.base CY_CSD_REG_OFFSET_SW_BYP_SEL
            (switchEnableValue ctx.cfgCopy)]) := by
  refine ⟨?_, rfl, ?_, ?_, ?_, ?_⟩
  · obtain ⟨n, hn, _⟩ := watchdogLoop_polls convStatus ctx.cfgCopy.base
      (watchdogBudget ctx.cfgCopy.periClk) 1 (convStatus 0)
    refine ⟨[HwOp.Cy_CSD_GetConversionStatus ctx.cfgCopy.base] ++
      (if CY_CSD_BUSY = convStatus 0 then
        [HwOp.Cy_CSD_WriteReg ctx.cfgCopy.base CY_CSD_REG_OFFSET_INTR_MASK
            CY_CSDIDAC_CSD_INTR_MASK_CLEAR_MSK,
          HwOp.Cy_CSD_WriteReg ctx.cfgCopy.base CY_CSD_REG_OFFSET_SEQ_START
            CY_CSDIDAC_FSM_ABORT]
          ++ List.replicate n (HwOp.Cy_CSD_GetConversionStatus ctx.cfgCopy.base)
      else []), ?_, ?_⟩
    · have hd : CY_CSDIDAC_CSD_CONFIG_DEFAULT.swBypSel = 0 := rfl
      simp only [Cy_CSDIDAC_Restore, if_true, hn, hd, swBypSelBits_zero]
    · intro op hop b c k
      by_cases hb : CY_CSD_BUSY = convStatus 0
      · simp only [hb, if_true, List.mem_append, List.mem_singleton, List.mem_cons,
          List.mem_replicate, List.not_mem_nil, or_false] at hop
        rcases hop with h | (h | h) | h
        · rw [h]; exact fun h => by cases h
        · rw [h]; exact fun h => by cases h
        · rw [h]; exact fun h => by cases h
        · rw [h.2]; exact fun h => by cases h
      · simp only [hb, if_false, List.append_nil, List.mem_singleton] at hop
        rw [hop]; exact fun h => by cases h
  · unfold switchEnableValue hasDestination
    by_cases ha : ctx.cfgCopy.ptrPinA ≠ none ∨ ctx.cfgCopy.busOnlyA = CY_CSDIDAC_ENABLE <;>
      by_cases hb : ctx.cfgCopy.ptrPinB ≠ none ∨ ctx.cfgCopy.busOnlyB = CY_CSDIDAC_ENABLE <;>
      simp only [ha, hb, if_true, if_false] <;> decide
  · unfold switchEnableValue hasDestination
    by_cases ha : ctx.cfgCopy.ptrPinA ≠ none ∨ ctx.cfgCopy.busOnlyA = CY_CSDIDAC_ENABLE <;>
      by_cases hb : ctx.cfgCopy.ptrPinB ≠ none ∨ ctx.cfgCopy.busOnlyB = CY_CSDIDAC_ENABLE <;>
      simp only [ha, hb, if_true, if_false] <;> decide
  · unfold switchEnableValue hasDestination
    by_cases ha : ctx.cfgCopy.ptrPinA ≠ none ∨ ctx.cfgCopy.busOnlyA = CY_CSDIDAC_ENABLE <;>
      by_cases hb : ctx.cfgCopy.ptrPinB ≠ none ∨ ctx.cfgCopy.busOnlyB = CY_CSDIDAC_ENABLE <;>
      simp only [ha, hb, if_true, if_false] <;> decide
  · intro hs
    by_cases hst : CY_CSDIDAC_DISABLE = ctx2.channelStateA ∧
        CY_CSDIDAC_DISABLE = ctx2.channelStateB
    · rw [WriteConfig_ok ctx.cfgCopy ctx2 hst.1.symm hst.2.symm, swBypSelBits_zero]
    · simp only [Cy_CSDIDAC_WriteConfig, if_true, hst, if_false] at hs
      cases hs


/-- The pre-clamp code of the quantizer rounds to the nearest step wherever it
does not exceed the chosen step range. -/
theorem lsbAndCode_half_step (n : Nat) (hc : n ≤ 609600)
    (hrep : 10 * n ≤ 127 * stepTenths (lsbAndCode n).1) :
    2 * (stepTenths (lsbAndCode n).1 * clampCode (lsbAndCode n).2)
      ≤ 2 * (10 * n) + stepTenths (lsbAndCode n).1 ∧
    2 * (10 * n)
      ≤ 2 * (stepTenths (lsbAndCode n).1 * clampCode (lsbAndCode n).2)
        + stepTenths (lsbAndCode n).1 := by
  rw [clampCode_eq_min]
  rcases lsbAndCode_ranges n hc with h | h | h | h | h | h
  · rw [h.2] at hrep ⊢
    simp only [stepTenths] at hrep ⊢
    omega
  · rw [h.2.2] at hrep ⊢
    simp only [stepTenths] at hrep ⊢
    omega
  · rw [h.2.2] at hrep ⊢
    simp only [stepTenths] at hrep ⊢
    omega
  · rw [h.2.2] at hrep ⊢
    simp only [stepTenths] at hrep ⊢
    omega
  · rw [h.2.2] at hrep ⊢
    simp only [stepTenths] at hrep ⊢
    omega
  · rw [h.2] at hrep ⊢
    simp only [stepTenths] at hrep ⊢
    omega

/-- C35: when the requested magnitude is within the range of the chosen step
(|c| <= 127 * step, the steps in tenths of nA being 375, 750, 3000, 6000,
24000, 48000), the magnitude programmed by `Cy_CSDIDAC_OutputEnable` differs
from |c| by at most half the chosen step, exactly in tenths of nA. -/
theorem C35_OutputEnable_half_step_error (ch : cy_en_csdidac_choice_t) (current : Int)
    (ctx : cy_stc_csdidac_context_t)
    (hd : hasDestination ch ctx.cfgCopy) (hc : current.natAbs ≤ 609600)
    (hrep : 10 * current.natAbs ≤ 127 * stepTenths (lsbAndCode current.natAbs).1) :
    ∃ pol idx code,
      recorded ch (Cy_CSDIDAC_OutputEnable ch current (some ctx)) = some (pol, idx, code) ∧
      idx = (lsbAndCode current.natAbs).1 ∧
      2 * (stepTenths idx * code) ≤ 2 * (10 * current.natAbs) + stepTenths idx ∧
      2 * (10 * current.natAbs) ≤ 2 * (stepTenths idx * code) + stepTenths idx ∧
      stepTenths 0 = 375 := by
  obtain ⟨_, hr⟩ := OutputEnable_valid ch current ctx hd hc
  obtain ⟨h1, h2⟩ := lsbAndCode_half_step current.natAbs hc hrep
  exact ⟨_, _, _, hr, rfl, h1, h2, rfl⟩

/-- Instance of C35: -4700 nA on channel A of the sample context. -/
theorem C35_witness :
    hasDestination CY_CSDIDAC_A sampleCtx.cfgCopy ∧ (-4700 : Int).natAbs ≤ 609600 ∧
    10 * (-4700 : Int).natAbs ≤ 127 * stepTenths (lsbAndCode (-4700 : Int).natAbs).1 ∧
    ∃ pol idx code,
      recorded CY_CSDIDAC_A (Cy_CSDIDAC_OutputEnable CY_CSDIDAC_A (-4700) (some sampleCtx))
        = some (pol, idx, code) ∧
      idx = (lsbAndCode (-4700 : Int).natAbs).1 ∧
      2 * (stepTenths idx * code) ≤ 2 * (10 * (-4700 : Int).natAbs) + stepTenths idx ∧
      2 * (10 * (-4700 : Int).natAbs) ≤ 2 * (stepTenths idx * code) + stepTenths idx ∧
      stepTenths 0 = 375 :=
  ⟨by decide, by decide, by decide,
    C35_OutputEnable_half_step_error CY_CSDIDAC_A (-4700) sampleCtx (by decide) (by decide)
      (by decide)⟩

theorem programmedTenths_mono (n1 n2 : Nat) (h12 : n1 ≤ n2) (h2 : n2 ≤ 609600) :
    programmedTenths n1 ≤ programmedTenths n2 := by
  unfold programmedTenths
  rw [clampCode_eq_min, clampCode_eq_min]
  rcases lsbAndCode_ranges n1 (by omega) with h | h | h | h | h | h <;>
    rcases lsbAndCode_ranges n2 h2 with g | g | g | g | g | g <;>
    (first
      | (exfalso; omega)
      | (simp only [h, g, stepTenths]; omega))

/-- C36: the quantizer of `Cy_CSDIDAC_OutputEnable` is monotone: for currents
with |c1| <= |c2| <= 609600 the magnitude recorded for c1 (step times code, in
tenths of nA) is at most the magnitude recorded for c2, whatever the step
indices chosen for the two. -/
theorem C36_quantizer_monotone (ch : cy_en_csdidac_choice_t) (c1 c2 : Int)
    (ctx : cy_stc_csdidac_context_t) (hd : hasDestination ch ctx.cfgCopy)
    (h12 : c1.natAbs ≤ c2.natAbs) (h2 : c2.natAbs ≤ 609600) :
    ∃ p1 l1 k1 p2 l2 k2,
      recorded ch (Cy_CSDIDAC_OutputEnable ch c1 (some ctx)) = some (p1, l1, k1) ∧
      recorded ch (Cy_CSDIDAC_OutputEnable ch c2 (some ctx)) = some (p2, l2, k2) ∧
      stepTenths l1 * k1 = programmedTenths c1.natAbs ∧
      stepTenths l2 * k2 = programmedTenths c2.natAbs ∧
      stepTenths l1 * k1 ≤ stepTenths l2 * k2 := by
  obtain ⟨_, hr1⟩ := OutputEnable_valid ch c1 ctx hd (by omega)
  obtain ⟨_, hr2⟩ := OutputEnable_valid ch c2 ctx hd h2
  exact ⟨_, _, _, _, _, _, hr1, hr2, rfl, rfl, programmedTenths_mono _ _ h12 h2⟩

/-- Instance of C36: across the boundary between the indices 0 and 1, where the
clamp saturates the code of index 0. -/
theorem C36_witness :
    hasDestination CY_CSDIDAC_A sampleCtx.cfgCopy ∧
    (4825 : Int).natAbs ≤ (-4826 : Int).natAbs ∧ (-4826 : Int).natAbs ≤ 609600 ∧
    ∃ p1 l1 k1 p2 l2 k2,
      recorded CY_CSDIDAC_A (Cy_CSDIDAC_OutputEnable CY_CSDIDAC_A 4825 (some sampleCtx))
        = some (p1, l1, k1) ∧
      recorded CY_CSDIDAC_A (Cy_CSDIDAC_OutputEnable CY_CSDIDAC_A (-4826) (some sampleCtx))
        = some (p2, l2, k2) ∧
      stepTenths l1 * k1 = programmedTenths (4825 : Int).natAbs ∧
      stepTenths l2 * k2 = programmedTenths (-4826 : Int).natAbs ∧
      stepTenths l1 * k1 ≤ stepTenths l2 * k2 :=
  ⟨by decide, by decide, by decide,
    C36_quantizer_monotone CY_CSDIDAC_A 4825 (-4826) sampleCtx (by decide) (by decide)
      (by decide)⟩


theorem lor_shiftLeft_of_lt (a i b : Nat) (h : b < 2 ^ i) : b ||| (a <<< i) = b + a * 2 ^ i := by
  rw [Nat.shiftLeft_eq, Nat.lor_comm, Nat.mul_comm a (2 ^ i), ← Nat.mul_add_lt_is_or h a,
    Nat.add_comm]

/-- The register word as a sum: with a valid index and code each field sits in
its own bit range, so the bitwise OR of the fields is their sum. -/
theorem idacRegValue_sum (pol : cy_en_csdidac_polarity_t) (lsb code : Nat) (hl : lsb ≤ 5)
    (hc : code ≤ 127) :
    idacRegValue pol lsb code
      = code + pol.toNat * 2 ^ 8 + (lsb / 2) * 2 ^ 22 + 2 ^ 24 + (lsb % 2) * 2 ^ 25 := by
  have hp : pol.toNat ≤ 1 := by cases pol <;> simp [cy_en_csdidac_polarity_t.toNat]
  rw [idacRegValue_word pol lsb code hl]
  rw [lor_shiftLeft_of_lt pol.toNat 8 code (by omega)]
  rw [lor_shiftLeft_of_lt (lsb / 2) 22 _ (by omega)]
  rw [lor_shiftLeft_of_lt 1 24 _ (by omega)]
  rw [lor_shiftLeft_of_lt (lsb % 2) 25 _ (by omega), Nat.one_mul]

theorem idacRegValue_decode (pol : cy_en_csdidac_polarity_t) (lsb code : Nat) (hl : lsb ≤ 5)
    (hc : code ≤ 127) :
    wordCode (idacRegValue pol lsb code) = code ∧
    wordPolarity (idacRegValue pol lsb code) = pol.toNat ∧
    wordLsb (idacRegValue pol lsb code) = lsb := by
  have hp : pol.toNat ≤ 1 := by cases pol <;> simp [cy_en_csdidac_polarity_t.toNat]
  have e127 : ∀ x : Nat, x &&& 0x7F = x % 128 := fun x => Nat.and_pow_two_sub_one_eq_mod x 7
  have e3 : ∀ x : Nat, x &&& 3 = x % 4 := fun x => Nat.and_pow_two_sub_one_eq_mod x 2
  have e1 : ∀ x : Nat, x &&& 1 = x % 2 := fun x => Nat.and_pow_two_sub_one_eq_mod x 1
  rw [idacRegValue_sum pol lsb code hl hc]
  refine ⟨?_, ?_, ?_⟩
  · unfold wordCode
    rw [e127]
    omega
  · unfold wordPolarity
    rw [e3, Nat.shiftRight_eq_div_pow]
    omega
  · unfold wordLsb
    rw [e3, e1, Nat.shiftRight_eq_div_pow, Nat.shiftRight_eq_div_pow]
    simp only [Nat.reducePow]
    interval_cases lsb <;> omega

/-- C37: the register word built by `Cy_CSDIDAC_OutputEnableExt` is a lossless
encoding: for either polarity, an LSB index up to 5 and a code up to 127 the
fields occupy disjoint bit ranges (the word is the sum of the shifted fields),
the code is `w & 0x7F`, the polarity `(w >> 8) & 3`, the index
`2 * ((w >> 22) & 3) + ((w >> 25) & 1)`, and a valid triple with the same word
is the same triple. -/
theorem C37_register_word_lossless (pol : cy_en_csdidac_polarity_t) (lsb code : Nat)
    (hl : lsb ≤ 5) (hc : code ≤ 127) :
    wordCode (idacRegValue pol lsb code) = code ∧
    wordPolarity (idacRegValue pol lsb code) = pol.toNat ∧
    wordLsb (idacRegValue pol lsb code) = lsb ∧
    (idacRegValue pol lsb code
        = code + pol.toNat * 2 ^ 8 + (lsb / 2) * 2 ^ 22 + 2 ^ 24 + (lsb % 2) * 2 ^ 25 ∧
      code < 2 ^ 7 ∧ pol.toNat < 2 ^ 2 ∧ lsb / 2 < 2 ^ 2 ∧ lsb % 2 < 2 ^ 1) ∧
    (∀ pol2 lsb2 code2, lsb2 ≤ 5 → code2 ≤ 127 →
      idacRegValue pol2 lsb2 code2 = idacRegValue pol lsb code →
      pol2 = pol ∧ lsb2 = lsb ∧ code2 = code) := by
  obtain ⟨d1, d2, d3⟩ := idacRegValue_decode pol lsb code hl hc
  have hp : pol.toNat ≤ 1 := by cases pol <;> simp [cy_en_csdidac_polarity_t.toNat]
  refine ⟨d1, d2, d3, ⟨idacRegValue_sum pol lsb code hl hc, by omega, by omega, by omega,
    by omega⟩, ?_⟩
  intro pol2 lsb2 code2 hl2 hc2 heq
  obtain ⟨g1, g2, g3⟩ := idacRegValue_decode pol2 lsb2 code2 hl2 hc2
  rw [heq] at g1 g2 g3
  refine ⟨?_, g3.symm.trans d3, g1.symm.trans d1⟩
  have ht : pol2.toNat = pol.toNat := g2.symm.trans d2
  cases pol <;> cases pol2 <;> first | rfl | (exact absurd ht (by decide))

/-- Instance of C37: sink, LSB index 3, code 100. -/
theorem C37_witness :
    (3 : Nat) ≤ 5 ∧ (100 : Nat) ≤ 127 ∧
    wordCode (idacRegValue CY_CSDIDAC_SINK 3 100) = 100 ∧
    wordPolarity (idacRegValue CY_CSDIDAC_SINK 3 100) = CY_CSDIDAC_SINK.toNat ∧
    wordLsb (idacRegValue CY_CSDIDAC_SINK 3 100) = 3 :=
  ⟨by decide, by decide,
    (C37_register_word_lossless CY_CSDIDAC_SINK 3 100 (by decide) (by decide)).1,
    (C37_register_word_lossless CY_CSDIDAC_SINK 3 100 (by decide) (by decide)).2.1,
    (C37_register_word_lossless CY_CSDIDAC_SINK 3 100 (by decide) (by decide)).2.2.1⟩

theorem lsbAndCode_exact (n : Nat) (h : n ≤ 609600) : lsbAndCode n = lsbAndCodeExact n := by
  have hx : lsbAndCodeExact n
      = (if n ≤ 4825 then (0, (10 * n + 187) / 375)
        else if n ≤ 9651 then (1, (n + 37) / 75)
        else if n ≤ 38226 then (2, (n + 150) / 300)
        else if n ≤ 76326 then (3, (n + 300) / 600)
        else if n ≤ 304926 then (4, (n + 1200) / 2400)
        else (5, (n + 2400) / 4800)) := by
    simp only [lsbAndCodeExact, Nat.reduceDiv]
    split_ifs <;> first | omega | (congr 2; omega) | rfl
  rw [hx]
  rcases lsbAndCode_ranges n h with h | h | h | h | h | h
  · rw [h.2, if_pos h.1]
  · rw [h.2.2, if_neg (by omega), if_pos h.2.1]
  · rw [h.2.2, if_neg (by omega), if_neg (by omega), if_pos h.2.1]
  · rw [h.2.2, if_neg (by omega), if_neg (by omega), if_neg (by omega), if_pos h.2.1]
  · rw [h.2.2, if_neg (by omega), if_neg (by omega), if_neg (by omega), if_neg (by omega),
      if_pos h.2.1]
  · rw [h.2, if_neg (by omega), if_neg (by omega), if_neg (by omega), if_neg (by omega),
      if_neg (by omega)]

theorem lsbAndCode_overshoot (n : Nat) (h : n ≤ 609600) (hover : 127 < (lsbAndCode n).2) :
    (lsbAndCode n).1 ≤ 1 := by
  rcases lsbAndCode_ranges n h with h | h | h | h | h | h
  · rw [h.2]
    exact Nat.zero_le 1
  · rw [h.2.2]
  · rw [h.2.2] at hover
    simp only at hover
    omega
  · rw [h.2.2] at hover
    simp only at hover
    omega
  · rw [h.2.2] at hover
    simp only at hover
    omega
  · rw [h.2] at hover
    simp only at hover
    omega

/-- C40: for a current of magnitude at most 609600 no intermediate value of the
quantizer of `Cy_CSDIDAC_OutputEnable` passes `2 ^ 32 - 1` (the magnitude plus
half of each step, ten times the magnitude plus 187, ten times the quotient
by 127), so the chain computed modulo `2 ^ 32` equals the chain computed on
unbounded naturals; and the code before the clamp is above 127 only at the
indices 0 and 1, where 4825 nA and 9651 nA give 129. -/
theorem C40_quantizer_no_overflow (current : Int) (hc : current.natAbs ≤ 609600) :
    absCurrent current = current.natAbs ∧
    current.natAbs + 4800 / 2 < U32 ∧ current.natAbs + 2400 / 2 < U32 ∧
    current.natAbs + 600 / 2 < U32 ∧ current.natAbs + 300 / 2 < U32 ∧
    current.natAbs + 75 / 2 < U32 ∧
    10 * current.natAbs + 187 < U32 ∧ 10 * (current.natAbs / 127) < U32 ∧
    lsbAndCode (absCurrent current) = lsbAndCodeExact current.natAbs ∧
    (127 < (lsbAndCode (absCurrent current)).2 → (lsbAndCode (absCurrent current)).1 ≤ 1) ∧
    lsbAndCode 4825 = (0, 129) ∧ lsbAndCode 9651 = (1, 129) := by
  have ha : absCurrent current = current.natAbs := absCurrent_eq_natAbs current (by omega)
  rw [ha]
  simp only [U32]
  refine ⟨trivial, by omega, by omega, by omega, by omega, by omega, by omega, by omega,
    lsbAndCode_exact _ hc, lsbAndCode_overshoot _ hc, by decide, by decide⟩

/-- Instance of C40: the most negative valid current. -/
theorem C40_witness :
    (-609600 : Int).natAbs ≤ 609600 ∧
    lsbAndCode (absCurrent (-609600)) = lsbAndCodeExact (-609600 : Int).natAbs :=
  ⟨by decide, (C40_quantizer_no_overflow (-609600) (by decide)).2.2.2.2.2.2.2.2.1⟩


/-! ## Claims on failed and repeated initialisation -/

/-- C38: when `Cy_CSDIDAC_Init` with present config and context fails with
HW_LOCKED, the configuration copy of the context has been replaced by the
config while polarity, LSB index, code and enabled flag of both channels are
unchanged; when the config or the context is absent it returns BAD_PARAM,
leaves the context as it is and touches no hardware. -/
theorem C38_failed_Init_frame (mvKey : cy_en_csd_key_t)
    (convStatus : Nat → cy_en_csd_status_t) (csdInitStatus : cy_en_csd_status_t)
    (cfg : cy_stc_csdidac_config_t) (ctx : cy_stc_csdidac_context_t)
    (hfail : (Cy_CSDIDAC_Init mvKey convStatus csdInitStatus (some cfg) (some ctx)).status
      = CY_CSDIDAC_HW_LOCKED) :
    (∃ c, (Cy_CSDIDAC_Init mvKey convStatus csdInitStatus (some cfg) (some ctx)).context
        = some c ∧
      c.cfgCopy = cfg ∧
      ∀ ch, chPolarity ch c = chPolarity ch ctx ∧ chLsb ch c = chLsb ch ctx ∧
        chCode ch c = chCode ch ctx ∧ chState ch c = chState ch ctx) ∧
    (∀ context, Cy_CSDIDAC_Init mvKey convStatus csdInitStatus none context
      = ⟨CY_CSDIDAC_BAD_PARAM, context, []⟩) ∧
    (∀ config, Cy_CSDIDAC_Init mvKey convStatus csdInitStatus config none
      = ⟨CY_CSDIDAC_BAD_PARAM, none, []⟩) := by
  refine ⟨?_, ?_, ?_⟩
  · by_cases hr : (Cy_CSDIDAC_Restore mvKey convStatus csdInitStatus
        (some { ctx with cfgCopy := cfg })).status = CY_CSDIDAC_SUCCESS
    · rw [Init_restore_success mvKey convStatus csdInitStatus cfg ctx hr] at hfail
      cases hfail
    · rw [Init_restore_failure mvKey convStatus csdInitStatus cfg ctx hr]
      refine ⟨_, rfl, rfl, fun ch => ?_⟩
      cases ch <;> exact ⟨rfl, rfl, rfl, rfl⟩
  · intro context
    cases context <;> rfl
  · intro config
    cases config <;> rfl

/-- Instance of C38: the block is held by another owner, the context has
channel A enabled, and the new config has no destination for it. -/
theorem C38_witness :
    (Cy_CSDIDAC_Init (CY_CSD_OTHER_KEY 5) busyThrice CY_CSD_SUCCESS (some bareCtx.cfgCopy)
        (some enabledCtx)).status = CY_CSDIDAC_HW_LOCKED ∧
    ∃ c, (Cy_CSDIDAC_Init (CY_CSD_OTHER_KEY 5) busyThrice CY_CSD_SUCCESS
        (some bareCtx.cfgCopy) (some enabledCtx)).context = some c ∧
      c.cfgCopy = bareCtx.cfgCopy ∧
      ∀ ch, chPolarity ch c = chPolarity ch enabledCtx ∧ chLsb ch c = chLsb ch enabledCtx ∧
        chCode ch c = chCode ch enabledCtx ∧ chState ch c = chState ch enabledCtx :=
  ⟨by decide,
    (C38_failed_Init_frame (CY_CSD_OTHER_KEY 5) busyThrice CY_CSD_SUCCESS bareCtx.cfgCopy
      enabledCtx (by decide)).1⟩

theorem release_not_success (st : cy_en_csd_status_t) (ctx : cy_stc_csdidac_context_t)
    (h : ¬ (Cy_CSDIDAC_Save st (some ctx)).status = CY_CSDIDAC_SUCCESS) :
    st ≠ CY_CSD_SUCCESS := by
  intro hs
  subst hs
  rw [Save_success] at h
  exact h rfl

/-- While no `Cy_CSDIDAC_Save` / `Cy_CSDIDAC_DeInit` succeeds, a block held
under the middleware's key stays held under it. -/
theorem holder_stays_own (h0 h1 : cy_en_csd_key_t) (c0 c1 : cy_stc_csdidac_context_t)
    (hs : StepsWithoutRelease h0 c0 h1 c1) (hh : h0 = CY_CSD_IDAC_KEY) :
    h1 = CY_CSD_IDAC_KEY := by
  induction hs with
  | refl holder ctx => exact hh
  | step call holder holder1 ctx ctx1 ctx2 hprev hag hnr hrun ih =>
    have ih1 := ih hh
    cases call with
    | Init mvKey convStatus csdInitStatus config =>
      have hk : mvKey = CY_CSD_IDAC_KEY := by
        simp only [Call.agreesWith] at hag
        rw [hag, ih1]
      cases config with
      | none => exact ih1
      | some cfg =>
        simp only [Call.holderAfter, hk, reduceCtorEq, false_and, if_false]
        exact ih1
    | Restore mvKey convStatus csdInitStatus =>
      have hk : mvKey = CY_CSD_IDAC_KEY := by
        simp only [Call.agreesWith] at hag
        rw [hag, ih1]
      simp only [Call.holderAfter, hk, reduceCtorEq, false_and, if_false]
      exact ih1
    | DeInit st =>
      have hst : st ≠ CY_CSD_SUCCESS := release_not_success st ctx1 hnr
      simp only [Call.holderAfter, hst, if_false]
      exact ih1
    | Save st =>
      have hst : st ≠ CY_CSD_SUCCESS := release_not_success st ctx1 hnr
      simp only [Call.holderAfter, hst, if_false]
      exact ih1
    | WriteConfig mvKey config => exact ih1
    | OutputEnable ch current => exact ih1
    | OutputEnableExt ch polarity lsbIndex idacCode => exact ih1
    | OutputDisable ch => exact ih1

/-- C39: `Cy_CSDIDAC_Restore` is not re-entrant on its own lock: when the
lock-key provider reports the middleware's own key it returns HW_LOCKED, keeps
the context and makes no hardware access (no `Cy_CSD_Init`); consequently,
after a successful `Cy_CSDIDAC_Init` and any calls among which no
`Cy_CSDIDAC_Save` / `Cy_CSDIDAC_DeInit` succeeds (the lock holder evolving as
the driver keeps it, from whatever context those calls start), the block is
still held under the own key and a second `Cy_CSDIDAC_Init` returns HW_LOCKED
without any hardware access. -/
theorem C39_Restore_not_reentrant (mvKey : cy_en_csd_key_t)
    (convStatus : Nat → cy_en_csd_status_t) (csdInitStatus : cy_en_csd_status_t)
    (cfg : cy_stc_csdidac_config_t) (c0 c1 c2 : cy_stc_csdidac_context_t)
    (holder2 mvKey2 : cy_en_csd_key_t) (convStatus2 : Nat → cy_en_csd_status_t)
    (csdInitStatus2 : cy_en_csd_status_t) (cfg2 : cy_stc_csdidac_config_t)
    (hinit : (Cy_CSDIDAC_Init mvKey convStatus csdInitStatus (some cfg) (some c0)).status
      = CY_CSDIDAC_SUCCESS)
    (hsteps : StepsWithoutRelease
      ((Call.Init mvKey convStatus csdInitStatus (some cfg)).holderAfter mvKey) c1 holder2 c2)
    (hagree : (Call.Init mvKey2 convStatus2 csdInitStatus2 (some cfg2)).agreesWith holder2) :
    (∀ cs ci ctx, Cy_CSDIDAC_Restore CY_CSD_IDAC_KEY cs ci (some ctx)
      = ⟨CY_CSDIDAC_HW_LOCKED, some ctx, []⟩) ∧
    holder2 = CY_CSD_IDAC_KEY ∧
    Cy_CSDIDAC_Init mvKey2 convStatus2 csdInitStatus2 (some cfg2) (some c2)
      = ⟨CY_CSDIDAC_HW_LOCKED, some { c2 with cfgCopy := cfg2 }, []⟩ := by
  have hown : CY_CSD_IDAC_KEY ≠ CY_CSD_NONE_KEY := by decide
  have hfirst : (Call.Init mvKey convStatus csdInitStatus (some cfg)).holderAfter mvKey
      = CY_CSD_IDAC_KEY := by
    by_cases hr : (Cy_CSDIDAC_Restore mvKey convStatus csdInitStatus
        (some { c0 with cfgCopy := cfg })).status = CY_CSDIDAC_SUCCESS
    · rw [Restore_status_cases] at hr
      by_cases hk : mvKey = CY_CSD_NONE_KEY
      · by_cases hi : csdInitStatus = CY_CSD_SUCCESS
        · simp only [Call.holderAfter, hk, hi, and_self, if_true]
        · simp only [hk, hi, if_true, if_false, reduceCtorEq] at hr
      · simp only [hk, if_false, reduceCtorEq] at hr
    · rw [Init_restore_failure mvKey convStatus csdInitStatus cfg c0 hr] at hinit
      cases hinit
  have hheld : holder2 = CY_CSD_IDAC_KEY := holder_stays_own _ _ c1 c2 hsteps hfirst
  have hk2 : mvKey2 = CY_CSD_IDAC_KEY := by
    simp only [Call.agreesWith] at hagree
    rw [hagree, hheld]
  refine ⟨fun cs ci ctx => Restore_held CY_CSD_IDAC_KEY cs ci ctx hown, hheld, ?_⟩
  subst hk2
  have hl := Restore_held CY_CSD_IDAC_KEY convStatus2 csdInitStatus2
    { c2 with cfgCopy := cfg2 } hown
  have hne : (Cy_CSDIDAC_Restore CY_CSD_IDAC_KEY convStatus2 csdInitStatus2
      (some { c2 with cfgCopy := cfg2 })).status ≠ CY_CSDIDAC_SUCCESS := by
    rw [hl]
    exact fun h => by cases h
  rw [Init_restore_failure CY_CSD_IDAC_KEY convStatus2 csdInitStatus2 cfg2 c2 hne, hl]

/-- Instance of C39: a successful initialisation of the sample context, an
enable of channel A, then a second initialisation. -/
theorem C39_witness :
    (Cy_CSDIDAC_Init CY_CSD_NONE_KEY busyThrice CY_CSD_SUCCESS (some sampleCtx.cfgCopy)
        (some sampleCtx)).status = CY_CSDIDAC_SUCCESS ∧
    Cy_CSDIDAC_Init CY_CSD_IDAC_KEY busyThrice CY_CSD_SUCCESS (some bareCtx.cfgCopy)
        (some { sampleCtx with polarityA := CY_CSDIDAC_SINK, lsbA := 3, codeA := 100,
                               channelStateA := CY_CSDIDAC_ENABLE })
      = ⟨CY_CSDIDAC_HW_LOCKED,
          some { sampleCtx with cfgCopy := bareCtx.cfgCopy, polarityA := CY_CSDIDAC_SINK,
                                lsbA := 3, codeA := 100, channelStateA := CY_CSDIDAC_ENABLE },
          []⟩ :=
  ⟨by decide,
    (C39_Restore_not_reentrant CY_CSD_NONE_KEY busyThrice CY_CSD_SUCCESS sampleCtx.cfgCopy
      sampleCtx sampleCtx
      { sampleCtx with polarityA := CY_CSDIDAC_SINK, lsbA := 3, codeA := 100,
                       channelStateA := CY_CSDIDAC_ENABLE }
      CY_CSD_IDAC_KEY CY_CSD_IDAC_KEY busyThrice CY_CSD_SUCCESS
      bareCtx.cfgCopy (by decide)
      (StepsWithoutRelease.step (Call.OutputEnableExt CY_CSDIDAC_A CY_CSDIDAC_SINK 3 100)
        _ _ _ _ _ (StepsWithoutRelease.refl _ _) trivial (fun h => h) (by decide))
      rfl).2.2⟩

end CSDIDAC
